import Mathlib

/-!
A shallow embedding of `src/rb_tree.c` from the bplib repository: a
range-coalescing red-black tree storing 32-bit unsigned integers as
`(value, offset)` ranges in a fixed-size arena with an intrusive
free-list.

Pointers into the node arena are modelled as indices (`Nat`), a nullable
pointer as `Option Nat`.  The `rb_tree_t` structure together with the
arena it owns (`node_block`) forms one state record.  Every C loop is
translated as a fuel-indexed recursion; running out of fuel and
undefined behaviour (dereferencing NULL, a failing `assert`) are
signalled through `Except`.  Machine integers are `Nat` with explicit
`% 2^32` at every arithmetic site where the C source computes in
`uint32_t`.
-/

namespace RBT

/-- Modulus of `uint32_t` arithmetic. -/
def U32MOD : Nat := 4294967296

/-- Value of the C constant `UINT32_MAX`. -/
def UINT32_MAX : Nat := 4294967295

/-- Addition as performed on `uint32_t` operands. -/
def u32add (a b : Nat) : Nat := (a + b) % U32MOD

/-- Subtraction as performed on `uint32_t` operands (wraps on underflow). -/
def u32sub (a b : Nat) : Nat := (a % U32MOD + (U32MOD - b % U32MOD)) % U32MOD

/-- The C macro `MAX_TREE_SIZE`, defined as `((UINT32_MAX / 2) + 1)`. -/
def MAX_TREE_SIZE : Nat := UINT32_MAX / 2 + 1

/-- The C macro `RED` (a boolean in the source). -/
def RED : Bool := true

/-- The C macro `BLACK`. -/
def BLACK : Bool := false

/-- Status codes of the `rb_tree_status_t` enumeration from `rb_tree.h`,
as used throughout `rb_tree.c`. -/
inductive RBStatus where
  | RB_SUCCESS
  | RB_FAIL_NULL_TREE
  | RB_FAIL_NULL_NODE
  | RB_FAIL_NULL_RANGE
  | RB_FAIL_SIZE_ZERO
  | RB_FAIL_EXCEEDED_MAX_SIZE
  | RB_FAIL_MEM_ERR
  | RB_FAIL_TREE_FULL
  | RB_FAIL_INSERT_DUPLICATE
  | RB_FAIL_VALUE_NOT_FOUND
deriving DecidableEq, Repr

export RBStatus (RB_SUCCESS RB_FAIL_NULL_TREE RB_FAIL_NULL_NODE
  RB_FAIL_NULL_RANGE RB_FAIL_SIZE_ZERO RB_FAIL_EXCEEDED_MAX_SIZE
  RB_FAIL_MEM_ERR RB_FAIL_TREE_FULL RB_FAIL_INSERT_DUPLICATE
  RB_FAIL_VALUE_NOT_FOUND)

/-- Errors of the model itself, not of the modelled program: `ub` marks C
undefined behaviour (NULL dereference, a failing `assert`, or access to
node memory that the model cannot reach), `fuel` marks exhaustion of the
fuel given to a loop. -/
inductive Err where
  | ub
  | fuel
deriving DecidableEq, Repr

/-- The `rb_range_t` structure: the range covers
`value, value+1, ..., value+offset`. -/
structure RBRange where
  value : Nat
  offset : Nat
deriving DecidableEq, Repr

/-- The `rb_node_t` structure (field layout as used by every function of
`rb_tree.c`): one range, parent and child links, a color bit and the
transient traversal bit used by the iterator. -/
structure RBNodeData where
  range : RBRange
  parent : Option Nat
  left : Option Nat
  right : Option Nat
  color : Bool
  traversal_state : Bool
deriving DecidableEq, Repr

/-- A zero-initialized node, as produced by `calloc` in `rb_tree_create`. -/
def zeroNode : RBNodeData :=
  { range := { value := 0, offset := 0 }, parent := none, left := none,
    right := none, color := false, traversal_state := false }

/-- The `rb_tree_t` structure together with the node arena it owns.
`node_block` is `true` when the arena allocation is live (the C field is
a non-NULL pointer); `nodes` is the arena itself, a node per slot. -/
structure RBTreeState where
  root : Option Nat
  size : Nat
  max_size : Nat
  free_node_head : Option Nat
  free_node_tail : Option Nat
  node_block : Bool
  nodes : List RBNodeData
deriving DecidableEq, Repr

/-- Reads the node a non-NULL pointer refers to.  All pointers produced
by the modelled code are valid arena indices, so the default is inert. -/
def getNode (s : RBTreeState) (i : Nat) : RBNodeData :=
  s.nodes.getD i zeroNode

/-- Writes one node of the arena through a field update. -/
def updNode (s : RBTreeState) (i : Nat) (f : RBNodeData → RBNodeData) :
    RBTreeState :=
  { s with nodes := s.nodes.set i (f (getNode s i)) }

/-- Dereference of a nullable pointer: NULL is undefined behaviour. -/
def toIdx (p : Option Nat) : Except Err Nat :=
  match p with
  | none => .error .ub
  | some i => .ok i


/-- The C function `pop_free_node`: detaches the free-list tail and
increments `size`; yields NULL when the free-list is empty. -/
def pop_free_node (s : RBTreeState) : Option Nat × RBTreeState :=
  match s.free_node_tail with
  | none => (none, s)
  | some free_node =>
    let s := { s with free_node_tail := (getNode s free_node).left }
    let s :=
      if s.free_node_tail = none then { s with free_node_head := none } else s
    let s := { s with size := u32add s.size 1 }
    (some free_node, s)

/-- The C function `push_free_node`: pushes a node at the free-list head
and decrements `size`; the pushed node's child links are overwritten by
the list links. -/
def push_free_node (s : RBTreeState) (node : Nat) : RBTreeState :=
  let s := updNode s node fun n => { n with right := s.free_node_head }
  let s := updNode s node fun n => { n with left := none }
  let s := { s with size := u32sub s.size 1 }
  if s.free_node_head = none then
    { s with free_node_head := some node, free_node_tail := some node }
  else
    let s := updNode s (s.free_node_head.getD 0) fun n =>
      { n with left := some node }
    { s with free_node_head := some node }

/-- The C function `set_black`. -/
def set_black (s : RBTreeState) (node : Nat) : RBTreeState :=
  updNode s node fun n => { n with color := BLACK }

/-- The C function `set_red`. -/
def set_red (s : RBTreeState) (node : Nat) : RBTreeState :=
  updNode s node fun n => { n with color := RED }

/-- The C function `is_black`: NULL counts as black. -/
def is_black (s : RBTreeState) (node : Option Nat) : Bool :=
  match node with
  | none => true
  | some i => (getNode s i).color == BLACK

/-- The C function `is_red`. -/
def is_red (s : RBTreeState) (node : Option Nat) : Bool :=
  match node with
  | none => false
  | some i => (getNode s i).color == RED

/-- The C function `get_grandparent`. -/
def get_grandparent (s : RBTreeState) (node : Nat) : Option Nat :=
  match (getNode s node).parent with
  | none => none
  | some p => (getNode s p).parent

/-- The C function `is_root`. -/
def is_root (s : RBTreeState) (node : Nat) : Bool :=
  (getNode s node).parent == none

/-- The C function `is_left_child`. -/
def is_left_child (s : RBTreeState) (node : Nat) : Bool :=
  !is_root s node &&
    match (getNode s node).parent with
    | none => false
    | some p => (getNode s p).left == some node

/-- The C function `get_sibling`. -/
def get_sibling (s : RBTreeState) (node : Nat) : Option Nat :=
  match (getNode s node).parent with
  | none => none
  | some p =>
    if is_left_child s node then (getNode s p).right else (getNode s p).left

/-- The C function `get_uncle`. -/
def get_uncle (s : RBTreeState) (node : Nat) : Option Nat :=
  match (getNode s node).parent with
  | none => none
  | some p =>
    match get_grandparent s node with
    | none => none
    | some _ => get_sibling s p

/-- The C function `has_left_child`. -/
def has_left_child (s : RBTreeState) (node : Nat) : Bool :=
  (getNode s node).left != none

/-- The C function `has_right_child`. -/
def has_right_child (s : RBTreeState) (node : Nat) : Bool :=
  (getNode s node).right != none

/-- The C function `remove_from_parent`. -/
def remove_from_parent (s : RBTreeState) (node : Nat) : RBTreeState :=
  if is_root s node then s
  else if is_left_child s node then
    updNode s ((getNode s node).parent.getD 0) fun n => { n with left := none }
  else
    updNode s ((getNode s node).parent.getD 0) fun n => { n with right := none }

/-- The C function `swap_parents`: `node_2`, currently a child of
`node_1`, takes over the parent slot of `node_1`. -/
def swap_parents (s : RBTreeState) (node_1 node_2 : Nat) : RBTreeState :=
  let s := updNode s node_2 fun n => { n with parent := (getNode s node_1).parent }
  let s :=
    if is_root s node_1 then { s with root := some node_2 }
    else if is_left_child s node_1 then
      updNode s ((getNode s node_1).parent.getD 0) fun n =>
        { n with left := some node_2 }
    else
      updNode s ((getNode s node_1).parent.getD 0) fun n =>
        { n with right := some node_2 }
  updNode s node_1 fun n => { n with parent := some node_2 }

/-- The C function `rotate_left`: dereferences `node->right`, so a
missing right child is undefined behaviour. -/
def rotate_left (s : RBTreeState) (node : Nat) : Except Err RBTreeState := do
  let new_parent ← toIdx (getNode s node).right
  let s := updNode s node fun n => { n with right := (getNode s new_parent).left }
  let s := updNode s new_parent fun n => { n with left := some node }
  let s :=
    if has_right_child s node then
      updNode s ((getNode s node).right.getD 0) fun n =>
        { n with parent := some node }
    else s
  pure (swap_parents s node new_parent)

/-- The C function `rotate_right`: dereferences `node->left`. -/
def rotate_right (s : RBTreeState) (node : Nat) : Except Err RBTreeState := do
  let new_parent ← toIdx (getNode s node).left
  let s := updNode s node fun n => { n with left := (getNode s new_parent).right }
  let s := updNode s new_parent fun n => { n with right := some node }
  let s :=
    if has_left_child s node then
      updNode s ((getNode s node).left.getD 0) fun n =>
        { n with parent := some node }
    else s
  pure (swap_parents s node new_parent)

/-- The C function `create_rb_node`: draws a node from the free-list and
initializes it; yields NULL when the arena is exhausted. -/
def create_rb_node (s : RBTreeState) (value : Nat) (color : Bool) :
    Option Nat × RBTreeState :=
  match pop_free_node s with
  | (none, s) => (none, s)
  | (some node, s) =>
    (some node,
      updNode s node fun _ =>
        { range := { value := value, offset := 0 }, parent := none,
          left := none, right := none, color := color,
          traversal_state := false })

/-- The C function `insert_child`; `child_slot_left` tells which of the
two child slots of `parent` the C caller passed a pointer to. -/
def insert_child (s : RBTreeState) (node parent : Nat)
    (child_slot_left : Bool) : RBTreeState :=
  let s := updNode s node fun n => { n with parent := some parent }
  if child_slot_left then
    updNode s parent fun n => { n with left := some node }
  else
    updNode s parent fun n => { n with right := some node }

/-- Loop of `get_left_successor`: walk `right` links. -/
def walk_right : Nat → RBTreeState → Nat → Except Err Nat
  | 0, _, _ => .error .fuel
  | fuel + 1, s, successor =>
    if has_right_child s successor then
      walk_right fuel s ((getNode s successor).right.getD 0)
    else .ok successor

/-- Loop of `get_right_successor`: walk `left` links. -/
def walk_left : Nat → RBTreeState → Nat → Except Err Nat
  | 0, _, _ => .error .fuel
  | fuel + 1, s, successor =>
    if has_left_child s successor then
      walk_left fuel s ((getNode s successor).left.getD 0)
    else .ok successor

/-- The C function `get_left_successor`: right-most node of the left
subtree. -/
def get_left_successor (fuel : Nat) (s : RBTreeState) (node : Nat) :
    Except Err (Option Nat) := do
  if !has_left_child s node then
    pure none
  else do
    let r ← walk_right fuel s ((getNode s node).left.getD 0)
    pure (some r)

/-- The C function `get_right_successor`: left-most node of the right
subtree. -/
def get_right_successor (fuel : Nat) (s : RBTreeState) (node : Nat) :
    Except Err (Option Nat) := do
  if !has_right_child s node then
    pure none
  else do
    let r ← walk_left fuel s ((getNode s node).right.getD 0)
    pure (some r)

/-- The C function `get_successor`. -/
def get_successor (fuel : Nat) (s : RBTreeState) (node : Nat) :
    Except Err (Option Nat) := do
  let successor ← get_left_successor fuel s node
  match successor with
  | none => get_right_successor fuel s node
  | some _ => pure successor

/-- The C function `swap_values`. -/
def swap_values (s : RBTreeState) (n1 n2 : Nat) : RBTreeState :=
  let temp := (getNode s n1).range.value
  let s := updNode s n1 fun n =>
    { n with range := { n.range with value := (getNode s n2).range.value } }
  updNode s n2 fun n => { n with range := { n.range with value := temp } }

/-- The C function `swap_offsets`. -/
def swap_offsets (s : RBTreeState) (n1 n2 : Nat) : RBTreeState :=
  let temp := (getNode s n1).range.offset
  let s := updNode s n1 fun n =>
    { n with range := { n.range with offset := (getNode s n2).range.offset } }
  updNode s n2 fun n => { n with range := { n.range with offset := temp } }

/-- The C function `replace_node`: replaces `node` by `child` in the
parent slot.  When `node` is the root the C source falls into the
right-child branch and dereferences the NULL parent. -/
def replace_node (s : RBTreeState) (node : Nat) (child : Option Nat) :
    Except Err RBTreeState := do
  let parent := (getNode s node).parent
  let s ←
    if is_left_child s node then
      pure (updNode s (parent.getD 0) fun n => { n with left := child })
    else do
      let p ← toIdx parent
      pure (updNode s p fun n => { n with right := child })
  match child with
  | none => pure s
  | some c => pure (updNode s c fun n => { n with parent := parent })

/-- The C function `delete_rebalance`: the deletion fix-up loop
(DELETE_CASE_1 through DELETE_CASE_6), translated case by case with the
source's own short-circuit evaluation order, so each NULL-sibling
dereference of the source is an `ub` here. -/
def delete_rebalance : Nat → RBTreeState → Nat → Except Err RBTreeState
  | 0, _, _ => .error .fuel
  | fuel + 1, s, node => do
    if is_root s node then
      pure s
    else do
      -- DELETE_CASE_2
      let sibling := get_sibling s node
      let parent := (getNode s node).parent
      let s ←
        if is_red s sibling then do
          let p ← toIdx parent
          let s := set_red s p
          let s := set_black s (sibling.getD 0)
          if is_left_child s node then rotate_left s p else rotate_right s p
        else pure s
      -- DELETE_CASE_3
      let sibling := get_sibling s node
      let parent := (getNode s node).parent
      let case3 ←
        if is_black s parent then
          if is_black s sibling then do
            let sib ← toIdx sibling
            pure (is_black s (getNode s sib).left &&
                  is_black s (getNode s sib).right)
          else pure false
        else pure false
      if case3 then do
        let s := set_red s (sibling.getD 0)
        let p ← toIdx parent
        delete_rebalance fuel s p
      else do
        -- DELETE_CASE_4
        let sibling := get_sibling s node
        let parent := (getNode s node).parent
        let case4 ←
          if is_red s parent then
            if is_black s sibling then do
              let sib ← toIdx sibling
              pure (is_black s (getNode s sib).left &&
                    is_black s (getNode s sib).right)
            else pure false
          else pure false
        if case4 then do
          let s := set_red s (sibling.getD 0)
          pure (set_black s (parent.getD 0))
        else do
          -- DELETE_CASE_5
          let sibling := get_sibling s node
          let s ←
            if is_black s sibling then do
              let sib ← toIdx sibling
              let is_left := is_left_child s node
              if is_left && is_black s (getNode s sib).right &&
                  is_red s (getNode s sib).left then do
                let s := set_red s sib
                let s := set_black s ((getNode s sib).left.getD 0)
                rotate_right s sib
              else if !is_left && is_black s (getNode s sib).left &&
                  is_red s (getNode s sib).right then
                rotate_left s sib
              else pure s
            else pure s
          -- DELETE_CASE_6
          let sibling := get_sibling s node
          let sib ← toIdx sibling
          let p ← toIdx (getNode s node).parent
          let s := updNode s sib fun n => { n with color := (getNode s p).color }
          let s := set_black s p
          if is_left_child s node then do
            let sr ← toIdx (getNode s sib).right
            let s := set_black s sr
            rotate_left s p
          else do
            let sl ← toIdx (getNode s sib).left
            let s := set_black s sl
            rotate_right s p

/-- DELETE_CASE_6 of `delete_rebalance` (the tail after the case-5
normalisation): copy the parent's colour onto the sibling, blacken the
parent and the sibling's outer child, and rotate at the parent. -/
def DR6 (s : RBTreeState) (node : Nat) : Except Err RBTreeState := do
  let sibling := get_sibling s node
  let sib ← toIdx sibling
  let p ← toIdx (getNode s node).parent
  let s := updNode s sib fun n => { n with color := (getNode s p).color }
  let s := set_black s p
  if is_left_child s node then do
    let sr ← toIdx (getNode s sib).right
    let s := set_black s sr
    rotate_left s p
  else do
    let sl ← toIdx (getNode s sib).left
    let s := set_black s sl
    rotate_right s p

/-- The tail of `delete_rebalance` from DELETE_CASE_3 onward, after
the case-2 normalisation has made the sibling black. -/
def DRtail (fuel : Nat) (s : RBTreeState) (node : Nat) :
    Except Err RBTreeState := do
  let sibling := get_sibling s node
  let parent := (getNode s node).parent
  let case3 ←
    if is_black s parent then
      if is_black s sibling then do
        let sib ← toIdx sibling
        pure (is_black s (getNode s sib).left &&
              is_black s (getNode s sib).right)
      else pure false
    else pure false
  if case3 then do
    let s := set_red s (sibling.getD 0)
    let p ← toIdx parent
    delete_rebalance fuel s p
  else do
    let sibling := get_sibling s node
    let parent := (getNode s node).parent
    let case4 ←
      if is_red s parent then
        if is_black s sibling then do
          let sib ← toIdx sibling
          pure (is_black s (getNode s sib).left &&
                is_black s (getNode s sib).right)
        else pure false
      else pure false
    if case4 then do
      let s := set_red s (sibling.getD 0)
      pure (set_black s (parent.getD 0))
    else do
      let sibling := get_sibling s node
      let s ←
        if is_black s sibling then do
          let sib ← toIdx sibling
          let is_left := is_left_child s node
          if is_left && is_black s (getNode s sib).right &&
              is_red s (getNode s sib).left then do
            let s := set_red s sib
            let s := set_black s ((getNode s sib).left.getD 0)
            rotate_right s sib
          else if !is_left && is_black s (getNode s sib).left &&
              is_red s (getNode s sib).right then
            rotate_left s sib
          else pure s
        else pure s
      DR6 s node

/-- The C function `delete_one_child`: deletes a node that has at most
one child, rebalancing where the source does, then recycles the node. -/
def delete_one_child (fuel : Nat) (s : RBTreeState) (node : Nat) :
    Except Err RBTreeState := do
  let child :=
    if has_left_child s node then (getNode s node).left else (getNode s node).right
  let s ←
    match child with
    | none => do
      let s ← if is_black s (some node) then delete_rebalance fuel s node
              else pure s
      replace_node s node child
    | some c => do
      let s ← replace_node s node child
      if is_black s (some node) then
        if is_red s (some c) then
          pure (set_black s c)
        else
          delete_rebalance fuel s node
      else pure s
  pure (push_free_node s node)

/-- The C function `delete_rb_node`: swap the payload with the in-order
successor, then delete at the successor's position. -/
def delete_rb_node (fuel : Nat) (s : RBTreeState) (node : Nat) :
    Except Err RBTreeState := do
  let successor_node ← get_successor fuel s node
  match successor_node with
  | some succ => do
    let s := swap_values s node succ
    let s := swap_offsets s node succ
    delete_one_child fuel s succ
  | none =>
    if is_root s node then
      let s := push_free_node s node
      pure { s with root := none }
    else
      delete_one_child fuel s node

/-- The C function `are_consecutive`: `value_2` is the consecutive
integer after `value_1`, with no wrap at `UINT32_MAX`. -/
def are_consecutive (value_1 value_2 : Nat) : Bool :=
  value_1 != UINT32_MAX && u32add value_1 1 == value_2

/-- Loop body of `try_binary_insert_or_merge`: the merge-aware binary
descent from `node`.  Mirrors the branch order of the source: merge
below, go left, merge above, go right, duplicate. -/
def insert_loop (value : Nat) :
    Nat → RBTreeState → Nat → Except Err (RBStatus × Option Nat × RBTreeState)
  | 0, _, _ => .error .fuel
  | fuel + 1, s, node => do
    if are_consecutive value (getNode s node).range.value then do
      let successor ← get_left_successor fuel s node
      match successor with
      | some succ =>
        if are_consecutive
            (u32add (getNode s succ).range.value (getNode s succ).range.offset)
            value then do
          let s := updNode s node fun n =>
            { n with range := { n.range with value := (getNode s succ).range.value } }
          let s := updNode s node fun n =>
            { n with range := { n.range with
                offset := u32add n.range.offset
                  (u32add (getNode s succ).range.offset 2) } }
          let s ← delete_rb_node fuel s succ
          pure (RB_SUCCESS, none, s)
        else do
          let s := updNode s node fun n =>
            { n with range := { n.range with value := value } }
          let s := updNode s node fun n =>
            { n with range := { n.range with offset := u32add n.range.offset 1 } }
          pure (RB_SUCCESS, none, s)
      | none => do
        let s := updNode s node fun n =>
          { n with range := { n.range with value := value } }
        let s := updNode s node fun n =>
          { n with range := { n.range with offset := u32add n.range.offset 1 } }
        pure (RB_SUCCESS, none, s)
    else if value < (getNode s node).range.value then
      if has_left_child s node then
        insert_loop value fuel s ((getNode s node).left.getD 0)
      else
        match create_rb_node s value RED with
        | (none, s) => pure (RB_FAIL_TREE_FULL, none, s)
        | (some inserted, s) =>
          pure (RB_SUCCESS, some inserted, insert_child s inserted node true)
    else if are_consecutive
        (u32add (getNode s node).range.value (getNode s node).range.offset)
        value then do
      let successor ← get_right_successor fuel s node
      match successor with
      | some succ =>
        if are_consecutive value (getNode s succ).range.value then do
          let s := updNode s node fun n =>
            { n with range := { n.range with
                offset := u32add n.range.offset
                  (u32add (getNode s succ).range.offset 2) } }
          let s ← delete_rb_node fuel s succ
          pure (RB_SUCCESS, none, s)
        else do
          let s := updNode s node fun n =>
            { n with range := { n.range with offset := u32add n.range.offset 1 } }
          pure (RB_SUCCESS, none, s)
      | none => do
        let s := updNode s node fun n =>
          { n with range := { n.range with offset := u32add n.range.offset 1 } }
        pure (RB_SUCCESS, none, s)
    else if value > (getNode s node).range.value then
      if has_right_child s node then
        insert_loop value fuel s ((getNode s node).right.getD 0)
      else
        match create_rb_node s value RED with
        | (none, s) => pure (RB_FAIL_TREE_FULL, none, s)
        | (some inserted, s) =>
          pure (RB_SUCCESS, some inserted, insert_child s inserted node false)
    else
      pure (RB_FAIL_INSERT_DUPLICATE, none, s)

/-- The C function `try_binary_insert_or_merge`.  Returns the status,
the `inserted_node` out-parameter and the new state. -/
def try_binary_insert_or_merge (fuel : Nat) (s : RBTreeState) (value : Nat) :
    Except Err (RBStatus × Option Nat × RBTreeState) :=
  match s.root with
  | none =>
    let (created, s) := create_rb_node s value BLACK
    let s := { s with root := created }
    .ok (RB_SUCCESS, s.root, s)
  | some root => insert_loop value fuel s root

/-- The C function `try_insert_rebalance`: the insertion fix-up loop.
In the red-uncle-with-no-grandparent and red-root-parent situations the
source dereferences NULL, which is `ub` here. -/
def try_insert_rebalance : Nat → RBTreeState → Nat → Except Err RBTreeState
  | 0, _, _ => .error .fuel
  | fuel + 1, s, node => do
    let parent := (getNode s node).parent
    let uncle := get_uncle s node
    match parent with
    | none => pure (set_black s node)
    | some p =>
      if is_black s (some p) then
        pure s
      else if uncle != none && is_red s uncle then do
        let s := set_black s p
        let s := set_black s (uncle.getD 0)
        let grandparent := get_grandparent s node
        let g ← toIdx grandparent
        let s := set_red s g
        try_insert_rebalance fuel s g
      else do
        let g ← toIdx (get_grandparent s node)
        let (s, node) ←
          if (getNode s g).left == some p && (getNode s p).right == some node then do
            let s ← rotate_left s p
            let node ← toIdx (getNode s node).left
            pure (s, node)
          else if (getNode s g).right == some p && (getNode s p).left == some node then do
            let s ← rotate_right s p
            let node ← toIdx (getNode s node).right
            pure (s, node)
          else pure (s, node)
        let grandparent := get_grandparent s node
        let parent := (getNode s node).parent
        let g2 ← toIdx grandparent
        let s ←
          if is_left_child s node then rotate_right s g2 else rotate_left s g2
        let p2 ← toIdx parent
        let s := set_black s p2
        pure (set_red s g2)

/-- The tail of `try_insert_rebalance` (source lines 999-1021) after
the inner-rotation normalisation has fixed the working node: recompute
the grandparent, rotate there according to the side of the node, then
recolour the parent black and the grandparent red. -/
def TIRtail (s : RBTreeState) (node : Nat) : Except Err RBTreeState := do
  let grandparent := get_grandparent s node
  let parent := (getNode s node).parent
  let g2 ← toIdx grandparent
  let s ←
    if is_left_child s node then rotate_right s g2 else rotate_left s g2
  let p2 ← toIdx parent
  pure (set_red (set_black s p2) g2)

/-- The C function `delete_rb_node_without_rebalancing`: splice a node
out through the parent slot, under the caller's promise that it has no
left child; the node is pushed on the free-list. -/
def delete_rb_node_without_rebalancing (s : RBTreeState) (node : Nat) :
    RBTreeState :=
  let s :=
    if !is_root s node then
      if is_left_child s node then
        updNode s ((getNode s node).parent.getD 0) fun n =>
          { n with left := (getNode s node).right }
      else
        updNode s ((getNode s node).parent.getD 0) fun n =>
          { n with right := (getNode s node).right }
    else
      { s with root := (getNode s node).right }
  let s :=
    match (getNode s node).right with
    | none => s
    | some r => updNode s r fun n => { n with parent := (getNode s node).parent }
  push_free_node s node

/-- The C function `rb_tree_binary_search`: descend comparing `value`
against whole ranges; a node whose range covers `value` is a hit. -/
def rb_tree_binary_search (fuel : Nat) (s : RBTreeState) (value : Nat) :
    Except Err (Option Nat) :=
  search_loop fuel s s.root value
where
  /-- While-loop of `rb_tree_binary_search`. -/
  search_loop : Nat → RBTreeState → Option Nat → Nat → Except Err (Option Nat)
    | 0, _, _, _ => .error .fuel
    | _ + 1, _, none, _ => .ok none
    | fuel + 1, s, some node, value =>
      if (getNode s node).range.value ≤ value &&
          value ≤ u32add (getNode s node).range.value (getNode s node).range.offset then
        .ok (some node)
      else if (getNode s node).range.value > value then
        search_loop fuel s (getNode s node).left value
      else
        search_loop fuel s (getNode s node).right value

/-- Arena initialization loop of `rb_tree_create`: pushes the slots
`0, 1, ..., count-1` on the free-list in ascending order. -/
def push_all (s : RBTreeState) : Nat → RBTreeState
  | 0 => s
  | n + 1 => push_free_node (push_all s n) n

/-- The C function `rb_tree_create`.  The `rb_tree_t*` argument is NULL
when `treeNull` holds; `allocOk` stands for the success of `calloc`
(which zero-initializes the arena). -/
def rb_tree_create (max_size : Nat) (treeNull allocOk : Bool) :
    RBStatus × Option RBTreeState :=
  if treeNull then (RB_FAIL_NULL_TREE, none)
  else
    let s : RBTreeState :=
      { root := none, size := 0, max_size := 0, free_node_head := none,
        free_node_tail := none, node_block := false, nodes := [] }
    if max_size == 0 then (RB_FAIL_SIZE_ZERO, some s)
    else if max_size > MAX_TREE_SIZE then (RB_FAIL_EXCEEDED_MAX_SIZE, some s)
    else
      let s := { s with size := max_size, max_size := max_size }
      if !allocOk then (RB_FAIL_MEM_ERR, some s)
      else
        let s := { s with
                   node_block := true,
                   nodes := List.replicate max_size zeroNode }
        (RB_SUCCESS, some (push_all s max_size))

/-- The C function `rb_tree_is_empty`: `tree != NULL && tree->size == 0`. -/
def rb_tree_is_empty (t : Option RBTreeState) : Bool :=
  match t with
  | none => false
  | some s => s.size == 0

/-- The C function `rb_tree_is_full`: `tree == NULL || tree->size == tree->max_size`. -/
def rb_tree_is_full (t : Option RBTreeState) : Bool :=
  match t with
  | none => true
  | some s => s.size == s.max_size

/-- While-loop of `rb_tree_clear`: descend one step (left first), then
recycle the node reached and move to its parent. -/
def clear_loop : Nat → RBTreeState → Option Nat → Except Err RBTreeState
  | 0, _, _ => .error .fuel
  | _ + 1, s, none => .ok s
  | fuel + 1, s, some node =>
    let node :=
      if has_left_child s node then (getNode s node).left.getD 0
      else if has_right_child s node then (getNode s node).right.getD 0
      else node
    let s := remove_from_parent s node
    let s := push_free_node s node
    clear_loop fuel s (getNode s node).parent

/-- The C function `rb_tree_clear`. -/
def rb_tree_clear (fuel : Nat) (t : Option RBTreeState) :
    Except Err (RBStatus × Option RBTreeState) :=
  match t with
  | none => .ok (RB_FAIL_NULL_TREE, none)
  | some s =>
    if rb_tree_is_empty (some s) then .ok (RB_SUCCESS, some s)
    else do
      let s ← clear_loop fuel s s.root
      .ok (RB_SUCCESS, some s)

/-- The C function `rb_tree_insert`. -/
def rb_tree_insert (fuel : Nat) (value : Nat) (t : Option RBTreeState) :
    Except Err (RBStatus × Option RBTreeState) :=
  match t with
  | none => .ok (RB_FAIL_NULL_TREE, none)
  | some s =>
    if !s.node_block || s.max_size == 0 then .ok (RB_FAIL_SIZE_ZERO, some s)
    else do
      let (status, inserted_node, s) ← try_binary_insert_or_merge fuel s value
      if status == RB_SUCCESS && inserted_node != none then do
        let s ← try_insert_rebalance fuel s (inserted_node.getD 0)
        pure (status, some s)
      else pure (status, some s)

/-- The C function `rb_tree_delete`, including its mid-range split path;
the source's `assert` calls abort (here: `ub`) when violated. -/
def rb_tree_delete (fuel : Nat) (value : Nat) (t : Option RBTreeState) :
    Except Err (RBStatus × Option RBTreeState) :=
  match t with
  | none => .ok (RB_FAIL_NULL_TREE, none)
  | some s => do
    let found ← rb_tree_binary_search fuel s value
    match found with
    | none => .ok (RB_FAIL_VALUE_NOT_FOUND, some s)
    | some node =>
      if (getNode s node).range.offset == 0 then do
        let s ← delete_rb_node fuel s node
        .ok (RB_SUCCESS, some s)
      else if value == (getNode s node).range.value &&
          (getNode s node).range.offset != 0 then
        let s := updNode s node fun n =>
          { n with range := { n.range with value := u32add n.range.value 1 } }
        let s := updNode s node fun n =>
          { n with range := { n.range with offset := u32sub n.range.offset 1 } }
        .ok (RB_SUCCESS, some s)
      else if value == u32add (getNode s node).range.value
          (getNode s node).range.offset then
        let s := updNode s node fun n =>
          { n with range := { n.range with offset := u32sub n.range.offset 1 } }
        .ok (RB_SUCCESS, some s)
      else do
        let (insert_status, upper_node, s) ←
          try_binary_insert_or_merge fuel s (u32add value 1)
        if insert_status != RB_SUCCESS then
          -- assert(status == RB_FAIL_TREE_FULL)
          if insert_status == RB_FAIL_TREE_FULL then
            .ok (insert_status, some s)
          else .error .ub
        else do
          -- assert(upper_node != NULL)
          let up ← toIdx upper_node
          let s := updNode s up fun n =>
            { n with range := { n.range with
                offset := u32sub
                  (u32add (getNode s node).range.value (getNode s node).range.offset)
                  n.range.value } }
          let s := updNode s node fun n =>
            { n with range := { n.range with
                offset := u32sub (u32sub value n.range.value) 1 } }
          .ok (RB_SUCCESS, some s)

/-- The C function `rb_tree_destroy`: frees the arena. -/
def rb_tree_destroy (t : Option RBTreeState) : RBStatus × Option RBTreeState :=
  match t with
  | none => (RB_FAIL_NULL_TREE, none)
  | some s => (RB_SUCCESS, some { s with node_block := false, nodes := [] })

/-- Left-descent loop shared by `rb_tree_get_first_rb_node` and the
right-subtree branch of `rb_tree_get_next_rb_node`: walk to the
left-most node, clearing `traversal_state` of every node entered. -/
def descend_left_reset : Nat → RBTreeState → Nat → Except Err (RBTreeState × Nat)
  | 0, _, _ => .error .fuel
  | fuel + 1, s, node =>
    if has_left_child s node then
      let nxt := (getNode s node).left.getD 0
      let s := updNode s nxt fun n => { n with traversal_state := false }
      descend_left_reset fuel s nxt
    else .ok (s, node)

/-- The C function `rb_tree_get_first_rb_node`.  `iterIn` is the value
the caller's `iter` variable had on entry; the source leaves it
untouched on a NULL tree. -/
def rb_tree_get_first_rb_node (fuel : Nat) (t : Option RBTreeState)
    (iterIn : Option Nat) :
    Except Err (RBStatus × Option Nat × Option RBTreeState) :=
  match t with
  | none => .ok (RB_FAIL_NULL_TREE, iterIn, none)
  | some s =>
    match s.root with
    | none => .ok (RB_FAIL_NULL_TREE, none, some s)
    | some r => do
      let s := updNode s r fun n => { n with traversal_state := false }
      let (s, it) ← descend_left_reset fuel s r
      .ok (RB_SUCCESS, some it, some s)

/-- Upward loop of `rb_tree_get_next_rb_node`: climb `parent` links
until an unvisited node (or NULL above the root) is reached. -/
def ascend_visited : Nat → RBTreeState → Option Nat → Except Err (Option Nat)
  | 0, _, _ => .error .fuel
  | _ + 1, _, none => .ok none
  | fuel + 1, s, some node =>
    if (getNode s node).traversal_state then
      ascend_visited fuel s (getNode s node).parent
    else .ok (some node)

/-- The C function `rb_tree_get_next_rb_node`.  The source never checks
the tree handle; it checks `*iter`, then `range`.  `rangeNull` says the
`range` out-parameter was NULL.  Returns the status, the new `iter`, the
range written (if any) and the new state.  When the tree handle is NULL
but the node would have to be read, the node memory is outside this
model, so the result is `ub` (the C source would read the caller's
arena; with `should_pop` set it would dereference the NULL tree). -/
def rb_tree_get_next_rb_node (fuel : Nat) (t : Option RBTreeState)
    (iter : Option Nat) (rangeNull should_pop should_rebalance : Bool) :
    Except Err (RBStatus × Option Nat × Option RBRange × Option RBTreeState) :=
  match iter with
  | none => .ok (RB_FAIL_NULL_NODE, iter, none, t)
  | some it =>
    if rangeNull then .ok (RB_FAIL_NULL_RANGE, iter, none, t)
    else
      match t with
      | none => .error .ub
      | some s => do
        let range := (getNode s it).range
        let delete_node := it
        let node := it
        if should_pop && should_rebalance then do
          let s ← delete_rb_node fuel s delete_node
          let (_, iter2, t2) ← rb_tree_get_first_rb_node fuel (some s) (some it)
          pure (RB_SUCCESS, iter2, some range, t2)
        else do
          let (s, iter2) ←
            if has_right_child s node then do
              let s := updNode s node fun n => { n with traversal_state := true }
              let node2 := (getNode s node).right.getD 0
              let s := updNode s node2 fun n => { n with traversal_state := false }
              let (s, it2) ← descend_left_reset fuel s node2
              pure (s, some it2)
            else do
              let s := updNode s node fun n => { n with traversal_state := true }
              let it2 ← ascend_visited fuel s (some node)
              pure (s, it2)
          if should_pop && !should_rebalance then
            let s := delete_rb_node_without_rebalancing s delete_node
            pure (RB_SUCCESS, iter2, some range, some s)
          else
            pure (RB_SUCCESS, iter2, some range, some s)

/-! ### Observation helpers

Pure read-only functions over the embedded state, used to state the
claims: the in-order listing of the tree, the red-black structure
checks that §8 of the specification demands, and drivers that run call
sequences of the public interface. -/

/-- In-order listing of `(index, range, color)` for the subtree at `p`;
`none` when the fuel does not cover the structure (e.g. a cycle). -/
def inorder_nodes : Nat → RBTreeState → Option Nat → Option (List (Nat × RBRange × Bool))
  | 0, _, _ => none
  | _ + 1, _, none => some []
  | fuel + 1, s, some i => do
    let L ← inorder_nodes fuel s (getNode s i).left
    let R ← inorder_nodes fuel s (getNode s i).right
    some (L ++ (i, (getNode s i).range, (getNode s i).color) :: R)

/-- In-order listing of the ranges only, as `(value, offset)` pairs. -/
def inorder_ranges (fuel : Nat) (s : RBTreeState) :
    Option (List (Nat × Nat)) := do
  let l ← inorder_nodes fuel s s.root
  some (l.map fun e => (e.2.1.value, e.2.1.offset))

/-- Invariant I2: no red node of the subtree at `p` has a red child. -/
def no_red_red : Nat → RBTreeState → Option Nat → Option Bool
  | 0, _, _ => none
  | _ + 1, _, none => some true
  | fuel + 1, s, some i => do
    let L ← no_red_red fuel s (getNode s i).left
    let R ← no_red_red fuel s (getNode s i).right
    let here :=
      !((getNode s i).color == RED &&
        (is_red s (getNode s i).left || is_red s (getNode s i).right))
    some (here && L && R)

/-- Invariant I3: black depth of the subtree at `p` when all
root-to-NIL paths agree (`some (some h)`), `some none` when they do
not, `none` on fuel exhaustion. -/
def black_depth : Nat → RBTreeState → Option Nat → Option (Option Nat)
  | 0, _, _ => none
  | _ + 1, _, none => some (some 1)
  | fuel + 1, s, some i => do
    let L ← black_depth fuel s (getNode s i).left
    let R ← black_depth fuel s (getNode s i).right
    match L, R with
    | some hl, some hr =>
      if hl = hr then
        some (some (hl + (if (getNode s i).color == BLACK then 1 else 0)))
      else some none
    | _, _ => some none

/-- Invariants I1 to I3 of §8 for the whole tree: black root (or empty
tree), no red-red edge, equal black depths. -/
def rb_invariants_hold (fuel : Nat) (s : RBTreeState) : Option Bool := do
  let rr ← no_red_red fuel s s.root
  let bd ← black_depth fuel s s.root
  some (is_black s s.root && rr && (bd matches some _))

/-- Length of the free-list walked from the head along `right` links. -/
def free_list_len : Nat → RBTreeState → Option Nat → Option Nat
  | 0, _, _ => none
  | _ + 1, _, none => some 0
  | fuel + 1, s, some i => do
    let n ← free_list_len fuel s (getNode s i).right
    some (n + 1)

/-- Runs `rb_tree_insert` on every value of the list in order,
collecting the statuses. -/
def insert_all (fuel : Nat) (vals : List Nat) (t : Option RBTreeState) :
    Except Err (List RBStatus × Option RBTreeState) :=
  match vals with
  | [] => .ok ([], t)
  | v :: rest => do
    let (st, t) ← rb_tree_insert fuel v t
    let (sts, t) ← insert_all fuel rest t
    .ok (st :: sts, t)

/-- Creates a tree of capacity `cap` and inserts `vals` in order. -/
def mk_tree (fuel cap : Nat) (vals : List Nat) :
    Except Err (List RBStatus × Option RBTreeState) :=
  insert_all fuel vals (rb_tree_create cap false true).2

/-- Drain loop for the iterator laws: repeatedly calls
`rb_tree_get_next_rb_node` with `pop` set, collecting the emitted
ranges, until the iterator is exhausted.  `steps` bounds the number of
iterator calls. -/
def drain_loop (fuel : Nat) (rebalance : Bool) :
    Nat → Option RBTreeState → Option Nat →
    Except Err (List RBRange × Option RBTreeState)
  | 0, _, _ => .error .fuel
  | steps + 1, t, iter =>
    match iter with
    | none => .ok ([], t)
    | some _ => do
      let (st, iter2, r, t2) ←
        rb_tree_get_next_rb_node fuel t iter false true rebalance
      if st == RB_SUCCESS then do
        let (rest, t3) ← drain_loop fuel rebalance steps t2 iter2
        match r with
        | some range => .ok (range :: rest, t3)
        | none => .error .ub
      else .ok ([], t2)

/-- Position the iterator with `rb_tree_get_first_rb_node`, then drain
the tree with `pop = true` and the given `rebalance` flag. -/
def drain (fuel steps : Nat) (rebalance : Bool) (t : Option RBTreeState) :
    Except Err (List RBRange × Option RBTreeState) := do
  let (st, iter, t) ← rb_tree_get_first_rb_node fuel t none
  if st == RB_SUCCESS then drain_loop fuel rebalance steps t iter
  else .ok ([], t)

/-! ### Claim scenarios

Concrete runs of the public interface used by the claim theorems. -/

/-- Scenario for claim C1 (the §8 end-to-end scenario 4 of the spec):
build `{0..2, 5..9, 13..14, 16, 18}` in a capacity-10 tree, check the
red-black invariants, delete 6 (a mid-range split), and check again.
Components: insert statuses, invariants before, delete status, the
I2 check after, the full I1-I3 check after. -/
def c1_run : Except Err (List RBStatus × Option Bool × RBStatus × Option Bool × Option Bool) := do
  let (sts, t) ← mk_tree 99 10 [0, 1, 2, 5, 6, 7, 8, 9, 13, 14, 16, 18]
  let invBefore := t.bind fun s => rb_invariants_hold 99 s
  let (st, t2) ← rb_tree_delete 99 6 t
  let rr := t2.bind fun s => no_red_red 99 s s.root
  let invAfter := t2.bind fun s => rb_invariants_hold 99 s
  pure (sts, invBefore, st, rr, invAfter)

/-- Scenario for claim C2: five isolated values make a height-3 tree;
clear it and observe size, emptiness and the free-list length.
Components: insert statuses, clear status, size after, `is_empty`
after, free-list length after clear. -/
def c2_run : Except Err (List RBStatus × RBStatus × Option Nat × Bool × Option Nat) := do
  let (sts, t) ← mk_tree 99 5 [0, 2, 4, 6, 8]
  let (st, t2) ← rb_tree_clear 99 t
  pure (sts, st, t2.map (fun s => s.size), rb_tree_is_empty t2,
        t2.bind fun s => free_list_len 99 s s.free_node_head)

/-- Scenario for claim C7: insert 5 and 6 (they merge into the range
`(5,1)`), then insert 6 again — 6 is covered, so the claim expects
`FailInsertDuplicate` and no mutation.  Then delete 6 and search for 6.
Components: insert statuses, ranges after the three inserts, size,
delete status, ranges after the delete, result of searching 6. -/
def c7_run : Except Err (List RBStatus × Option (List (Nat × Nat)) × Option Nat × RBStatus × Option (List (Nat × Nat)) × Option Nat) := do
  let (sts, t) ← mk_tree 99 3 [5, 6, 6]
  let ranges1 := t.bind fun s => inorder_ranges 99 s
  let (st2, t2) ← rb_tree_delete 99 6 t
  let found ←
    match t2 with
    | some s => rb_tree_binary_search 99 s 6
    | none => Except.ok none
  pure (sts, ranges1, t.map (fun s => s.size), st2,
        t2.bind (fun s => inorder_ranges 99 s), found)

/-! ### Well-formedness of the pointer structure

The invariants I4/I6 of the spec, expressed over the arena: the child
pointers starting at a node unfold to a finite binary tree whose ranges
obey the BST-with-gaps ordering.  Claim C4 is proved for every state
satisfying this predicate. -/

/-- Stored lower bound of node `i`: `node->range.value`. -/
def nodeLo (s : RBTreeState) (i : Nat) : Nat := (getNode s i).range.value

/-- Stored upper bound of node `i`: `node->range.value + node->range.offset`
as unbounded arithmetic (the invariant keeps it below `2^32`). -/
def nodeHi (s : RBTreeState) (i : Nat) : Nat :=
  (getNode s i).range.value + (getNode s i).range.offset

/-- Well-formed bounded subtree: `WT s p lo hi l` says pointer `p`
unfolds to a finite binary tree with in-order node-index listing `l`,
every index a valid arena slot, no range overflowing `UINT32_MAX`, and
the BST-with-gaps order of spec I4/I6 within the exclusive `Int`
bounds: each stored range `[value, value+offset]` lies in
`[lo+2, hi-2]`, so neighbouring ranges are separated by at least one
absent integer. -/
inductive WT (s : RBTreeState) : Option Nat → Int → Int → List Nat → Prop where
  | nil (lo hi : Int) : WT s none lo hi []
  | node (i : Nat) (lo hi : Int) (L R : List Nat)
      (hlen : i < s.nodes.length)
      (hlo : lo + 2 ≤ (nodeLo s i : Int))
      (hhi : (nodeHi s i : Int) + 2 ≤ hi)
      (hmax : nodeHi s i ≤ UINT32_MAX)
      (hL : WT s (getNode s i).left lo (nodeLo s i) L)
      (hR : WT s (getNode s i).right (nodeHi s i) hi R) :
      WT s (some i) lo hi (L ++ i :: R)

/-- Outcome of the split-insert descent used by claim C4: with an empty
free-list the loop reports the tree full and leaves the state
untouched; with free tail `j` it succeeds, `j` becomes the fresh node
`(k, 0)`, and no other node's range changes. -/
def splitInsertOutcome (s : RBTreeState) (k fuel m : Nat) : Prop :=
  (s.free_node_tail = none →
    insert_loop k fuel s m = .ok (RB_FAIL_TREE_FULL, none, s)) ∧
  (∀ j, s.free_node_tail = some j → j < s.nodes.length →
    ∃ s2, insert_loop k fuel s m = .ok (RB_SUCCESS, some j, s2) ∧
      s2.nodes.length = s.nodes.length ∧
      (∀ q, q ≠ j → (getNode s2 q).range = (getNode s q).range) ∧
      (getNode s2 j).range = { value := k, offset := 0 })

/-! ### Full red-black validity, path contexts and the tree invariant

For the laws that exercise the rebalancing machinery a structural
validity predicate is needed.  The recoloring and rotation code of the
source never reads a stored range, so the predicate `VT` tracks exactly
what that code depends on: child pointers, parent pointers, colors and
the uniform black height of spec I1-I3.  The ordering of the stored
ranges (spec I4/I6) is carried separately by `gapped` over the in-order
listing, which also yields the disjointness facts (no index appears
twice) that the pointer surgery proofs need. -/

/-- Structural view of an arena node: every field the rebalancing code
reads, i.e. everything except the stored range. -/
def sEq (a b : RBNodeData) : Prop :=
  a.parent = b.parent ∧ a.left = b.left ∧ a.right = b.right ∧ a.color = b.color

/-- Administrative fields of the state (everything except the nodes and
the root pointer) agree, and the arena sizes agree. -/
def admEq (a b : RBTreeState) : Prop :=
  a.size = b.size ∧ a.max_size = b.max_size ∧
  a.free_node_head = b.free_node_head ∧ a.free_node_tail = b.free_node_tail ∧
  a.node_block = b.node_block ∧ a.nodes.length = b.nodes.length

/-- Every stored range agrees between the two states. -/
def rngEq (a b : RBTreeState) : Prop :=
  ∀ q, (getNode a q).range = (getNode b q).range

/-- Valid red-black subtree over the arena: `VT s p par c bh l` says
pointer `p` unfolds to a subtree with in-order index list `l`, whose
root node (if any) stores parent pointer `par` and has color `c`, every
path to NIL passes `bh` black nodes (NIL included), and no red node has
a red child. -/
inductive VT (s : RBTreeState) :
    Option Nat → Option Nat → Bool → Nat → List Nat → Prop where
  | nil (par : Option Nat) : VT s none par BLACK 1 []
  | node (i : Nat) (par : Option Nat) (cl cr : Bool) (bh : Nat)
      (L R : List Nat)
      (hlen : i < s.nodes.length)
      (hpar : (getNode s i).parent = par)
      (hred : (getNode s i).color = RED → cl = BLACK ∧ cr = BLACK)
      (hL : VT s (getNode s i).left (some i) cl bh L)
      (hR : VT s (getNode s i).right (some i) cr bh R) :
      VT s (some i) par (getNode s i).color
        (bh + (if (getNode s i).color = BLACK then 1 else 0)) (L ++ i :: R)

/-- Identity of a child slot of the tree: the root pointer of the
state, or the left or right slot of an arena node.  A path context is
indexed by the slot it surrounds rather than by the pointer the slot
currently holds, so local surgery can retarget the slot. -/
inductive Hole where
  | root : Hole
  | slot (i : Nat) (isLeft : Bool) : Hole
deriving DecidableEq

/-- Pointer currently stored in a slot. -/
def holeVal (s : RBTreeState) : Hole → Option Nat
  | .root => s.root
  | .slot i true => (getNode s i).left
  | .slot i false => (getNode s i).right

/-- Owner of a slot: the node whose child slot it is. -/
def holePar : Hole → Option Nat
  | .root => none
  | .slot i _ => some i

/-- Path context: `PT s h bh pre post d` says the slot `h` sits `d`
frames below the root of a tree that is red-black valid everywhere
except (possibly) inside `h`; a subtree plugged into `h` must hang with
parent pointer `holePar h` and black height `bh`.  `pre` and `post`
list the in-order indices before and after the slot.  Each frame
carries the frame node's validity, including that a red frame node has
a black parent and a black off-path child; whether a red frame node
also has a black child *inside* the slot is deliberately not recorded,
which is exactly the weakening the insertion fix-up loop needs. -/
inductive PT (s : RBTreeState) :
    Hole → Nat → List Nat → List Nat → Nat → Prop where
  | root (bh : Nat) : PT s .root bh [] [] 0
  | goleft (h : Hole) (i : Nat) (cr : Bool) (bh : Nat)
      (pre post R : List Nat) (d : Nat)
      (hup : PT s h (bh + (if (getNode s i).color = BLACK then 1 else 0))
        pre post d)
      (hhold : holeVal s h = some i)
      (hlen : i < s.nodes.length)
      (hpar : (getNode s i).parent = holePar h)
      (hR : VT s (getNode s i).right (some i) cr bh R)
      (hredR : (getNode s i).color = RED → cr = BLACK)
      (hredPar : (getNode s i).color = RED → is_black s (holePar h) = true) :
      PT s (.slot i true) bh pre (i :: (R ++ post)) (d + 1)
  | goright (h : Hole) (i : Nat) (cl : Bool) (bh : Nat)
      (pre post L : List Nat) (d : Nat)
      (hup : PT s h (bh + (if (getNode s i).color = BLACK then 1 else 0))
        pre post d)
      (hhold : holeVal s h = some i)
      (hlen : i < s.nodes.length)
      (hpar : (getNode s i).parent = holePar h)
      (hL : VT s (getNode s i).left (some i) cl bh L)
      (hredL : (getNode s i).color = RED → cl = BLACK)
      (hredPar : (getNode s i).color = RED → is_black s (holePar h) = true) :
      PT s (.slot i false) bh (pre ++ (L ++ [i])) post (d + 1)

/-- Deficient subtree, as the delete fix-up loop leaves it behind: the
black node `x` (a leaf about to be spliced out) hangs at the bottom of
a chain of black ancestors up to `y`; at every link the subtree on the
other side is valid with black height one less than the `x` side
really has, so that the subtree at `y` becomes valid with black height
`v` as soon as `x` is replaced by NIL. -/
inductive DT (s : RBTreeState) :
    Nat → Nat → Option Nat → Nat → List Nat → Prop where
  | leaf (x : Nat) (par : Option Nat)
      (hlen : x < s.nodes.length)
      (hpar : (getNode s x).parent = par)
      (hcol : (getNode s x).color = BLACK)
      (hl : (getNode s x).left = none)
      (hr : (getNode s x).right = none) :
      DT s x x par 1 [x]
  | stepL (x y dd : Nat) (par : Option Nat) (cr : Bool) (v : Nat)
      (lD R : List Nat)
      (hlen : y < s.nodes.length)
      (hpar : (getNode s y).parent = par)
      (hcol : (getNode s y).color = BLACK)
      (hld : (getNode s y).left = some dd)
      (hD : DT s x dd (some y) v lD)
      (hR : VT s (getNode s y).right (some y) cr v R) :
      DT s x y par (v + 1) (lD ++ y :: R)
  | stepR (x y dd : Nat) (par : Option Nat) (cl : Bool) (v : Nat)
      (L lD : List Nat)
      (hlen : y < s.nodes.length)
      (hpar : (getNode s y).parent = par)
      (hcol : (getNode s y).color = BLACK)
      (hrd : (getNode s y).right = some dd)
      (hD : DT s x dd (some y) v lD)
      (hL : VT s (getNode s y).left (some y) cl v L) :
      DT s x y par (v + 1) (L ++ y :: lD)

/-- Stored ranges of a list of arena indices, in order. -/
def rangesOf (s : RBTreeState) (l : List Nat) : List RBRange :=
  l.map fun i => (getNode s i).range

/-- Spec I4/I6 over an in-order range listing: each range starts at
least two above the running lower bound (so neighbouring ranges are
separated by at least one absent integer, and none touches the
previous one), and no range overflows `UINT32_MAX`. -/
def gapped : Int → List RBRange → Prop
  | _, [] => True
  | lo, r :: rest =>
      lo + 2 ≤ (r.value : Int) ∧ r.value + r.offset ≤ UINT32_MAX ∧
        gapped ((r.value : Int) + (r.offset : Int)) rest

/-- Membership of an integer in the set a range listing stands for. -/
def Covers (rs : List RBRange) (v : Nat) : Prop :=
  ∃ r ∈ rs, r.value ≤ v ∧ v ≤ r.value + r.offset

/-- Well-formed free-list: `fl` lists the free nodes from the head to
the tail; the `left` link of each entry points at the entry pushed
after it (towards the head), which is exactly what `pop_free_node`
walks.  The `right` links are never read once a node is below the
head, so they are unconstrained. -/
def FLW (s : RBTreeState) (fl : List Nat) : Prop :=
  s.free_node_head = fl.head? ∧
  s.free_node_tail = fl.getLast? ∧
  (∀ j ∈ fl, j < s.nodes.length) ∧
  (∀ k, k + 1 < fl.length →
    (getNode s (fl.getD (k + 1) 0)).left = some (fl.getD k 0)) ∧
  (fl ≠ [] → (getNode s (fl.getD 0 0)).left = none)

/-- Global invariant of a live tree handle: the root unfolds to a
valid red-black tree with black root and in-order index list `l`, the
in-order ranges are ordered with gaps (spec I1-I4, I6), the free-list
is well formed and disjoint from the tree (no index is listed twice),
and the size accounting of spec I5 holds. -/
def TreeInv (s : RBTreeState) (l fl : List Nat) : Prop :=
  (∃ c bh, VT s s.root none c bh l) ∧
  is_black s s.root = true ∧
  gapped (-2) (rangesOf s l) ∧
  (l ++ fl).Nodup ∧
  FLW s fl ∧
  s.size = l.length ∧
  s.nodes.length = s.max_size ∧
  l.length + fl.length = s.max_size ∧
  s.node_block = true

/-! ### Helper lemmas -/

theorem getNode_updNode_self (s : RBTreeState) (i : Nat)
    (f : RBNodeData → RBNodeData) (h : i < s.nodes.length) :
    getNode (updNode s i f) i = f (getNode s i) := by
  simp [getNode, updNode, List.getD]
  rw [List.getElem?_set_eq_of_lt _ h]
  rfl

theorem getNode_updNode_ne (s : RBTreeState) (i j : Nat)
    (f : RBNodeData → RBNodeData) (h : j ≠ i) :
    getNode (updNode s i f) j = getNode s j := by
  simp [getNode, updNode, List.getD]
  rw [List.getElem?_set_ne (fun hij => h hij.symm)]

theorem nodes_length_updNode (s : RBTreeState) (i : Nat)
    (f : RBNodeData → RBNodeData) :
    (updNode s i f).nodes.length = s.nodes.length := by
  simp [updNode]

theorem getNode_congr {s1 s2 : RBTreeState} (h : s1.nodes = s2.nodes)
    (q : Nat) : getNode s1 q = getNode s2 q := by
  simp [getNode, h]

theorem range_getNode_updNode (s : RBTreeState) (i : Nat)
    (f : RBNodeData → RBNodeData) (hf : ∀ n, (f n).range = n.range)
    (q : Nat) :
    (getNode (updNode s i f) q).range = (getNode s q).range := by
  by_cases hq : q = i
  · subst hq
    by_cases hlen : q < s.nodes.length
    · rw [getNode_updNode_self _ _ _ hlen, hf]
    · have hnone : s.nodes[q]? = none := by
        rw [List.getElem?_eq_none]; omega
      simp [getNode, updNode, List.getD, List.getElem?_set_self', hnone]
  · rw [getNode_updNode_ne _ _ _ _ hq]

theorem u32add_small (a b : Nat) (h : a + b < U32MOD) : u32add a b = a + b :=
  Nat.mod_eq_of_lt h

theorem u32sub_small (a b : Nat) (hb : b ≤ a) (ha : a < U32MOD) :
    u32sub a b = a - b := by
  unfold u32sub
  rw [Nat.mod_eq_of_lt (Nat.lt_of_le_of_lt hb ha), Nat.mod_eq_of_lt ha]
  have h1 : a + (U32MOD - b) = U32MOD + (a - b) := by omega
  rw [h1, Nat.add_mod_left, Nat.mod_eq_of_lt (by omega)]

theorem are_consecutive_false_of_ne (a b : Nat) (ha : a ≤ UINT32_MAX)
    (h : a + 1 ≠ b) : are_consecutive a b = false := by
  unfold are_consecutive
  by_cases hmax : a = UINT32_MAX
  · simp [hmax]
  · have hadd : u32add a 1 = a + 1 := by
      apply u32add_small
      have : a < UINT32_MAX := lt_of_le_of_ne ha hmax
      simp [U32MOD, UINT32_MAX] at this ⊢
      omega
    simp [hmax, hadd, h]

theorem WT_none_eq {s : RBTreeState} {lo hi : Int} {l : List Nat}
    (h : WT s none lo hi l) : l = [] := by
  cases h; rfl

theorem WT_mem_facts {s : RBTreeState} {p : Option Nat} {lo hi : Int}
    {l : List Nat} (h : WT s p lo hi l) :
    ∀ m ∈ l, m < s.nodes.length ∧ lo + 2 ≤ (nodeLo s m : Int) ∧
      (nodeHi s m : Int) + 2 ≤ hi ∧ nodeHi s m ≤ UINT32_MAX := by
  induction h with
  | nil lo hi => intro m hm; cases hm
  | node i lo hi L R hlen hlo hhi hmax hL hR ihL ihR =>
    intro m hm
    have hLoHi : (nodeLo s i : Int) ≤ (nodeHi s i : Int) := by
      have : nodeLo s i ≤ nodeHi s i := Nat.le_add_right _ _
      exact_mod_cast this
    rcases List.mem_append.mp hm with hmL | hmIR
    · obtain ⟨h1, h2, h3, h4⟩ := ihL m hmL
      exact ⟨h1, h2, by omega, h4⟩
    · rcases List.mem_cons.mp hmIR with rfl | hmR
      · exact ⟨hlen, hlo, hhi, hmax⟩
      · obtain ⟨h1, h2, h3, h4⟩ := ihR m hmR
        exact ⟨h1, by omega, h3, h4⟩

theorem create_rb_node_of_tail_none (s : RBTreeState) (k : Nat) (c : Bool)
    (h : s.free_node_tail = none) : create_rb_node s k c = (none, s) := by
  simp [create_rb_node, pop_free_node, h]

theorem create_rb_node_of_tail_some (s : RBTreeState) (k : Nat) (c : Bool)
    (j : Nat) (h : s.free_node_tail = some j) (hj : j < s.nodes.length) :
    (create_rb_node s k c).1 = some j ∧
    (create_rb_node s k c).2.nodes.length = s.nodes.length ∧
    (∀ q, q ≠ j → getNode (create_rb_node s k c).2 q = getNode s q) ∧
    getNode (create_rb_node s k c).2 j =
      { range := { value := k, offset := 0 }, parent := none, left := none,
        right := none, color := c, traversal_state := false } := by
  refine ⟨?_, ?_, ?_, ?_⟩
  · simp [create_rb_node, pop_free_node, h]
  · simp only [create_rb_node, pop_free_node, h, nodes_length_updNode]
    split <;> rfl
  · intro q hq
    simp only [create_rb_node, pop_free_node, h]
    rw [getNode_updNode_ne _ _ _ _ hq]
    apply getNode_congr
    split <;> rfl
  · simp only [create_rb_node, pop_free_node, h]
    have hx : ∀ (x : RBTreeState), x.nodes = s.nodes →
        getNode (updNode x j fun _ =>
          { range := { value := k, offset := 0 }, parent := none, left := none,
            right := none, color := c, traversal_state := false }) j =
          { range := { value := k, offset := 0 }, parent := none, left := none,
            right := none, color := c, traversal_state := false } := by
      intro x hxn
      rw [getNode_updNode_self]
      rw [hxn]
      exact hj
    apply hx
    split <;> rfl

theorem range_getNode_set_parent (s : RBTreeState) (i : Nat)
    (pnew : Option Nat) (q : Nat) :
    (getNode (updNode s i fun n => { n with parent := pnew }) q).range =
      (getNode s q).range := by
  apply range_getNode_updNode
  intro n
  rfl

theorem range_getNode_set_left (s : RBTreeState) (i : Nat)
    (lnew : Option Nat) (q : Nat) :
    (getNode (updNode s i fun n => { n with left := lnew }) q).range =
      (getNode s q).range := by
  apply range_getNode_updNode
  intro n
  rfl

theorem range_getNode_set_right (s : RBTreeState) (i : Nat)
    (rnew : Option Nat) (q : Nat) :
    (getNode (updNode s i fun n => { n with right := rnew }) q).range =
      (getNode s q).range := by
  apply range_getNode_updNode
  intro n
  rfl

theorem insert_child_range (s : RBTreeState) (node parent : Nat)
    (slot : Bool) (q : Nat) :
    (getNode (insert_child s node parent slot) q).range = (getNode s q).range := by
  unfold insert_child
  cases slot
  · rw [if_neg (by decide)]
    rw [range_getNode_set_right, range_getNode_set_parent]
  · rw [if_pos rfl]
    rw [range_getNode_set_left, range_getNode_set_parent]

theorem insert_child_length (s : RBTreeState) (node parent : Nat)
    (slot : Bool) :
    (insert_child s node parent slot).nodes.length = s.nodes.length := by
  unfold insert_child
  by_cases hslot : slot <;>
    simp [hslot, nodes_length_updNode]

theorem splitInsertOutcome_of_leaf (s : RBTreeState) (k fuel m : Nat)
    (slot : Bool)
    (hstep : insert_loop k fuel s m =
      match create_rb_node s k RED with
      | (none, s) =>
        (Except.ok (RB_FAIL_TREE_FULL, none, s) :
          Except Err (RBStatus × Option Nat × RBTreeState))
      | (some inserted, s) =>
        Except.ok (RB_SUCCESS, some inserted, insert_child s inserted m slot)) :
    splitInsertOutcome s k fuel m := by
  constructor
  · intro htail
    rw [hstep, create_rb_node_of_tail_none s k RED htail]
  · intro j htail hj
    obtain ⟨hfst, hlen2, hq2, hj2⟩ := create_rb_node_of_tail_some s k RED j htail hj
    have hpair : create_rb_node s k RED = (some j, (create_rb_node s k RED).2) := by
      rw [← hfst]
    refine ⟨insert_child (create_rb_node s k RED).2 j m slot, ?_, ?_, ?_, ?_⟩
    · rw [hstep, hpair]
    · rw [insert_child_length, hlen2]
    · intro q hq
      rw [insert_child_range]
      exact congrArg RBNodeData.range (hq2 q hq)
    · rw [insert_child_range, hj2]

theorem insert_loop_step_left (k f : Nat) (s : RBTreeState) (m : Nat)
    (hb1 : are_consecutive k (getNode s m).range.value = false)
    (hb2 : k < (getNode s m).range.value) :
    insert_loop k (f + 1) s m =
      if has_left_child s m then insert_loop k f s ((getNode s m).left.getD 0)
      else
        match create_rb_node s k RED with
        | (none, s) =>
          (Except.ok (RB_FAIL_TREE_FULL, none, s) :
            Except Err (RBStatus × Option Nat × RBTreeState))
        | (some inserted, s) =>
          Except.ok (RB_SUCCESS, some inserted, insert_child s inserted m true) := by
  rw [insert_loop.eq_2]
  simp only [hb1, Bool.false_eq_true, if_false, if_pos hb2]
  rfl

theorem insert_loop_step_right (k f : Nat) (s : RBTreeState) (m : Nat)
    (hb1 : are_consecutive k (getNode s m).range.value = false)
    (hb2 : ¬ k < (getNode s m).range.value)
    (hb3 : are_consecutive
      (u32add (getNode s m).range.value (getNode s m).range.offset) k = false)
    (hb4 : k > (getNode s m).range.value) :
    insert_loop k (f + 1) s m =
      if has_right_child s m then insert_loop k f s ((getNode s m).right.getD 0)
      else
        match create_rb_node s k RED with
        | (none, s) =>
          (Except.ok (RB_FAIL_TREE_FULL, none, s) :
            Except Err (RBStatus × Option Nat × RBTreeState))
        | (some inserted, s) =>
          Except.ok (RB_SUCCESS, some inserted, insert_child s inserted m false) := by
  rw [insert_loop.eq_2]
  simp only [hb1, hb3, Bool.false_eq_true, if_false, if_neg hb2, if_pos hb4]
  rfl

theorem insert_loop_all_left (s : RBTreeState) (k : Nat) (hk : k ≤ UINT32_MAX) :
    ∀ (p : Option Nat) (lo hi : Int) (l : List Nat),
      WT s p lo hi l → (k : Int) ≤ lo →
      ∀ fuel : Nat, l.length < fuel → ∀ m : Nat, p = some m →
      splitInsertOutcome s k fuel m := by
  intro p lo hi l hWT
  induction hWT with
  | nil lo hi =>
    intro _ fuel _ m hm
    exact Option.noConfusion hm
  | node i lo hi L R hlen hlo hhi hmax hL hR ihL ihR =>
    intro hklo fuel hfuel m hm
    obtain rfl : i = m := Option.some_injective _ hm
    cases fuel with
    | zero => exact absurd hfuel (by omega)
    | succ f =>
      have hvInt : (k : Int) + 2 ≤ (nodeLo s i : Int) := by omega
      have hv : k + 2 ≤ (getNode s i).range.value := by
        have hvN : k + 2 ≤ nodeLo s i := by exact_mod_cast hvInt
        exact hvN
      have hb1 : are_consecutive k (getNode s i).range.value = false := by
        apply are_consecutive_false_of_ne _ _ hk
        omega
      have hb2 : k < (getNode s i).range.value := by omega
      have hstep := insert_loop_step_left k f s i hb1 hb2
      cases hleft : (getNode s i).left with
      | none =>
        have hlc : ¬ (has_left_child s i = true) := by
          simp [has_left_child, hleft]
        rw [if_neg hlc] at hstep
        exact splitInsertOutcome_of_leaf s k (f + 1) i true hstep
      | some lc =>
        have hlc : has_left_child s i = true := by
          simp [has_left_child, hleft]
        rw [if_pos hlc, hleft] at hstep
        simp only [Option.getD_some] at hstep
        have hfL : L.length < f := by
          simp [List.length_append] at hfuel
          omega
        have ih := ihL hklo f hfL lc (by rw [hleft])
        unfold splitInsertOutcome at ih ⊢
        rw [hstep]
        exact ih

theorem insert_loop_to_covered (s : RBTreeState) (k n : Nat)
    (hk : k ≤ UINT32_MAX) :
    ∀ (p : Option Nat) (lo hi : Int) (l : List Nat),
      WT s p lo hi l → n ∈ l →
      nodeLo s n < k → k ≤ nodeHi s n →
      ∀ fuel : Nat, l.length < fuel → ∀ m : Nat, p = some m →
      splitInsertOutcome s k fuel m := by
  intro p lo hi l hWT
  induction hWT with
  | nil lo hi =>
    intro hn
    exact absurd hn (List.not_mem_nil n)
  | node i lo hi L R hlen hlo hhi hmax hL hR ihL ihR =>
    intro hn hklt hkle fuel hfuel m hm
    obtain rfl : i = m := Option.some_injective _ hm
    cases fuel with
    | zero => exact absurd hfuel (by omega)
    | succ f =>
      rcases List.mem_append.mp hn with hnL | hnIR
      · -- the covered node lies in the left subtree: go left
        obtain ⟨_, _, hnhi, _⟩ := WT_mem_facts hL n hnL
        have hv : k + 2 ≤ (getNode s i).range.value := by
          have hx : (k : Int) + 2 ≤ (nodeLo s i : Int) := by
            have hkle2 : (k : Int) ≤ (nodeHi s n : Int) := by exact_mod_cast hkle
            omega
          have hxN : k + 2 ≤ nodeLo s i := by exact_mod_cast hx
          exact hxN
        have hb1 : are_consecutive k (getNode s i).range.value = false := by
          apply are_consecutive_false_of_ne _ _ hk
          omega
        have hb2 : k < (getNode s i).range.value := by omega
        have hstep := insert_loop_step_left k f s i hb1 hb2
        cases hleft : (getNode s i).left with
        | none =>
          rw [hleft] at hL
          rw [WT_none_eq hL] at hnL
          exact absurd hnL (List.not_mem_nil n)
        | some lc =>
          have hlc : has_left_child s i = true := by
            simp [has_left_child, hleft]
          rw [if_pos hlc, hleft] at hstep
          simp only [Option.getD_some] at hstep
          have hfL : L.length < f := by
            simp [List.length_append] at hfuel
            omega
          have ih := ihL hnL hklt hkle f hfL lc (by rw [hleft])
          unfold splitInsertOutcome at ih ⊢
          rw [hstep]
          exact ih
      · rcases List.mem_cons.mp hnIR with rfl | hnR
        · -- the covered node is this node: go right (k is inside its range)
          have hvv : nodeLo s n ≤ nodeHi s n := Nat.le_add_right _ _
          have hb1 : are_consecutive k (getNode s n).range.value = false := by
            apply are_consecutive_false_of_ne _ _ hk
            have hx := hklt
            unfold nodeLo at hx
            omega
          have hb2 : ¬ k < (getNode s n).range.value := by
            have hx := hklt
            unfold nodeLo at hx
            omega
          have hadd : u32add (getNode s n).range.value (getNode s n).range.offset =
              nodeHi s n := by
            apply u32add_small
            have h1 : UINT32_MAX < U32MOD := by decide
            have hm := hmax
            unfold nodeHi at hm
            omega
          have hb3 : are_consecutive
              (u32add (getNode s n).range.value (getNode s n).range.offset) k = false := by
            rw [hadd]
            apply are_consecutive_false_of_ne _ _ hmax
            omega
          have hb4 : k > (getNode s n).range.value := by
            have hx := hklt
            unfold nodeLo at hx
            omega
          have hstep := insert_loop_step_right k f s n hb1 hb2 hb3 hb4
          cases hright : (getNode s n).right with
          | none =>
            have hrc : ¬ (has_right_child s n = true) := by
              simp [has_right_child, hright]
            rw [if_neg hrc] at hstep
            exact splitInsertOutcome_of_leaf s k (f + 1) n false hstep
          | some rc =>
            have hrc : has_right_child s n = true := by
              simp [has_right_child, hright]
            rw [if_pos hrc, hright] at hstep
            simp only [Option.getD_some] at hstep
            have hfR : R.length < f := by
              simp [List.length_append] at hfuel
              omega
            have hklo2 : (k : Int) ≤ (nodeHi s n : Int) := by exact_mod_cast hkle
            have ih := insert_loop_all_left s k hk _ _ _ _ hR hklo2 f hfR rc
              (by rw [hright])
            unfold splitInsertOutcome at ih ⊢
            rw [hstep]
            exact ih
        · -- the covered node lies in the right subtree: go right
          obtain ⟨_, hnlo, _, _⟩ := WT_mem_facts hR n hnR
          have hvv : nodeLo s i ≤ nodeHi s i := Nat.le_add_right _ _
          have hkbig : nodeHi s i + 3 ≤ k := by
            have h1 : (nodeLo s n : Int) < (k : Int) := by exact_mod_cast hklt
            have h2 : (nodeHi s i : Int) + 3 ≤ (k : Int) := by omega
            exact_mod_cast h2
          have hb1 : are_consecutive k (getNode s i).range.value = false := by
            apply are_consecutive_false_of_ne _ _ hk
            unfold nodeLo nodeHi at hvv hkbig
            omega
          have hb2 : ¬ k < (getNode s i).range.value := by
            unfold nodeLo nodeHi at hvv hkbig
            omega
          have hadd : u32add (getNode s i).range.value (getNode s i).range.offset =
              nodeHi s i := by
            apply u32add_small
            have h1 : UINT32_MAX < U32MOD := by decide
            have hm := hmax
            unfold nodeHi at hm
            omega
          have hb3 : are_consecutive
              (u32add (getNode s i).range.value (getNode s i).range.offset) k = false := by
            rw [hadd]
            apply are_consecutive_false_of_ne _ _ hmax
            omega
          have hb4 : k > (getNode s i).range.value := by
            unfold nodeLo nodeHi at hvv hkbig
            omega
          have hstep := insert_loop_step_right k f s i hb1 hb2 hb3 hb4
          cases hright : (getNode s i).right with
          | none =>
            rw [hright] at hR
            rw [WT_none_eq hR] at hnR
            exact absurd hnR (List.not_mem_nil n)
          | some rc =>
            have hrc : has_right_child s i = true := by
              simp [has_right_child, hright]
            rw [if_pos hrc, hright] at hstep
            simp only [Option.getD_some] at hstep
            have hfR : R.length < f := by
              simp [List.length_append] at hfuel
              omega
            have ih := ihR hnR hklt hkle f hfR rc (by rw [hright])
            unfold splitInsertOutcome at ih ⊢
            rw [hstep]
            exact ih

theorem bind_ok {β γ : Type} (a : β) (f : β → Except Err γ) :
    (Except.ok a : Except Err β) >>= f = f a := rfl

theorem sEq_refl (a : RBNodeData) : sEq a a := ⟨rfl, rfl, rfl, rfl⟩

theorem sEq_of_eq {a b : RBNodeData} (h : a = b) : sEq a b := by
  rw [h]; exact sEq_refl b

theorem VT_congr {s1 s2 : RBTreeState}
    (hlen : s2.nodes.length = s1.nodes.length) :
    ∀ {p par c bh l}, VT s1 p par c bh l →
      (∀ q ∈ l, sEq (getNode s2 q) (getNode s1 q)) →
      VT s2 p par c bh l := by
  intro p par c bh l h
  induction h with
  | nil par => intro _; exact VT.nil par
  | node i par cl cr bh L R hilen hpar hred hL hR ihL ihR =>
    intro hq
    obtain ⟨hqpar, hqleft, hqright, hqcol⟩ := hq i (by simp)
    have hL2 : VT s2 (getNode s2 i).left (some i) cl bh L := by
      rw [hqleft]
      exact ihL (fun q hq2 => hq q (by simp [hq2]))
    have hR2 : VT s2 (getNode s2 i).right (some i) cr bh R := by
      rw [hqright]
      exact ihR (fun q hq2 => hq q (by simp [hq2]))
    have hres := VT.node (s := s2) i par cl cr bh L R
      (by rw [hlen]; exact hilen)
      (by rw [hqpar]; exact hpar)
      (by rw [hqcol]; exact hred)
      hL2 hR2
    rw [hqcol] at hres
    exact hres

theorem PT_frame_mem {s : RBTreeState} {j : Nat} {si : Bool}
    {bh : Nat} {pre post : List Nat} {d : Nat}
    (h : PT s (.slot j si) bh pre post d) : j ∈ pre ++ post := by
  cases h with
  | goleft h i cr bh pre post R d hup hhold hilen hpar hR hredR hredPar =>
    simp
  | goright h i cl bh pre post L d hup hhold hilen hpar hL hredL hredPar =>
    simp

theorem PT_congr {s1 s2 : RBTreeState}
    (hlen : s2.nodes.length = s1.nodes.length) (hroot : s2.root = s1.root) :
    ∀ {h bh pre post d}, PT s1 h bh pre post d →
      (∀ q ∈ pre ++ post, sEq (getNode s2 q) (getNode s1 q)) →
      PT s2 h bh pre post d := by
  intro h bh pre post d hpt
  induction hpt with
  | root bh => intro _; exact PT.root bh
  | goleft h i cr bh pre post R d hup hhold hilen hpar hR hredR hredPar ihup =>
    intro hq
    have hsub : ∀ q ∈ pre ++ post, sEq (getNode s2 q) (getNode s1 q) := by
      intro q hq2
      apply hq
      rcases List.mem_append.mp hq2 with h1 | h1
      · simp [h1]
      · simp [h1]
    obtain ⟨hqpar, hqleft, hqright, hqcol⟩ := hq i (by simp)
    have hhold2 : holeVal s2 h = some i := by
      cases h with
      | root => rw [holeVal, hroot]; exact hhold
      | slot j sj =>
        have hmem := PT_frame_mem hup
        obtain ⟨hjpar, hjleft, hjright, hjcol⟩ := hsub j hmem
        cases sj with
        | true => rw [holeVal, hjleft]; exact hhold
        | false => rw [holeVal, hjright]; exact hhold
    have hbk : is_black s2 (holePar h) = is_black s1 (holePar h) := by
      cases h with
      | root => rfl
      | slot j sj =>
        have hmem := PT_frame_mem hup
        obtain ⟨hjpar, hjleft, hjright, hjcol⟩ := hsub j hmem
        simp [holePar, is_black, hjcol]
    have hup2 : PT s2 h
        (bh + (if (getNode s2 i).color = BLACK then 1 else 0)) pre post d := by
      rw [hqcol]
      exact ihup hsub
    have hR2 : VT s2 (getNode s2 i).right (some i) cr bh R := by
      rw [hqright]
      exact VT_congr hlen hR (fun q hq2 => hq q (by simp [hq2]))
    exact PT.goleft h i cr bh pre post R d
      hup2 hhold2 (by rw [hlen]; exact hilen) (by rw [hqpar]; exact hpar)
      hR2
      (fun h2 => hredR (by rw [← hqcol]; exact h2))
      (fun h2 => by rw [hbk]; exact hredPar (by rw [← hqcol]; exact h2))
  | goright h i cl bh pre post L d hup hhold hilen hpar hL hredL hredPar ihup =>
    intro hq
    have hsub : ∀ q ∈ pre ++ post, sEq (getNode s2 q) (getNode s1 q) := by
      intro q hq2
      apply hq
      rcases List.mem_append.mp hq2 with h1 | h1
      · simp [h1]
      · simp [h1]
    obtain ⟨hqpar, hqleft, hqright, hqcol⟩ := hq i (by simp)
    have hhold2 : holeVal s2 h = some i := by
      cases h with
      | root => rw [holeVal, hroot]; exact hhold
      | slot j sj =>
        have hmem := PT_frame_mem hup
        obtain ⟨hjpar, hjleft, hjright, hjcol⟩ := hsub j hmem
        cases sj with
        | true => rw [holeVal, hjleft]; exact hhold
        | false => rw [holeVal, hjright]; exact hhold
    have hbk : is_black s2 (holePar h) = is_black s1 (holePar h) := by
      cases h with
      | root => rfl
      | slot j sj =>
        have hmem := PT_frame_mem hup
        obtain ⟨hjpar, hjleft, hjright, hjcol⟩ := hsub j hmem
        simp [holePar, is_black, hjcol]
    have hup2 : PT s2 h
        (bh + (if (getNode s2 i).color = BLACK then 1 else 0)) pre post d := by
      rw [hqcol]
      exact ihup hsub
    have hL2 : VT s2 (getNode s2 i).left (some i) cl bh L := by
      rw [hqleft]
      exact VT_congr hlen hL (fun q hq2 => hq q (by simp [hq2]))
    exact PT.goright h i cl bh pre post L d
      hup2 hhold2 (by rw [hlen]; exact hilen) (by rw [hqpar]; exact hpar)
      hL2
      (fun h2 => hredL (by rw [← hqcol]; exact h2))
      (fun h2 => by rw [hbk]; exact hredPar (by rw [← hqcol]; exact h2))

theorem DT_congr {s1 s2 : RBTreeState}
    (hlen : s2.nodes.length = s1.nodes.length) :
    ∀ {x y par v l}, DT s1 x y par v l →
      (∀ q ∈ l, sEq (getNode s2 q) (getNode s1 q)) →
      DT s2 x y par v l := by
  intro x y par v l h
  induction h with
  | leaf par hxlen hpar hcol hl hr =>
    intro hq
    obtain ⟨hqpar, hqleft, hqright, hqcol⟩ := hq x (by simp)
    exact DT.leaf x par (by rw [hlen]; exact hxlen)
      (by rw [hqpar]; exact hpar) (by rw [hqcol]; exact hcol)
      (by rw [hqleft]; exact hl) (by rw [hqright]; exact hr)
  | stepL y dd par cr v lD R hylen hpar hcol hld hD hR ih =>
    intro hq
    obtain ⟨hqpar, hqleft, hqright, hqcol⟩ := hq y (by simp)
    have hR2 : VT s2 (getNode s2 y).right (some y) cr v R := by
      rw [hqright]
      exact VT_congr hlen hR (fun q hq2 => hq q (by simp [hq2]))
    exact DT.stepL _ y dd par cr v lD R (by rw [hlen]; exact hylen)
      (by rw [hqpar]; exact hpar) (by rw [hqcol]; exact hcol)
      (by rw [hqleft]; exact hld)
      (ih (fun q hq2 => hq q (by simp [hq2]))) hR2
  | stepR y dd par cl v L lD hylen hpar hcol hrd hD hL ih =>
    intro hq
    obtain ⟨hqpar, hqleft, hqright, hqcol⟩ := hq y (by simp)
    have hL2 : VT s2 (getNode s2 y).left (some y) cl v L := by
      rw [hqleft]
      exact VT_congr hlen hL (fun q hq2 => hq q (by simp [hq2]))
    exact DT.stepR _ y dd par cl v L lD (by rw [hlen]; exact hylen)
      (by rw [hqpar]; exact hpar) (by rw [hqcol]; exact hcol)
      (by rw [hqright]; exact hrd)
      (ih (fun q hq2 => hq q (by simp [hq2]))) hL2

theorem updNode_root (s : RBTreeState) (i : Nat) (f : RBNodeData → RBNodeData) :
    (updNode s i f).root = s.root := rfl

theorem updNode_size (s : RBTreeState) (i : Nat) (f : RBNodeData → RBNodeData) :
    (updNode s i f).size = s.size := rfl

theorem updNode_max_size (s : RBTreeState) (i : Nat)
    (f : RBNodeData → RBNodeData) : (updNode s i f).max_size = s.max_size := rfl

theorem updNode_free_head (s : RBTreeState) (i : Nat)
    (f : RBNodeData → RBNodeData) :
    (updNode s i f).free_node_head = s.free_node_head := rfl

theorem updNode_free_tail (s : RBTreeState) (i : Nat)
    (f : RBNodeData → RBNodeData) :
    (updNode s i f).free_node_tail = s.free_node_tail := rfl

theorem updNode_node_block (s : RBTreeState) (i : Nat)
    (f : RBNodeData → RBNodeData) :
    (updNode s i f).node_block = s.node_block := rfl

theorem sEq_updNode_of (s : RBTreeState) (i : Nat)
    (f : RBNodeData → RBNodeData) (hf : ∀ n, sEq (f n) n) (q : Nat) :
    sEq (getNode (updNode s i f) q) (getNode s q) := by
  by_cases hq : q = i
  · subst hq
    by_cases hlen : q < s.nodes.length
    · rw [getNode_updNode_self _ _ _ hlen]
      exact hf _
    · have hnone : s.nodes[q]? = none := by
        rw [List.getElem?_eq_none]; omega
      simp [getNode, updNode, List.getD, List.getElem?_set_self', hnone]
      exact sEq_refl _
  · rw [getNode_updNode_ne _ _ _ _ hq]
    exact sEq_refl _

theorem getNode_set_black_self (s : RBTreeState) (i : Nat)
    (h : i < s.nodes.length) :
    getNode (set_black s i) i = { getNode s i with color := BLACK } := by
  unfold set_black
  exact getNode_updNode_self _ _ _ h

theorem getNode_set_black_ne (s : RBTreeState) (i q : Nat) (h : q ≠ i) :
    getNode (set_black s i) q = getNode s q := by
  unfold set_black
  exact getNode_updNode_ne _ _ _ _ h

theorem getNode_set_red_self (s : RBTreeState) (i : Nat)
    (h : i < s.nodes.length) :
    getNode (set_red s i) i = { getNode s i with color := RED } := by
  unfold set_red
  exact getNode_updNode_self _ _ _ h

theorem getNode_set_red_ne (s : RBTreeState) (i q : Nat) (h : q ≠ i) :
    getNode (set_red s i) q = getNode s q := by
  unfold set_red
  exact getNode_updNode_ne _ _ _ _ h

theorem VT_mem_len {s : RBTreeState} {p par : Option Nat} {c : Bool}
    {bh : Nat} {l : List Nat} (h : VT s p par c bh l) :
    ∀ j ∈ l, j < s.nodes.length := by
  induction h with
  | nil par => intro j hj; cases hj
  | node i par cl cr bh L R hlen hpar hred hL hR ihL ihR =>
    intro j hj
    rcases List.mem_append.mp hj with hjL | hjIR
    · exact ihL j hjL
    · rcases List.mem_cons.mp hjIR with rfl | hjR
      · exact hlen
      · exact ihR j hjR

theorem VT_nil_inv {s : RBTreeState} {par : Option Nat} {c : Bool}
    {bh : Nat} {l : List Nat} (h : VT s none par c bh l) :
    c = BLACK ∧ bh = 1 ∧ l = [] := by
  cases h
  exact ⟨rfl, rfl, rfl⟩

theorem VT_some_inv {s : RBTreeState} {i : Nat} {par : Option Nat} {c : Bool}
    {bh : Nat} {l : List Nat} (h : VT s (some i) par c bh l) :
    c = (getNode s i).color ∧ (getNode s i).parent = par ∧
      i < s.nodes.length ∧ i ∈ l := by
  cases h with
  | node i par cl cr bh L R hlen hpar hred hL hR =>
    exact ⟨rfl, hpar, hlen, by simp⟩

theorem VT_node_inv {s : RBTreeState} {i : Nat} {par : Option Nat}
    {c : Bool} {bh : Nat} {l : List Nat} (h : VT s (some i) par c bh l) :
    ∃ cl cr bh0 L R, l = L ++ i :: R ∧
      bh = bh0 + (if (getNode s i).color = BLACK then 1 else 0) ∧
      c = (getNode s i).color ∧ (getNode s i).parent = par ∧
      i < s.nodes.length ∧
      ((getNode s i).color = RED → cl = BLACK ∧ cr = BLACK) ∧
      VT s (getNode s i).left (some i) cl bh0 L ∧
      VT s (getNode s i).right (some i) cr bh0 R := by
  cases h with
  | node i par cl cr bh0 L R hlen hpar hred hL hR =>
    exact ⟨cl, cr, bh0, L, R, rfl, rfl, rfl, hpar, hlen, hred, hL, hR⟩

theorem VT_bh_ge_one {s : RBTreeState} {p par : Option Nat} {c : Bool}
    {bh : Nat} {l : List Nat} (h : VT s p par c bh l) : 1 ≤ bh := by
  induction h with
  | nil par => exact le_refl 1
  | node i par cl cr bh L R hlen hpar hred hL hR ihL ihR => omega

theorem VT_black_bh {s : RBTreeState} {i : Nat} {par : Option Nat} {c : Bool}
    {bh : Nat} {l : List Nat} (h : VT s (some i) par c bh l)
    (hb : (getNode s i).color = BLACK) : 2 ≤ bh := by
  cases h with
  | node i par cl cr bh L R hlen hpar hred hL hR =>
    have h1 := VT_bh_ge_one hL
    rw [hb]
    simp [BLACK]
    omega

theorem color_black_of_not_red {c : Bool} (h : ¬ c = RED) : c = BLACK := by
  cases c
  · rfl
  · exact absurd rfl h

theorem color_red_of_not_black {c : Bool} (h : ¬ c = BLACK) : c = RED := by
  cases c
  · exact absurd rfl h
  · rfl

theorem red_of_not_is_black {s : RBTreeState} {p : Nat}
    (h : ¬ is_black s (some p) = true) : (getNode s p).color = RED := by
  apply color_red_of_not_black
  intro hc
  exact h (by simp [is_black, hc])

theorem not_red_of_is_black {s : RBTreeState} {p : Nat}
    (h : is_black s (some p) = true) : ¬ (getNode s p).color = RED := by
  intro hc
  simp [is_black, hc] at h
  exact absurd h (by simp [RED, BLACK])

theorem black_of_is_black {s : RBTreeState} {p : Nat}
    (h : is_black s (some p) = true) : (getNode s p).color = BLACK :=
  color_black_of_not_red (not_red_of_is_black h)

theorem is_black_of_black {s : RBTreeState} {p : Nat}
    (h : (getNode s p).color = BLACK) : is_black s (some p) = true := by
  simp [is_black, h]

theorem PT_plug {s : RBTreeState} :
    ∀ {h bh pre post d}, PT s h bh pre post d →
      ∀ {p : Option Nat} {c : Bool} {l : List Nat}, holeVal s h = p →
      VT s p (holePar h) c bh l →
      (∀ j, holePar h = some j → (getNode s j).color = RED → c = BLACK) →
      ∃ c2 bh2, VT s s.root none c2 bh2 (pre ++ (l ++ post)) := by
  intro h bh pre post d hpt
  induction hpt with
  | root bh =>
    intro p c l hv hvt hplug
    refine ⟨c, bh, ?_⟩
    have : holeVal s Hole.root = s.root := rfl
    rw [this] at hv
    rw [← hv] at hvt
    simpa using hvt
  | goleft h i cr bh pre post R d hup hhold hlen hpar hR hredR hredPar ih =>
    intro p c l hv hvt hplug
    have hvL : VT s (getNode s i).left (some i) c bh l := by
      have : holeVal s (Hole.slot i true) = (getNode s i).left := rfl
      rw [this] at hv
      rw [hv]
      exact hvt
    have hnode := VT.node i (holePar h) c cr bh l R hlen hpar
      (fun hrd => ⟨hplug i rfl hrd, hredR hrd⟩) hvL hR
    have hplug2 : ∀ j, holePar h = some j → (getNode s j).color = RED →
        (getNode s i).color = BLACK := by
      intro j hj hjr
      apply color_black_of_not_red
      intro hir
      have hb := hredPar hir
      rw [hj] at hb
      simp [is_black, hjr, RED, BLACK] at hb
    obtain ⟨c2, bh2, hres⟩ := ih hhold hnode hplug2
    exact ⟨c2, bh2, by simpa using hres⟩
  | goright h i cl bh pre post L d hup hhold hlen hpar hL hredL hredPar ih =>
    intro p c l hv hvt hplug
    have hvR : VT s (getNode s i).right (some i) c bh l := by
      have : holeVal s (Hole.slot i false) = (getNode s i).right := rfl
      rw [this] at hv
      rw [hv]
      exact hvt
    have hnode := VT.node i (holePar h) cl c bh L l hlen hpar
      (fun hrd => ⟨hredL hrd, hplug i rfl hrd⟩) hL hvR
    have hplug2 : ∀ j, holePar h = some j → (getNode s j).color = RED →
        (getNode s i).color = BLACK := by
      intro j hj hjr
      apply color_black_of_not_red
      intro hir
      have hb := hredPar hir
      rw [hj] at hb
      simp [is_black, hjr, RED, BLACK] at hb
    obtain ⟨c2, bh2, hres⟩ := ih hhold hnode hplug2
    exact ⟨c2, bh2, by simpa using hres⟩

theorem DT_decomp {s : RBTreeState} :
    ∀ {x y par v l}, DT s x y par v l → ∃ A B, l = A ++ x :: B := by
  intro x y par v l h
  induction h with
  | leaf par hxlen hpar hcol hl hr => exact ⟨[], [], rfl⟩
  | stepL y dd par cr v lD R hylen hpar hcol hld hD hR ih =>
    obtain ⟨A, B, hAB⟩ := ih
    exact ⟨A, B ++ y :: R, by rw [hAB]; simp⟩
  | stepR y dd par cl v L lD hylen hpar hcol hrd hD hL ih =>
    obtain ⟨A, B, hAB⟩ := ih
    exact ⟨L ++ y :: A, B, by rw [hAB]; simp⟩

theorem DT_y_facts {s : RBTreeState} {x y : Nat} {par : Option Nat} {v : Nat}
    {l : List Nat} (h : DT s x y par v l) :
    (getNode s y).parent = par ∧ (getNode s y).color = BLACK ∧
      y < s.nodes.length ∧ y ∈ l := by
  cases h with
  | leaf par hxlen hpar hcol hl hr => exact ⟨hpar, hcol, hxlen, by simp⟩
  | stepL y dd par cr v lD R hylen hpar hcol hld hD hR =>
    exact ⟨hpar, hcol, hylen, by simp⟩
  | stepR y dd par cl v L lD hylen hpar hcol hrd hD hL =>
    exact ⟨hpar, hcol, hylen, by simp⟩

theorem DT_mem_len {s : RBTreeState} :
    ∀ {x y par v l}, DT s x y par v l → ∀ j ∈ l, j < s.nodes.length := by
  intro x y par v l h
  induction h with
  | leaf par hxlen hpar hcol hl hr =>
    intro j hj
    rw [List.mem_singleton] at hj
    rw [hj]
    exact hxlen
  | stepL y dd par cr v lD R hylen hpar hcol hld hD hR ih =>
    intro j hj
    rcases List.mem_append.mp hj with h1 | h1
    · exact ih j h1
    · rcases List.mem_cons.mp h1 with rfl | h2
      · exact hylen
      · exact VT_mem_len hR j h2
  | stepR y dd par cl v L lD hylen hpar hcol hrd hD hL ih =>
    intro j hj
    rcases List.mem_append.mp hj with h1 | h1
    · exact VT_mem_len hL j h1
    · rcases List.mem_cons.mp h1 with rfl | h2
      · exact hylen
      · exact ih j h2

theorem VT_node_black {s : RBTreeState} {i : Nat} {o : Option Nat}
    {cl cr : Bool} {bh : Nat} {L R : List Nat}
    (hlen : i < s.nodes.length)
    (hpar : (getNode s i).parent = o)
    (hcol : (getNode s i).color = BLACK)
    (hL : VT s (getNode s i).left (some i) cl bh L)
    (hR : VT s (getNode s i).right (some i) cr bh R) :
    VT s (some i) o BLACK (bh + 1) (L ++ i :: R) := by
  have h := VT.node i o cl cr bh L R hlen hpar
    (by rw [hcol]; intro hc; exact absurd hc (by simp [RED, BLACK])) hL hR
  rw [hcol] at h
  simpa using h

theorem VT_node_red {s : RBTreeState} {i : Nat} {o : Option Nat}
    {cl cr : Bool} {bh : Nat} {L R : List Nat}
    (hlen : i < s.nodes.length)
    (hpar : (getNode s i).parent = o)
    (hcol : (getNode s i).color = RED)
    (hcl : cl = BLACK) (hcr : cr = BLACK)
    (hL : VT s (getNode s i).left (some i) cl bh L)
    (hR : VT s (getNode s i).right (some i) cr bh R) :
    VT s (some i) o RED bh (L ++ i :: R) := by
  have h := VT.node i o cl cr bh L R hlen hpar
    (fun _ => ⟨hcl, hcr⟩) hL hR
  rw [hcol] at h
  simpa [RED, BLACK] using h

theorem DT_x_parent_mem {s : RBTreeState} :
    ∀ {x y par v l}, DT s x y par v l → x = y ∨
      ∃ px, (getNode s x).parent = some px ∧ px ∈ l ∧
        ((getNode s px).left = some x ∨ (getNode s px).right = some x) := by
  intro x y par v l h
  induction h with
  | leaf par hxlen hpar hcol hl hr => exact Or.inl rfl
  | stepL y dd par cr v lD R hylen hpar hcol hld hD hR ih =>
    rcases ih with rfl | ⟨px, h1, h2, h3⟩
    · obtain ⟨hp, _, _, _⟩ := DT_y_facts hD
      exact Or.inr ⟨y, hp, by simp, Or.inl (by rw [hld])⟩
    · exact Or.inr ⟨px, h1, by simp [h2], h3⟩
  | stepR y dd par cl v L lD hylen hpar hcol hrd hD hL ih =>
    rcases ih with rfl | ⟨px, h1, h2, h3⟩
    · obtain ⟨hp, _, _, _⟩ := DT_y_facts hD
      exact Or.inr ⟨y, hp, by simp, Or.inr (by rw [hrd])⟩
    · exact Or.inr ⟨px, h1, by simp [h2], h3⟩

theorem DT_splice {s : RBTreeState} :
    ∀ {x y par v l}, DT s x y par v l → l.Nodup →
      ∀ {px : Nat} {sideL : Bool},
      (getNode s x).parent = some px →
      (if sideL then (getNode s px).left else (getNode s px).right) = some x →
      ∃ A B q,
        l = A ++ x :: B ∧
        VT (updNode s px fun n =>
            if sideL then { n with left := none } else { n with right := none })
          q par BLACK v (A ++ B) ∧
        ((x = y ∧ q = none) ∨ (x ≠ y ∧ q = some y)) := by
  intro x y par v l h
  induction h with
  | leaf par hxlen hpar hcol hl hr =>
    intro hnd px sideL hxp hxs
    exact ⟨[], [], none, rfl, VT.nil par, Or.inl ⟨rfl, rfl⟩⟩
  | stepL y dd par cr v lD R hylen hpar hcol hld hD hR ih =>
    intro hnd px sideL hxp hxs
    obtain ⟨A0, B0, hAB0⟩ := DT_decomp hD
    have hxlD : x ∈ lD := by rw [hAB0]; simp
    obtain ⟨hndlD, hndyR, hdisj⟩ := List.nodup_append.mp hnd
    have hxy : x ≠ y := by
      intro hxy
      exact hdisj hxlD (by rw [hxy]; exact List.mem_cons_self y R)
    have hynR : y ∉ R := (List.nodup_cons.mp hndyR).1
    by_cases hxd : x = dd
    · obtain ⟨hdp, _, _, _⟩ := DT_y_facts hD
      rw [← hxd] at hdp
      have hpxy : px = y := by
        rw [hdp] at hxp
        exact (Option.some_injective _ hxp).symm
      subst hpxy
      cases sideL with
      | false =>
        exfalso
        rw [if_neg (by simp)] at hxs
        have hRx : VT s (some x) (some px) cr v R := by rw [← hxs]; exact hR
        obtain ⟨_, _, _, hxR⟩ := VT_some_inv hRx
        exact hdisj hxlD (List.mem_cons_of_mem px hxR)
      | true =>
        obtain ⟨A, B, q, hAB, hVT, hq⟩ := ih hndlD hxp hxs
        rcases hq with ⟨hxdd, hqn⟩ | ⟨hxdd, hqs⟩
        · subst hqn
          refine ⟨A, B ++ px :: R, some px,
            by rw [hAB]; simp, ?_, Or.inr ⟨hxy, rfl⟩⟩
          have hgety : getNode (updNode s px fun n =>
              if true = true then { n with left := none } else
                { n with right := none }) px =
              { getNode s px with left := none } := by
            rw [getNode_updNode_self _ _ _ hylen]
            rfl
          have hgl : (getNode (updNode s px fun n =>
              if true = true then { n with left := none } else
                { n with right := none }) px).left = none := by rw [hgety]
          have hgr : (getNode (updNode s px fun n =>
              if true = true then { n with left := none } else
                { n with right := none }) px).right =
              (getNode s px).right := by rw [hgety]
          have hgp : (getNode (updNode s px fun n =>
              if true = true then { n with left := none } else
                { n with right := none }) px).parent =
              (getNode s px).parent := by rw [hgety]
          have hgc : (getNode (updNode s px fun n =>
              if true = true then { n with left := none } else
                { n with right := none }) px).color =
              (getNode s px).color := by rw [hgety]
          have hR2 : VT (updNode s px fun n =>
              if true = true then { n with left := none } else
                { n with right := none })
              (getNode s px).right (some px) cr v R := by
            apply VT_congr (by rw [nodes_length_updNode]) hR
            intro q hq2
            exact sEq_of_eq (getNode_updNode_ne _ _ _ _
              (fun hqy => hynR (hqy ▸ hq2)))
          have hnode := VT_node_black (s := updNode s px fun n =>
              if true = true then { n with left := none } else
                { n with right := none }) (i := px) (o := par)
            (by rw [nodes_length_updNode]; exact hylen)
            (by rw [hgp]; exact hpar)
            (by rw [hgc]; exact hcol)
            (by rw [hgl]; exact hVT)
            (by rw [hgr]; exact hR2)
          simpa using hnode
        · exact absurd hxd hxdd
    · rcases DT_x_parent_mem hD with h1 | ⟨px2, hp2, hmem2, _⟩
      · exact absurd h1 hxd
      have hpx2 : px = px2 := by
        rw [hp2] at hxp
        exact (Option.some_injective _ hxp).symm
      subst hpx2
      have hpxy : px ≠ y := fun hc => hdisj (hc ▸ hmem2) (List.mem_cons_self y R)
      have hpxR : px ∉ R := fun hc => hdisj hmem2 (List.mem_cons_of_mem y hc)
      obtain ⟨A, B, q, hAB, hVT, hq⟩ := ih hndlD hxp hxs
      rcases hq with ⟨hxdd, hqn⟩ | ⟨hxdd, hqs⟩
      · exact absurd hxdd hxd
      subst hqs
      refine ⟨A, B ++ y :: R, some y, by rw [hAB]; simp, ?_, Or.inr ⟨hxy, rfl⟩⟩
      have hgety : getNode (updNode s px fun n =>
          if sideL then { n with left := none } else { n with right := none }) y =
          getNode s y := getNode_updNode_ne _ _ _ _ (Ne.symm hpxy)
      have hR2 : VT (updNode s px fun n =>
          if sideL then { n with left := none } else { n with right := none })
          (getNode s y).right (some y) cr v R := by
        apply VT_congr (by rw [nodes_length_updNode]) hR
        intro q hq2
        exact sEq_of_eq (getNode_updNode_ne _ _ _ _
          (fun hqy => hpxR (hqy ▸ hq2)))
      have hnode := VT_node_black (s := updNode s px fun n =>
          if sideL then { n with left := none } else { n with right := none })
          (i := y) (o := par)
        (by rw [nodes_length_updNode]; exact hylen)
        (by rw [hgety]; exact hpar)
        (by rw [hgety]; exact hcol)
        (by rw [hgety, hld]; exact hVT)
        (by rw [hgety]; exact hR2)
      simpa using hnode
  | stepR y dd par cl v L lD hylen hpar hcol hrd hD hL ih =>
    intro hnd px sideL hxp hxs
    obtain ⟨A0, B0, hAB0⟩ := DT_decomp hD
    have hxlD : x ∈ lD := by rw [hAB0]; simp
    obtain ⟨hndL, hndylD, hdisj⟩ := List.nodup_append.mp hnd
    have hynlD : y ∉ lD := (List.nodup_cons.mp hndylD).1
    have hndlD : lD.Nodup := (List.nodup_cons.mp hndylD).2
    have hxy : x ≠ y := fun hxy => hynlD (hxy ▸ hxlD)
    by_cases hxd : x = dd
    · obtain ⟨hdp, _, _, _⟩ := DT_y_facts hD
      rw [← hxd] at hdp
      have hpxy : px = y := by
        rw [hdp] at hxp
        exact (Option.some_injective _ hxp).symm
      subst hpxy
      cases sideL with
      | true =>
        exfalso
        rw [if_pos rfl] at hxs
        have hLx : VT s (some x) (some px) cl v L := by rw [← hxs]; exact hL
        obtain ⟨_, _, _, hxL⟩ := VT_some_inv hLx
        exact hdisj hxL (List.mem_cons_of_mem px hxlD)
      | false =>
        obtain ⟨A, B, q, hAB, hVT, hq⟩ := ih hndlD hxp hxs
        rcases hq with ⟨hxdd, hqn⟩ | ⟨hxdd, hqs⟩
        · subst hqn
          refine ⟨L ++ px :: A, B, some px,
            by rw [hAB]; simp, ?_, Or.inr ⟨hxy, rfl⟩⟩
          have hgety : getNode (updNode s px fun n =>
              if false = true then { n with left := none } else
                { n with right := none }) px =
              { getNode s px with right := none } := by
            rw [getNode_updNode_self _ _ _ hylen]
            rfl
          have hgl : (getNode (updNode s px fun n =>
              if false = true then { n with left := none } else
                { n with right := none }) px).left =
              (getNode s px).left := by rw [hgety]
          have hgr : (getNode (updNode s px fun n =>
              if false = true then { n with left := none } else
                { n with right := none }) px).right = none := by rw [hgety]
          have hgp : (getNode (updNode s px fun n =>
              if false = true then { n with left := none } else
                { n with right := none }) px).parent =
              (getNode s px).parent := by rw [hgety]
          have hgc : (getNode (updNode s px fun n =>
              if false = true then { n with left := none } else
                { n with right := none }) px).color =
              (getNode s px).color := by rw [hgety]
          have hynL : px ∉ L := fun hc => hdisj hc (List.mem_cons_self px lD)
          have hL2 : VT (updNode s px fun n =>
              if false = true then { n with left := none } else
                { n with right := none })
              (getNode s px).left (some px) cl v L := by
            apply VT_congr (by rw [nodes_length_updNode]) hL
            intro q hq2
            exact sEq_of_eq (getNode_updNode_ne _ _ _ _
              (fun hqy => hynL (hqy ▸ hq2)))
          have hnode := VT_node_black (s := updNode s px fun n =>
              if false = true then { n with left := none } else
                { n with right := none }) (i := px) (o := par)
            (by rw [nodes_length_updNode]; exact hylen)
            (by rw [hgp]; exact hpar)
            (by rw [hgc]; exact hcol)
            (by rw [hgl]; exact hL2)
            (by rw [hgr]; exact hVT)
          simpa using hnode
        · exact absurd hxd hxdd
    · rcases DT_x_parent_mem hD with h1 | ⟨px2, hp2, hmem2, _⟩
      · exact absurd h1 hxd
      have hpx2 : px = px2 := by
        rw [hp2] at hxp
        exact (Option.some_injective _ hxp).symm
      subst hpx2
      have hpxy : px ≠ y := fun hc => hynlD (hc ▸ hmem2)
      have hpxL : px ∉ L := fun hc => hdisj hc (List.mem_cons_of_mem y hmem2)
      obtain ⟨A, B, q, hAB, hVT, hq⟩ := ih hndlD hxp hxs
      rcases hq with ⟨hxdd, hqn⟩ | ⟨hxdd, hqs⟩
      · exact absurd hxdd hxd
      subst hqs
      refine ⟨L ++ y :: A, B, some y, by rw [hAB]; simp, ?_, Or.inr ⟨hxy, rfl⟩⟩
      have hgety : getNode (updNode s px fun n =>
          if sideL then { n with left := none } else { n with right := none }) y =
          getNode s y := getNode_updNode_ne _ _ _ _ (Ne.symm hpxy)
      have hL2 : VT (updNode s px fun n =>
          if sideL then { n with left := none } else { n with right := none })
          (getNode s y).left (some y) cl v L := by
        apply VT_congr (by rw [nodes_length_updNode]) hL
        intro q hq2
        exact sEq_of_eq (getNode_updNode_ne _ _ _ _
          (fun hqy => hpxL (hqy ▸ hq2)))
      have hnode := VT_node_black (s := updNode s px fun n =>
          if sideL then { n with left := none } else { n with right := none })
          (i := y) (o := par)
        (by rw [nodes_length_updNode]; exact hylen)
        (by rw [hgety]; exact hpar)
        (by rw [hgety]; exact hcol)
        (by rw [hgety]; exact hL2)
        (by rw [hgety, hrd]; exact hVT)
      simpa using hnode

theorem admEq_refl (a : RBTreeState) : admEq a a :=
  ⟨rfl, rfl, rfl, rfl, rfl, rfl⟩

theorem admEq_trans {a b c : RBTreeState} (h1 : admEq a b) (h2 : admEq b c) :
    admEq a c := by
  obtain ⟨x1, x2, x3, x4, x5, x6⟩ := h1
  obtain ⟨y1, y2, y3, y4, y5, y6⟩ := h2
  exact ⟨x1.trans y1, x2.trans y2, x3.trans y3, x4.trans y4, x5.trans y5,
    x6.trans y6⟩

theorem admEq_updNode (s : RBTreeState) (i : Nat)
    (f : RBNodeData → RBNodeData) : admEq (updNode s i f) s :=
  ⟨rfl, rfl, rfl, rfl, rfl, by rw [nodes_length_updNode]⟩

theorem rngEq_refl (a : RBTreeState) : rngEq a a := fun _ => rfl

theorem rngEq_trans {a b c : RBTreeState} (h1 : rngEq a b) (h2 : rngEq b c) :
    rngEq a c := fun q => (h1 q).trans (h2 q)

theorem rngEq_updNode_of (s : RBTreeState) (i : Nat)
    (f : RBNodeData → RBNodeData) (hf : ∀ n, (f n).range = n.range) :
    rngEq (updNode s i f) s :=
  fun q => range_getNode_updNode s i f hf q

theorem swap_parents_spec (s : RBTreeState) (g p : Nat) (gpar : Option Nat)
    (hg : g < s.nodes.length) (hp : p < s.nodes.length) (hne : p ≠ g)
    (hgpar : (getNode s g).parent = gpar)
    (hqq : ∀ qq, gpar = some qq → qq ≠ g ∧ qq ≠ p ∧ qq < s.nodes.length) :
    admEq (swap_parents s g p) s ∧
    rngEq (swap_parents s g p) s ∧
    (swap_parents s g p).root = (if gpar = none then some p else s.root) ∧
    getNode (swap_parents s g p) g = { getNode s g with parent := some p } ∧
    getNode (swap_parents s g p) p = { getNode s p with parent := gpar } ∧
    (∀ qq, gpar = some qq →
      getNode (swap_parents s g p) qq =
        (if (getNode s qq).left = some g then { getNode s qq with left := some p }
         else { getNode s qq with right := some p })) ∧
    (∀ z, z ≠ g → z ≠ p → gpar ≠ some z →
      getNode (swap_parents s g p) z = getNode s z) := by
  have h4g : getNode (updNode s p fun n =>
      { n with parent := (getNode s g).parent }) g = getNode s g :=
    getNode_updNode_ne _ _ _ _ (Ne.symm hne)
  rcases gpar with _ | qq
  · have hr : is_root (updNode s p fun n =>
        { n with parent := (getNode s g).parent }) g = true := by
      unfold is_root
      rw [h4g, hgpar]
      rfl
    have hsw : swap_parents s g p =
        updNode { (updNode s p fun n =>
            { n with parent := (getNode s g).parent }) with root := some p }
          g fun n => { n with parent := some p } := by
      simp only [swap_parents]
      rw [hr]
      simp
    rw [hsw]
    have hgg : getNode { (updNode s p fun n =>
        { n with parent := (getNode s g).parent }) with root := some p } g =
        getNode s g := by
      have : getNode { (updNode s p fun n =>
          { n with parent := (getNode s g).parent }) with root := some p } g =
          getNode (updNode s p fun n =>
            { n with parent := (getNode s g).parent }) g := rfl
      rw [this, h4g]
    have hglen : g < ({ (updNode s p fun n =>
        { n with parent := (getNode s g).parent }) with
          root := some p } : RBTreeState).nodes.length := by
      have : ({ (updNode s p fun n =>
          { n with parent := (getNode s g).parent }) with
            root := some p } : RBTreeState).nodes.length = s.nodes.length := by
        rw [show ({ (updNode s p fun n =>
            { n with parent := (getNode s g).parent }) with
              root := some p } : RBTreeState).nodes = (updNode s p fun n =>
            { n with parent := (getNode s g).parent }).nodes from rfl]
        rw [nodes_length_updNode]
      omega
    refine ⟨?_, ?_, ?_, ?_, ?_, ?_, ?_⟩
    · refine admEq_trans (admEq_updNode _ _ _) ?_
      exact ⟨rfl, rfl, rfl, rfl, rfl, by rw [nodes_length_updNode]⟩
    · intro q
      rw [range_getNode_set_parent]
      have : getNode { (updNode s p fun n =>
          { n with parent := (getNode s g).parent }) with root := some p } q =
          getNode (updNode s p fun n =>
            { n with parent := (getNode s g).parent }) q := rfl
      rw [this, range_getNode_set_parent]
    · simp [updNode]
    · rw [getNode_updNode_self _ _ _ hglen, hgg]
    · rw [getNode_updNode_ne _ _ _ _ hne]
      have : getNode { (updNode s p fun n =>
          { n with parent := (getNode s g).parent }) with root := some p } p =
          getNode (updNode s p fun n =>
            { n with parent := (getNode s g).parent }) p := rfl
      rw [this, getNode_updNode_self _ _ _ hp, hgpar]
    · intro qq hc
      cases hc
    · intro z hzg hzp _
      rw [getNode_updNode_ne _ _ _ _ hzg]
      have : getNode { (updNode s p fun n =>
          { n with parent := (getNode s g).parent }) with root := some p } z =
          getNode (updNode s p fun n =>
            { n with parent := (getNode s g).parent }) z := rfl
      rw [this, getNode_updNode_ne _ _ _ _ hzp]
  · obtain ⟨hqg, hqp, hqlen⟩ := hqq qq rfl
    have h4qq : getNode (updNode s p fun n =>
        { n with parent := (getNode s g).parent }) qq = getNode s qq :=
      getNode_updNode_ne _ _ _ _ hqp
    have hr : is_root (updNode s p fun n =>
        { n with parent := (getNode s g).parent }) g = false := by
      unfold is_root
      rw [h4g, hgpar]
      rfl
    have hlc : is_left_child (updNode s p fun n =>
        { n with parent := (getNode s g).parent }) g =
        ((getNode s qq).left == some g) := by
      unfold is_left_child
      rw [hr, h4g, hgpar]
      simp [getNode_updNode_ne _ _ _ _ hqp]
    have hgd : ((getNode (updNode s p fun n =>
        { n with parent := (getNode s g).parent }) g).parent).getD 0 = qq := by
      rw [h4g, hgpar]
      rfl
    by_cases hslot : (getNode s qq).left = some g
    · have hsw : swap_parents s g p =
          updNode (updNode (updNode s p fun n =>
              { n with parent := (getNode s g).parent }) qq fun n =>
              { n with left := some p })
            g fun n => { n with parent := some p } := by
        simp only [swap_parents]
        rw [hr, hlc, hgd]
        simp [hslot]
      rw [hsw]
      have hqq2 : getNode (updNode (updNode s p fun n =>
          { n with parent := (getNode s g).parent }) qq fun n =>
          { n with left := some p }) qq =
          { getNode s qq with left := some p } := by
        rw [getNode_updNode_self _ _ _ (by rw [nodes_length_updNode]; exact hqlen),
          h4qq]
      have hg2 : getNode (updNode (updNode s p fun n =>
          { n with parent := (getNode s g).parent }) qq fun n =>
          { n with left := some p }) g = getNode s g := by
        rw [getNode_updNode_ne _ _ _ _ (Ne.symm hqg), h4g]
      have hp2 : getNode (updNode (updNode s p fun n =>
          { n with parent := (getNode s g).parent }) qq fun n =>
          { n with left := some p }) p =
          { getNode s p with parent := some qq } := by
        rw [getNode_updNode_ne _ _ _ _ (Ne.symm hqp),
          getNode_updNode_self _ _ _ hp, hgpar]
      refine ⟨?_, ?_, ?_, ?_, ?_, ?_, ?_⟩
      · exact admEq_trans (admEq_updNode _ _ _)
          (admEq_trans (admEq_updNode _ _ _) (admEq_updNode _ _ _))
      · intro q
        rw [range_getNode_set_parent, range_getNode_set_left,
          range_getNode_set_parent]
      · simp [updNode]
      · rw [getNode_updNode_self _ _ _ (by
          rw [nodes_length_updNode, nodes_length_updNode]; exact hg), hg2]
      · rw [getNode_updNode_ne _ _ _ _ hne, hp2]
      · intro qq2 hqq2e
        have hqq2' : qq2 = qq := by
          injection hqq2e.symm
        subst hqq2'
        rw [getNode_updNode_ne _ _ _ _ hqg, hqq2, if_pos hslot]
      · intro z hzg hzp hzq
        have hzq' : z ≠ qq := fun hc => hzq (by rw [hc])
        rw [getNode_updNode_ne _ _ _ _ hzg, getNode_updNode_ne _ _ _ _ hzq',
          getNode_updNode_ne _ _ _ _ hzp]
    · have hsw : swap_parents s g p =
          updNode (updNode (updNode s p fun n =>
              { n with parent := (getNode s g).parent }) qq fun n =>
              { n with right := some p })
            g fun n => { n with parent := some p } := by
        simp only [swap_parents]
        rw [hr, hlc, hgd]
        simp [hslot]
      rw [hsw]
      have hqq2 : getNode (updNode (updNode s p fun n =>
          { n with parent := (getNode s g).parent }) qq fun n =>
          { n with right := some p }) qq =
          { getNode s qq with right := some p } := by
        rw [getNode_updNode_self _ _ _ (by rw [nodes_length_updNode]; exact hqlen),
          h4qq]
      have hg2 : getNode (updNode (updNode s p fun n =>
          { n with parent := (getNode s g).parent }) qq fun n =>
          { n with right := some p }) g = getNode s g := by
        rw [getNode_updNode_ne _ _ _ _ (Ne.symm hqg), h4g]
      have hp2 : getNode (updNode (updNode s p fun n =>
          { n with parent := (getNode s g).parent }) qq fun n =>
          { n with right := some p }) p =
          { getNode s p with parent := some qq } := by
        rw [getNode_updNode_ne _ _ _ _ (Ne.symm hqp),
          getNode_updNode_self _ _ _ hp, hgpar]
      refine ⟨?_, ?_, ?_, ?_, ?_, ?_, ?_⟩
      · exact admEq_trans (admEq_updNode _ _ _)
          (admEq_trans (admEq_updNode _ _ _) (admEq_updNode _ _ _))
      · intro q
        rw [range_getNode_set_parent, range_getNode_set_right,
          range_getNode_set_parent]
      · simp [updNode]
      · rw [getNode_updNode_self _ _ _ (by
          rw [nodes_length_updNode, nodes_length_updNode]; exact hg), hg2]
      · rw [getNode_updNode_ne _ _ _ _ hne, hp2]
      · intro qq2 hqq2e
        have hqq2' : qq2 = qq := by
          injection hqq2e.symm
        subst hqq2'
        rw [getNode_updNode_ne _ _ _ _ hqg, hqq2, if_neg hslot]
      · intro z hzg hzp hzq
        have hzq' : z ≠ qq := fun hc => hzq (by rw [hc])
        rw [getNode_updNode_ne _ _ _ _ hzg, getNode_updNode_ne _ _ _ _ hzq',
          getNode_updNode_ne _ _ _ _ hzp]

theorem rotate_right_ptr (s : RBTreeState) (g p : Nat) (B gpar : Option Nat)
    (hg : g < s.nodes.length) (hp : p < s.nodes.length) (hne : p ≠ g)
    (hpg : (getNode s g).left = some p)
    (hB : (getNode s p).right = B)
    (hbf : ∀ b, B = some b → b ≠ g ∧ b ≠ p ∧ b < s.nodes.length)
    (hgpar : (getNode s g).parent = gpar)
    (hqq : ∀ qq, gpar = some qq → qq ≠ g ∧ qq ≠ p ∧
      (∀ b, B = some b → qq ≠ b) ∧ qq < s.nodes.length) :
    ∃ T, rotate_right s g = .ok T ∧
    admEq T s ∧ rngEq T s ∧
    T.root = (if gpar = none then some p else s.root) ∧
    getNode T g = { getNode s g with left := B, parent := some p } ∧
    getNode T p = { getNode s p with right := some g, parent := gpar } ∧
    (∀ b, B = some b → getNode T b = { getNode s b with parent := some g }) ∧
    (∀ qq, gpar = some qq →
      getNode T qq =
        (if (getNode s qq).left = some g then
          { getNode s qq with left := some p }
         else { getNode s qq with right := some p })) ∧
    (∀ z, z ≠ g → z ≠ p → B ≠ some z → gpar ≠ some z →
      getNode T z = getNode s z) := by
  have hs1g : getNode (updNode s g fun n =>
      { n with left := (getNode s p).right }) g
      = { getNode s g with left := B } := by
    rw [getNode_updNode_self _ _ _ hg, hB]
  have hs2g : getNode (updNode (updNode s g fun n =>
      { n with left := (getNode s p).right }) p fun n =>
      { n with right := some g }) g = { getNode s g with left := B } := by
    rw [getNode_updNode_ne _ _ _ _ (Ne.symm hne), hs1g]
  have hs2p : getNode (updNode (updNode s g fun n =>
      { n with left := (getNode s p).right }) p fun n =>
      { n with right := some g }) p = { getNode s p with right := some g } := by
    rw [getNode_updNode_self _ _ _ (by rw [nodes_length_updNode]; exact hp),
      getNode_updNode_ne _ _ _ _ hne]
  cases B with
  | none =>
    have hcond : has_left_child (updNode (updNode s g fun n =>
        { n with left := (getNode s p).right }) p fun n =>
        { n with right := some g }) g = false := by
      unfold has_left_child
      rw [hs2g]
      rfl
    have hrw : rotate_right s g = .ok (swap_parents (updNode (updNode s g fun n =>
        { n with left := (getNode s p).right }) p fun n =>
        { n with right := some g }) g p) := by
      simp only [rotate_right, hpg]
      have ht : toIdx (some p) = Except.ok p := rfl
      rw [ht, bind_ok, hcond]
      rfl
    set s3 := updNode (updNode s g fun n =>
        { n with left := (getNode s p).right }) p fun n =>
        { n with right := some g } with hs3
    have hadm3 : admEq s3 s :=
      admEq_trans (admEq_updNode _ _ _) (admEq_updNode _ _ _)
    have hlen3 : s3.nodes.length = s.nodes.length := hadm3.2.2.2.2.2
    have hs3gp : (getNode s3 g).parent = gpar := by rw [hs2g]; exact hgpar
    have hs3z : ∀ z, z ≠ g → z ≠ p → getNode s3 z = getNode s z := by
      intro z hzg hzp
      rw [hs3, getNode_updNode_ne _ _ _ _ hzp, getNode_updNode_ne _ _ _ _ hzg]
    obtain ⟨hA, hRg, hRoot, hGg, hGp, hGqq, hGz⟩ :=
      swap_parents_spec s3 g p gpar (by rw [hlen3]; exact hg)
        (by rw [hlen3]; exact hp) hne hs3gp
        (fun qq hq => ⟨(hqq qq hq).1, (hqq qq hq).2.1,
          by rw [hlen3]; exact (hqq qq hq).2.2.2⟩)
    refine ⟨_, hrw, admEq_trans hA hadm3, ?_, ?_, ?_, ?_, ?_, ?_, ?_⟩
    · refine rngEq_trans hRg ?_
      intro q
      rw [hs3, range_getNode_set_right, range_getNode_set_left]
    · rw [hRoot, hs3]
      rfl
    · rw [hGg, hs2g]
    · rw [hGp, hs2p]
    · intro b hb
      cases hb
    · intro qq hq
      rw [hGqq qq hq]
      obtain ⟨h1, h2, _, _⟩ := hqq qq hq
      rw [hs3z qq h1 h2]
    · intro z hzg hzp _ hzq
      rw [hGz z hzg hzp hzq, hs3z z hzg hzp]
  | some b =>
    obtain ⟨hbg, hbp, hblen⟩ := hbf b rfl
    have hcond : has_left_child (updNode (updNode s g fun n =>
        { n with left := (getNode s p).right }) p fun n =>
        { n with right := some g }) g = true := by
      unfold has_left_child
      rw [hs2g]
      rfl
    have hs2b : getNode (updNode (updNode s g fun n =>
        { n with left := (getNode s p).right }) p fun n =>
        { n with right := some g }) b = getNode s b := by
      rw [getNode_updNode_ne _ _ _ _ hbp, getNode_updNode_ne _ _ _ _ hbg]
    have hd : ((getNode (updNode (updNode s g fun n =>
        { n with left := (getNode s p).right }) p fun n =>
        { n with right := some g }) g).left).getD 0 = b := by
      rw [hs2g]
      rfl
    have hrw : rotate_right s g = .ok (swap_parents (updNode (updNode (updNode s g
        fun n => { n with left := (getNode s p).right }) p fun n =>
        { n with right := some g }) b fun n =>
        { n with parent := some g }) g p) := by
      simp only [rotate_right, hpg]
      have ht : toIdx (some p) = Except.ok p := rfl
      rw [ht, bind_ok, hcond, hd]
      rfl
    set s3 := updNode (updNode (updNode s g fun n =>
        { n with left := (getNode s p).right }) p fun n =>
        { n with right := some g }) b fun n => { n with parent := some g }
      with hs3
    have hadm3 : admEq s3 s :=
      admEq_trans (admEq_updNode _ _ _)
        (admEq_trans (admEq_updNode _ _ _) (admEq_updNode _ _ _))
    have hlen3 : s3.nodes.length = s.nodes.length := hadm3.2.2.2.2.2
    have hs3g : getNode s3 g = { getNode s g with left := some b } := by
      rw [hs3, getNode_updNode_ne _ _ _ _ (Ne.symm hbg), hs2g]
    have hs3p : getNode s3 p = { getNode s p with right := some g } := by
      rw [hs3, getNode_updNode_ne _ _ _ _ (Ne.symm hbp), hs2p]
    have hs3b : getNode s3 b = { getNode s b with parent := some g } := by
      rw [hs3, getNode_updNode_self _ _ _ (by
        rw [nodes_length_updNode, nodes_length_updNode]; exact hblen), hs2b]
    have hs3gp : (getNode s3 g).parent = gpar := by rw [hs3g]; exact hgpar
    have hs3z : ∀ z, z ≠ g → z ≠ p → z ≠ b → getNode s3 z = getNode s z := by
      intro z hzg hzp hzb
      rw [hs3, getNode_updNode_ne _ _ _ _ hzb, getNode_updNode_ne _ _ _ _ hzp,
        getNode_updNode_ne _ _ _ _ hzg]
    obtain ⟨hA, hRg, hRoot, hGg, hGp, hGqq, hGz⟩ :=
      swap_parents_spec s3 g p gpar (by rw [hlen3]; exact hg)
        (by rw [hlen3]; exact hp) hne hs3gp
        (fun qq hq => ⟨(hqq qq hq).1, (hqq qq hq).2.1,
          by rw [hlen3]; exact (hqq qq hq).2.2.2⟩)
    refine ⟨_, hrw, admEq_trans hA hadm3, ?_, ?_, ?_, ?_, ?_, ?_, ?_⟩
    · refine rngEq_trans hRg ?_
      intro q
      rw [hs3, range_getNode_set_parent, range_getNode_set_right,
        range_getNode_set_left]
    · rw [hRoot, hs3]
      rfl
    · rw [hGg, hs3g]
    · rw [hGp, hs3p]
    · intro b2 hb2
      have hb2b : b2 = b := Option.some_injective _ hb2.symm
      subst hb2b
      rw [hGz b2 hbg hbp (fun hc => ((hqq b2 hc).2.2.1 b2 rfl) rfl), hs3b]
    · intro qq hq
      rw [hGqq qq hq]
      obtain ⟨h1, h2, h3, _⟩ := hqq qq hq
      rw [hs3z qq h1 h2 (h3 b rfl)]
    · intro z hzg hzp hzB hzq
      have hzb : z ≠ b := fun hc => hzB (by rw [hc])
      rw [hGz z hzg hzp hzq, hs3z z hzg hzp hzb]

theorem rotate_left_ptr (s : RBTreeState) (g p : Nat) (B gpar : Option Nat)
    (hg : g < s.nodes.length) (hp : p < s.nodes.length) (hne : p ≠ g)
    (hpg : (getNode s g).right = some p)
    (hB : (getNode s p).left = B)
    (hbf : ∀ b, B = some b → b ≠ g ∧ b ≠ p ∧ b < s.nodes.length)
    (hgpar : (getNode s g).parent = gpar)
    (hqq : ∀ qq, gpar = some qq → qq ≠ g ∧ qq ≠ p ∧
      (∀ b, B = some b → qq ≠ b) ∧ qq < s.nodes.length) :
    ∃ T, rotate_left s g = .ok T ∧
    admEq T s ∧ rngEq T s ∧
    T.root = (if gpar = none then some p else s.root) ∧
    getNode T g = { getNode s g with right := B, parent := some p } ∧
    getNode T p = { getNode s p with left := some g, parent := gpar } ∧
    (∀ b, B = some b → getNode T b = { getNode s b with parent := some g }) ∧
    (∀ qq, gpar = some qq →
      getNode T qq =
        (if (getNode s qq).left = some g then
          { getNode s qq with left := some p }
         else { getNode s qq with right := some p })) ∧
    (∀ z, z ≠ g → z ≠ p → B ≠ some z → gpar ≠ some z →
      getNode T z = getNode s z) := by
  have hs1g : getNode (updNode s g fun n =>
      { n with right := (getNode s p).left }) g
      = { getNode s g with right := B } := by
    rw [getNode_updNode_self _ _ _ hg, hB]
  have hs2g : getNode (updNode (updNode s g fun n =>
      { n with right := (getNode s p).left }) p fun n =>
      { n with left := some g }) g = { getNode s g with right := B } := by
    rw [getNode_updNode_ne _ _ _ _ (Ne.symm hne), hs1g]
  have hs2p : getNode (updNode (updNode s g fun n =>
      { n with right := (getNode s p).left }) p fun n =>
      { n with left := some g }) p = { getNode s p with left := some g } := by
    rw [getNode_updNode_self _ _ _ (by rw [nodes_length_updNode]; exact hp),
      getNode_updNode_ne _ _ _ _ hne]
  cases B with
  | none =>
    have hcond : has_right_child (updNode (updNode s g fun n =>
        { n with right := (getNode s p).left }) p fun n =>
        { n with left := some g }) g = false := by
      unfold has_right_child
      rw [hs2g]
      rfl
    have hrw : rotate_left s g = .ok (swap_parents (updNode (updNode s g fun n =>
        { n with right := (getNode s p).left }) p fun n =>
        { n with left := some g }) g p) := by
      simp only [rotate_left, hpg]
      have ht : toIdx (some p) = Except.ok p := rfl
      rw [ht, bind_ok, hcond]
      rfl
    set s3 := updNode (updNode s g fun n =>
        { n with right := (getNode s p).left }) p fun n =>
        { n with left := some g } with hs3
    have hadm3 : admEq s3 s :=
      admEq_trans (admEq_updNode _ _ _) (admEq_updNode _ _ _)
    have hlen3 : s3.nodes.length = s.nodes.length := hadm3.2.2.2.2.2
    have hs3gp : (getNode s3 g).parent = gpar := by rw [hs2g]; exact hgpar
    have hs3z : ∀ z, z ≠ g → z ≠ p → getNode s3 z = getNode s z := by
      intro z hzg hzp
      rw [hs3, getNode_updNode_ne _ _ _ _ hzp, getNode_updNode_ne _ _ _ _ hzg]
    obtain ⟨hA, hRg, hRoot, hGg, hGp, hGqq, hGz⟩ :=
      swap_parents_spec s3 g p gpar (by rw [hlen3]; exact hg)
        (by rw [hlen3]; exact hp) hne hs3gp
        (fun qq hq => ⟨(hqq qq hq).1, (hqq qq hq).2.1,
          by rw [hlen3]; exact (hqq qq hq).2.2.2⟩)
    refine ⟨_, hrw, admEq_trans hA hadm3, ?_, ?_, ?_, ?_, ?_, ?_, ?_⟩
    · refine rngEq_trans hRg ?_
      intro q
      rw [hs3, range_getNode_set_left, range_getNode_set_right]
    · rw [hRoot, hs3]
      rfl
    · rw [hGg, hs2g]
    · rw [hGp, hs2p]
    · intro b hb
      cases hb
    · intro qq hq
      rw [hGqq qq hq]
      obtain ⟨h1, h2, _, _⟩ := hqq qq hq
      rw [hs3z qq h1 h2]
    · intro z hzg hzp _ hzq
      rw [hGz z hzg hzp hzq, hs3z z hzg hzp]
  | some b =>
    obtain ⟨hbg, hbp, hblen⟩ := hbf b rfl
    have hcond : has_right_child (updNode (updNode s g fun n =>
        { n with right := (getNode s p).left }) p fun n =>
        { n with left := some g }) g = true := by
      unfold has_right_child
      rw [hs2g]
      rfl
    have hs2b : getNode (updNode (updNode s g fun n =>
        { n with right := (getNode s p).left }) p fun n =>
        { n with left := some g }) b = getNode s b := by
      rw [getNode_updNode_ne _ _ _ _ hbp, getNode_updNode_ne _ _ _ _ hbg]
    have hd : ((getNode (updNode (updNode s g fun n =>
        { n with right := (getNode s p).left }) p fun n =>
        { n with left := some g }) g).right).getD 0 = b := by
      rw [hs2g]
      rfl
    have hrw : rotate_left s g = .ok (swap_parents (updNode (updNode (updNode s g
        fun n => { n with right := (getNode s p).left }) p fun n =>
        { n with left := some g }) b fun n =>
        { n with parent := some g }) g p) := by
      simp only [rotate_left, hpg]
      have ht : toIdx (some p) = Except.ok p := rfl
      rw [ht, bind_ok, hcond, hd]
      rfl
    set s3 := updNode (updNode (updNode s g fun n =>
        { n with right := (getNode s p).left }) p fun n =>
        { n with left := some g }) b fun n => { n with parent := some g }
      with hs3
    have hadm3 : admEq s3 s :=
      admEq_trans (admEq_updNode _ _ _)
        (admEq_trans (admEq_updNode _ _ _) (admEq_updNode _ _ _))
    have hlen3 : s3.nodes.length = s.nodes.length := hadm3.2.2.2.2.2
    have hs3g : getNode s3 g = { getNode s g with right := some b } := by
      rw [hs3, getNode_updNode_ne _ _ _ _ (Ne.symm hbg), hs2g]
    have hs3p : getNode s3 p = { getNode s p with left := some g } := by
      rw [hs3, getNode_updNode_ne _ _ _ _ (Ne.symm hbp), hs2p]
    have hs3b : getNode s3 b = { getNode s b with parent := some g } := by
      rw [hs3, getNode_updNode_self _ _ _ (by
        rw [nodes_length_updNode, nodes_length_updNode]; exact hblen), hs2b]
    have hs3gp : (getNode s3 g).parent = gpar := by rw [hs3g]; exact hgpar
    have hs3z : ∀ z, z ≠ g → z ≠ p → z ≠ b → getNode s3 z = getNode s z := by
      intro z hzg hzp hzb
      rw [hs3, getNode_updNode_ne _ _ _ _ hzb, getNode_updNode_ne _ _ _ _ hzp,
        getNode_updNode_ne _ _ _ _ hzg]
    obtain ⟨hA, hRg, hRoot, hGg, hGp, hGqq, hGz⟩ :=
      swap_parents_spec s3 g p gpar (by rw [hlen3]; exact hg)
        (by rw [hlen3]; exact hp) hne hs3gp
        (fun qq hq => ⟨(hqq qq hq).1, (hqq qq hq).2.1,
          by rw [hlen3]; exact (hqq qq hq).2.2.2⟩)
    refine ⟨_, hrw, admEq_trans hA hadm3, ?_, ?_, ?_, ?_, ?_, ?_, ?_⟩
    · refine rngEq_trans hRg ?_
      intro q
      rw [hs3, range_getNode_set_parent, range_getNode_set_left,
        range_getNode_set_right]
    · rw [hRoot, hs3]
      rfl
    · rw [hGg, hs3g]
    · rw [hGp, hs3p]
    · intro b2 hb2
      have hb2b : b2 = b := Option.some_injective _ hb2.symm
      subst hb2b
      rw [hGz b2 hbg hbp (fun hc => ((hqq b2 hc).2.2.1 b2 rfl) rfl), hs3b]
    · intro qq hq
      rw [hGqq qq hq]
      obtain ⟨h1, h2, h3, _⟩ := hqq qq hq
      rw [hs3z qq h1 h2 (h3 b rfl)]
    · intro z hzg hzp hzB hzq
      have hzb : z ≠ b := fun hc => hzB (by rw [hc])
      rw [hGz z hzg hzp hzq, hs3z z hzg hzp hzb]

theorem VT_blacken_root {s : RBTreeState} {u : Nat} {par : Option Nat}
    {c : Bool} {bh : Nat} {l : List Nat}
    (h : VT s (some u) par c bh l) (hnd : l.Nodup) :
    VT (set_black s u) (some u) par BLACK
      (if (getNode s u).color = BLACK then bh else bh + 1) l := by
  cases h with
  | node i par cl cr b L R hlen hpar hred hL hR =>
    have hunL : u ∉ L := fun hc =>
      (List.nodup_append.mp hnd).2.2 hc (List.mem_cons_self u R)
    have hunR : u ∉ R := (List.nodup_cons.mp (List.nodup_append.mp hnd).2.1).1
    have hlen2 : (set_black s u).nodes.length = s.nodes.length := by
      unfold set_black
      rw [nodes_length_updNode]
    have hgx : getNode (set_black s u) u =
        { getNode s u with color := BLACK } := getNode_set_black_self s u hlen
    have hL2 : VT (set_black s u) (getNode s u).left (some u) cl b L :=
      VT_congr hlen2 hL (fun q hq => sEq_of_eq
        (getNode_set_black_ne s u q (fun hc => hunL (hc ▸ hq))))
    have hR2 : VT (set_black s u) (getNode s u).right (some u) cr b R :=
      VT_congr hlen2 hR (fun q hq => sEq_of_eq
        (getNode_set_black_ne s u q (fun hc => hunR (hc ▸ hq))))
    have hnode := VT_node_black (s := set_black s u) (i := u) (o := par)
      (by rw [hlen2]; exact hlen)
      (by rw [hgx]; exact hpar)
      (by rw [hgx])
      (by rw [hgx]; exact hL2)
      (by rw [hgx]; exact hR2)
    rcases hcu : (getNode s u).color with _ | _
    · simpa [BLACK, hcu] using hnode
    · simpa [RED, BLACK, hcu] using hnode

theorem VT_redden_root {s : RBTreeState} {u : Nat} {par : Option Nat}
    {c : Bool} {bh : Nat} {l : List Nat}
    (h : VT s (some u) par c bh l) (hnd : l.Nodup)
    (hcb : (getNode s u).color = BLACK)
    (hkl : is_black s (getNode s u).left = true)
    (hkr : is_black s (getNode s u).right = true) :
    VT (set_red s u) (some u) par RED (bh - 1) l := by
  cases h with
  | node i par cl cr b L R hlen hpar hred hL hR =>
    have hunL : u ∉ L := fun hc =>
      (List.nodup_append.mp hnd).2.2 hc (List.mem_cons_self u R)
    have hunR : u ∉ R := (List.nodup_cons.mp (List.nodup_append.mp hnd).2.1).1
    have hlen2 : (set_red s u).nodes.length = s.nodes.length := by
      unfold set_red
      rw [nodes_length_updNode]
    have hgx : getNode (set_red s u) u =
        { getNode s u with color := RED } := getNode_set_red_self s u hlen
    have hL2 : VT (set_red s u) (getNode s u).left (some u) cl b L :=
      VT_congr hlen2 hL (fun q hq => sEq_of_eq
        (getNode_set_red_ne s u q (fun hc => hunL (hc ▸ hq))))
    have hR2 : VT (set_red s u) (getNode s u).right (some u) cr b R :=
      VT_congr hlen2 hR (fun q hq => sEq_of_eq
        (getNode_set_red_ne s u q (fun hc => hunR (hc ▸ hq))))
    have hclb : cl = BLACK := by
      cases hcl2 : (getNode s u).left with
      | none =>
        rw [hcl2] at hL
        exact (VT_nil_inv hL).1
      | some lc =>
        rw [hcl2] at hL hkl
        rw [(VT_some_inv hL).1]
        exact black_of_is_black hkl
    have hcrb : cr = BLACK := by
      cases hcr2 : (getNode s u).right with
      | none =>
        rw [hcr2] at hR
        exact (VT_nil_inv hR).1
      | some rc =>
        rw [hcr2] at hR hkr
        rw [(VT_some_inv hR).1]
        exact black_of_is_black hkr
    have hnode := VT_node_red (s := set_red s u) (i := u) (o := par)
      (by rw [hlen2]; exact hlen)
      (by rw [hgx]; exact hpar)
      (by rw [hgx])
      hclb hcrb
      (by rw [hgx]; exact hL2)
      (by rw [hgx]; exact hR2)
    have hbh : b + (if (getNode s u).color = BLACK then 1 else 0) - 1 = b := by
      rw [hcb]
      simp [BLACK]
    rw [hbh]
    exact hnode

theorem PT_d0 {s : RBTreeState} {h : Hole} {bh : Nat} {pre post : List Nat}
    (hpt : PT s h bh pre post 0) :
    h = Hole.root ∧ pre = [] ∧ post = [] := by
  cases hpt
  exact ⟨rfl, rfl, rfl⟩

theorem PT_root_mem {s : RBTreeState} :
    ∀ {h bh pre post d}, PT s h bh pre post d → 1 ≤ d →
      ∃ r, s.root = some r ∧ r ∈ pre ++ post := by
  intro h bh pre post d hpt
  induction hpt with
  | root bh => intro hd; omega
  | goleft h i cr bh pre post R d hup hhold hlen hpar hR hredR hredPar ih =>
    intro _
    by_cases hd : 1 ≤ d
    · obtain ⟨r, hr, hmem⟩ := ih hd
      refine ⟨r, hr, ?_⟩
      rcases List.mem_append.mp hmem with h1 | h1
      · exact List.mem_append.mpr (Or.inl h1)
      · simp [h1]
    · have hd0 : d = 0 := by omega
      subst hd0
      obtain ⟨hh, hpre, hpost⟩ := PT_d0 hup
      subst hh
      exact ⟨i, hhold, by simp⟩
  | goright h i cl bh pre post L d hup hhold hlen hpar hL hredL hredPar ih =>
    intro _
    by_cases hd : 1 ≤ d
    · obtain ⟨r, hr, hmem⟩ := ih hd
      refine ⟨r, hr, ?_⟩
      rcases List.mem_append.mp hmem with h1 | h1
      · simp [h1]
      · exact List.mem_append.mpr (Or.inr h1)
    · have hd0 : d = 0 := by omega
      subst hd0
      obtain ⟨hh, hpre, hpost⟩ := PT_d0 hup
      subst hh
      exact ⟨i, hhold, by simp⟩

theorem holePar_slot {h : Hole} {j : Nat} (hp : holePar h = some j) :
    ∃ si, h = Hole.slot j si := by
  cases h with
  | root => cases hp
  | slot i si =>
    have : i = j := by
      have : some i = some j := hp
      injection this
    exact ⟨si, by rw [this]⟩

theorem nd_ne {A B : List Nat} {a b : Nat} (h : (A ++ B).Nodup)
    (ha : a ∈ A) (hb : b ∈ B) : a ≠ b :=
  fun he => (List.nodup_append.mp h).2.2 ha (he ▸ hb)

theorem holeVal_congr {s t : RBTreeState} {h : Hole}
    (hroot : t.root = s.root)
    (hs : ∀ j si, h = Hole.slot j si → getNode t j = getNode s j) :
    holeVal t h = holeVal s h := by
  cases h with
  | root => exact hroot
  | slot j si =>
    cases si with
    | true =>
      show (getNode t j).left = (getNode s j).left
      rw [hs j true rfl]
    | false =>
      show (getNode t j).right = (getNode s j).right
      rw [hs j false rfl]

theorem VT_reroot {s s2 : RBTreeState} {b : Nat} {par par2 : Option Nat}
    {c : Bool} {bh : Nat} {l : List Nat}
    (h : VT s (some b) par c bh l) (hnd : l.Nodup)
    (hlen : s2.nodes.length = s.nodes.length)
    (hq : ∀ q ∈ l, q ≠ b → sEq (getNode s2 q) (getNode s q))
    (hl : (getNode s2 b).left = (getNode s b).left)
    (hr : (getNode s2 b).right = (getNode s b).right)
    (hc : (getNode s2 b).color = (getNode s b).color)
    (hp : (getNode s2 b).parent = par2) :
    VT s2 (some b) par2 c bh l := by
  cases h with
  | node i par cl cr b0 L R hblen hpar hred hL hR =>
    have hbnL : b ∉ L := fun hc2 =>
      (List.nodup_append.mp hnd).2.2 hc2 (List.mem_cons_self b R)
    have hbnR : b ∉ R := (List.nodup_cons.mp (List.nodup_append.mp hnd).2.1).1
    have hL2 : VT s2 (getNode s b).left (some b) cl b0 L :=
      VT_congr hlen hL (fun q hq2 => hq q (by simp [hq2])
        (fun he => hbnL (he ▸ hq2)))
    have hR2 : VT s2 (getNode s b).right (some b) cr b0 R :=
      VT_congr hlen hR (fun q hq2 => hq q (by simp [hq2])
        (fun he => hbnR (he ▸ hq2)))
    have hnode := VT.node (s := s2) b par2 cl cr b0 L R
      (by rw [hlen]; exact hblen) hp
      (by rw [hc]; exact hred)
      (by rw [hl]; exact hL2)
      (by rw [hr]; exact hR2)
    rw [hc] at hnode
    exact hnode

theorem VT_ptr_transfer {s s2 : RBTreeState} {P : Option Nat}
    {par par2 : Option Nat} {c : Bool} {bh : Nat} {l : List Nat}
    (h : VT s P par c bh l) (hnd : l.Nodup)
    (hlen : s2.nodes.length = s.nodes.length)
    (hq : ∀ q ∈ l, (∀ b, P = some b → q ≠ b) → sEq (getNode s2 q) (getNode s q))
    (hroot : ∀ b, P = some b →
      (getNode s2 b).left = (getNode s b).left ∧
      (getNode s2 b).right = (getNode s b).right ∧
      (getNode s2 b).color = (getNode s b).color ∧
      (getNode s2 b).parent = par2) :
    VT s2 P par2 c bh l := by
  cases P with
  | none =>
    obtain ⟨hc, hbh, hl⟩ := VT_nil_inv h
    subst hc
    subst hbh
    subst hl
    exact VT.nil par2
  | some b =>
    obtain ⟨h1, h2, h3, h4⟩ := hroot b rfl
    exact VT_reroot h hnd hlen
      (fun q hq2 hqb => hq q hq2 (fun b2 hb2 => by
        have hbb : b = b2 := by injection hb2
        rw [← hbb]
        exact hqb))
      h1 h2 h3 h4

theorem PT_mem_len {s : RBTreeState} :
    ∀ {h bh pre post d}, PT s h bh pre post d →
      ∀ j ∈ pre ++ post, j < s.nodes.length := by
  intro h bh pre post d hpt
  induction hpt with
  | root bh => intro j hj; cases hj
  | goleft h i cr bh pre post R d hup hhold hlen hpar hR hredR hredPar ih =>
    intro j hj
    rcases List.mem_append.mp hj with h1 | h1
    · exact ih j (List.mem_append.mpr (Or.inl h1))
    · rcases List.mem_cons.mp h1 with rfl | h2
      · exact hlen
      · rcases List.mem_append.mp h2 with h3 | h3
        · exact VT_mem_len hR j h3
        · exact ih j (List.mem_append.mpr (Or.inr h3))
  | goright h i cl bh pre post L d hup hhold hlen hpar hL hredL hredPar ih =>
    intro j hj
    rcases List.mem_append.mp hj with h1 | h1
    · rcases List.mem_append.mp h1 with h3 | h3
      · exact ih j (List.mem_append.mpr (Or.inl h3))
      · rcases List.mem_append.mp h3 with h4 | h4
        · exact VT_mem_len hL j h4
        · rcases List.mem_singleton.mp h4 with rfl
          exact hlen
    · exact ih j (List.mem_append.mpr (Or.inr h1))

theorem holeVal_congr2 {s t : RBTreeState} {h : Hole}
    (hroot : t.root = s.root)
    (hs : ∀ j si, h = Hole.slot j si → sEq (getNode t j) (getNode s j)) :
    holeVal t h = holeVal s h := by
  cases h with
  | root => exact hroot
  | slot j si =>
    obtain ⟨-, hl, hr, -⟩ := hs j si rfl
    cases si with
    | true => exact hl
    | false => exact hr

theorem PT_rot_retarget {s s5 : RBTreeState} {h2 : Hole} {gg p : Nat}
    {bh : Nat} {pre post2 : List Nat} {d1 : Nat}
    (hup2 : PT s h2 bh pre post2 d1)
    (hhold3 : holeVal s h2 = some gg)
    (hndf : (pre ++ post2).Nodup)
    (hggnm : gg ∉ pre ++ post2)
    (hlen5 : s5.nodes.length = s.nodes.length)
    (hroot5 : s5.root = (if holePar h2 = none then some p else s.root))
    (hfr : ∀ qq, holePar h2 = some qq →
      getNode s5 qq = (if (getNode s qq).left = some gg
        then { getNode s qq with left := some p }
        else { getNode s qq with right := some p }))
    (hoth : ∀ q ∈ pre ++ post2, some q ≠ holePar h2 →
      sEq (getNode s5 q) (getNode s q)) :
    PT s5 h2 bh pre post2 d1 ∧ holeVal s5 h2 = some p := by
  cases h2 with
  | root =>
    cases hup2 with
    | root =>
      refine ⟨PT.root bh, ?_⟩
      have : holeVal s5 Hole.root = s5.root := rfl
      rw [this, hroot5]
      rfl
  | slot qq si =>
    have hq5 := hfr qq rfl
    cases hup2 with
    | goleft h3 i3 cr3 bh3 pre3 post3 R3 d3 hup3 hhold4 hqlen hqpar hR3
        hredR3 hredPar3 =>
      -- the hole is the left slot of qq and currently holds gg
      have hql : (getNode s qq).left = some gg := hhold3
      rw [if_pos hql] at hq5
      have hqnm : qq ∉ R3 ++ post3 :=
        (List.nodup_cons.mp (List.nodup_append.mp hndf).2.1).1
      have hqnpre : qq ∉ pre := fun hc =>
        (List.nodup_append.mp hndf).2.2 hc (List.mem_cons_self qq (R3 ++ post3))
      have hothq : ∀ q ∈ pre ++ post3, q ≠ qq → sEq (getNode s5 q) (getNode s q) := by
        intro q hq hqq
        apply hoth q
        · rcases List.mem_append.mp hq with h1 | h1
          · exact List.mem_append.mpr (Or.inl h1)
          · exact List.mem_append.mpr (Or.inr (by simp [h1]))
        · intro he
          have : q = qq := by injection he
          exact hqq this
      have hothR : ∀ q ∈ R3, q ≠ qq → sEq (getNode s5 q) (getNode s q) := by
        intro q hq hqq
        apply hoth q
        · exact List.mem_append.mpr (Or.inr (by simp [hq]))
        · intro he
          have : q = qq := by injection he
          exact hqq this
      have hup5 : PT s5 h3 (bh + (if (getNode s5 qq).color = BLACK then 1 else 0))
          pre post3 d3 := by
        have hcq : (getNode s5 qq).color = (getNode s qq).color := by rw [hq5]
        rw [hcq]
        refine PT_congr hlen5 ?_ hup3 ?_
        · rw [hroot5]
          simp [holePar]
        · intro q hq
          apply hothq q hq
          intro he
          subst he
          rcases List.mem_append.mp hq with h1 | h1
          · exact hqnpre h1
          · exact hqnm (List.mem_append.mpr (Or.inr h1))
      have hhold5 : holeVal s5 h3 = some qq := by
        refine (holeVal_congr2 (s := s) (t := s5) ?_ ?_).trans hhold4
        · rw [hroot5]
          simp [holePar]
        · intro j si2 hjh
          have hjm : j ∈ pre ++ post3 := PT_frame_mem (hjh ▸ hup3)
          apply hothq j hjm
          intro he
          subst he
          rcases List.mem_append.mp hjm with h1 | h1
          · exact hqnpre h1
          · exact hqnm (List.mem_append.mpr (Or.inr h1))
      have hR5 : VT s5 (getNode s5 qq).right (some qq) cr3 bh R3 := by
        have hrq : (getNode s5 qq).right = (getNode s qq).right := by rw [hq5]
        rw [hrq]
        refine VT_congr hlen5 hR3 ?_
        intro q hq
        apply hothR q hq
        intro he
        subst he
        exact hqnm (List.mem_append.mpr (Or.inl hq))
      have hg := PT.goleft (s := s5) h3 qq cr3 bh pre post3 R3 d3 hup5 hhold5
        (by rw [hlen5]; exact hqlen)
        (by rw [hq5]; exact hqpar)
        hR5
        (fun hrd => hredR3 (by rw [← show (getNode s5 qq).color =
          (getNode s qq).color by rw [hq5]]; exact hrd))
        (fun hrd => by
          have hbk : is_black s5 (holePar h3) = is_black s (holePar h3) := by
            cases hh3 : holePar h3 with
            | none => rfl
            | some j3 =>
              obtain ⟨si3, hsl⟩ := holePar_slot hh3
              have hjm : j3 ∈ pre ++ post3 := PT_frame_mem (hsl ▸ hup3)
              obtain ⟨-, -, -, hcol⟩ := hothq j3 hjm (by
                intro he
                subst he
                rcases List.mem_append.mp hjm with h1 | h1
                · exact hqnpre h1
                · exact hqnm (List.mem_append.mpr (Or.inr h1)))
              simp [is_black, hcol]
          rw [hbk]
          exact hredPar3 (by rw [← show (getNode s5 qq).color =
            (getNode s qq).color by rw [hq5]]; exact hrd))
      refine ⟨hg, ?_⟩
      show (getNode s5 qq).left = some p
      rw [hq5]
    | goright h3 i3 cl3 bh3 pre3 postX L3 d3 hup3 hhold4 hqlen hqpar hL3
        hredL3 hredPar3 =>
      -- the hole is the right slot of qq and currently holds gg
      have hqr : (getNode s qq).right = some gg := hhold3
      have hqlne : ¬ (getNode s qq).left = some gg := by
        intro hc
        rcases hcl : (getNode s qq).left with _ | lj
        · rw [hcl] at hc
          cases hc
        · rw [hcl] at hc
          have : lj = gg := by injection hc
          subst this
          obtain ⟨-, -, -, hmem⟩ := VT_some_inv (hcl ▸ hL3)
          exact hggnm (List.mem_append.mpr (Or.inl (by simp [hmem])))
      rw [if_neg hqlne] at hq5
      have hqnm : qq ∉ post2 := fun hc =>
        (List.nodup_append.mp hndf).2.2 (by simp) hc
      have hqnpre3 : qq ∉ pre3 := fun hc =>
        (List.nodup_append.mp (List.nodup_append.mp hndf).1).2.2 hc (by simp)
      have hothq : ∀ q ∈ pre3 ++ post2, q ≠ qq → sEq (getNode s5 q) (getNode s q) := by
        intro q hq hqq
        apply hoth q
        · rcases List.mem_append.mp hq with h1 | h1
          · exact List.mem_append.mpr (Or.inl (by simp [h1]))
          · exact List.mem_append.mpr (Or.inr h1)
        · intro he
          have : q = qq := by injection he
          exact hqq this
      have hothL : ∀ q ∈ L3, q ≠ qq → sEq (getNode s5 q) (getNode s q) := by
        intro q hq hqq
        apply hoth q
        · exact List.mem_append.mpr (Or.inl (by simp [hq]))
        · intro he
          have : q = qq := by injection he
          exact hqq this
      have hup5 : PT s5 h3 (bh + (if (getNode s5 qq).color = BLACK then 1 else 0))
          pre3 post2 d3 := by
        have hcq : (getNode s5 qq).color = (getNode s qq).color := by rw [hq5]
        rw [hcq]
        refine PT_congr hlen5 ?_ hup3 ?_
        · rw [hroot5]
          simp [holePar]
        · intro q hq
          apply hothq q hq
          intro he
          subst he
          rcases List.mem_append.mp hq with h1 | h1
          · exact hqnpre3 h1
          · exact hqnm h1
      have hhold5 : holeVal s5 h3 = some qq := by
        refine (holeVal_congr2 (s := s) (t := s5) ?_ ?_).trans hhold4
        · rw [hroot5]
          simp [holePar]
        · intro j si2 hjh
          have hjm : j ∈ pre3 ++ post2 := PT_frame_mem (hjh ▸ hup3)
          apply hothq j hjm
          intro he
          subst he
          rcases List.mem_append.mp hjm with h1 | h1
          · exact hqnpre3 h1
          · exact hqnm h1
      have hL5 : VT s5 (getNode s5 qq).left (some qq) cl3 bh L3 := by
        have hlq : (getNode s5 qq).left = (getNode s qq).left := by rw [hq5]
        rw [hlq]
        refine VT_congr hlen5 hL3 ?_
        intro q hq
        apply hothL q hq
        intro he
        subst he
        have h1 := (List.nodup_append.mp hndf).1
        have h12 := List.nodup_append.mp h1
        exact (List.nodup_append.mp h12.2.1).2.2 hq (by simp)
      have hg := PT.goright (s := s5) h3 qq cl3 bh pre3 post2 L3 d3 hup5 hhold5
        (by rw [hlen5]; exact hqlen)
        (by rw [hq5]; exact hqpar)
        hL5
        (fun hrd => hredL3 (by rw [← show (getNode s5 qq).color =
          (getNode s qq).color by rw [hq5]]; exact hrd))
        (fun hrd => by
          have hbk : is_black s5 (holePar h3) = is_black s (holePar h3) := by
            cases hh3 : holePar h3 with
            | none => rfl
            | some j3 =>
              obtain ⟨si3, hsl⟩ := holePar_slot hh3
              have hjm : j3 ∈ pre3 ++ post2 := PT_frame_mem (hsl ▸ hup3)
              obtain ⟨-, -, -, hcol⟩ := hothq j3 hjm (by
                intro he
                subst he
                rcases List.mem_append.mp hjm with h1 | h1
                · exact hqnpre3 h1
                · exact hqnm h1)
              simp [is_black, hcol]
          rw [hbk]
          exact hredPar3 (by rw [← show (getNode s5 qq).color =
            (getNode s qq).color by rw [hq5]]; exact hrd))
      refine ⟨hg, ?_⟩
      show (getNode s5 qq).right = some p
      rw [hq5]

/-- The tail of `try_insert_rebalance` after the inner-rotation
normalisation (source lines 999-1021): rotate at the grandparent,
recolour parent black and grandparent red.  Specification for the
left-left configuration: `x` is the red left child of the red node
`p`, itself the left child of the black grandparent `gg`, and the
uncle subtree (the right child of `gg`) has a black root. -/
theorem TIRtail_left_spec {s : RBTreeState} {x p gg : Nat} {h2 : Hole}
    {cr cru : Bool} {bhx d1 : Nat} {lx Rp Ru pre post2 : List Nat}
    (hplen : p < s.nodes.length)
    (hgglen : gg < s.nodes.length)
    (hpp : (getNode s x).parent = some p)
    (hpl : (getNode s p).left = some x)
    (hpred : (getNode s p).color = RED)
    (hpgg : (getNode s p).parent = some gg)
    (hggl : (getNode s gg).left = some p)
    (hsub : VT s (some x) (some p) (getNode s x).color bhx lx)
    (hRp : VT s (getNode s p).right (some p) cr bhx Rp)
    (hredRp : (getNode s p).color = RED → cr = BLACK)
    (hu : VT s (getNode s gg).right (some gg) cru bhx Ru)
    (hcruB : cru = BLACK)
    (hup2 : PT s h2 (bhx + 1) pre post2 d1)
    (hhold3 : holeVal s h2 = some gg)
    (hpar4 : (getNode s gg).parent = holePar h2)
    (hnd : (pre ++ (lx ++ p :: (Rp ++ gg :: (Ru ++ post2)))).Nodup)
    (hrootb : is_black s s.root = true) :
    ∃ s5, TIRtail s x = .ok s5 ∧ admEq s5 s ∧ rngEq s5 s ∧
      (∀ q, q ∉ pre ++ (lx ++ p :: (Rp ++ gg :: (Ru ++ post2))) →
        getNode s5 q = getNode s q) ∧
      s5.root ≠ none ∧ is_black s5 s5.root = true ∧
      ∃ c2 bh2, VT s5 s5.root none c2 bh2
        (pre ++ (lx ++ p :: (Rp ++ gg :: (Ru ++ post2)))) := by
  have hxmem : x ∈ lx := (VT_some_inv hsub).2.2.2
  have hgp : get_grandparent s x = some gg := by
    simp [get_grandparent, hpp, hpgg]
  have hndA : ((pre ++ lx) ++
      (p :: (Rp ++ (gg :: (Ru ++ post2))))).Nodup := by
    simpa [List.append_assoc] using hnd
  have hndB : ((pre ++ (lx ++ (p :: Rp))) ++
      (gg :: (Ru ++ post2))).Nodup := by
    simpa [List.append_assoc] using hnd
  have hndE : ((pre ++ (lx ++ (p :: (Rp ++ (gg :: Ru))))) ++
      post2).Nodup := by
    simpa [List.append_assoc] using hnd
  have hndM : (pre ++ ((lx ++ p :: (Rp ++ gg :: Ru)) ++
      post2)).Nodup := by
    simpa [List.append_assoc] using hnd
  have hxp2 : x ≠ p := nd_ne hndA (by simp [hxmem]) (by simp)
  have hxgg : x ≠ gg := nd_ne hndB (by simp [hxmem]) (by simp)
  have hpgg2 : p ≠ gg := nd_ne hndB (by simp) (by simp)
  have hggRu : gg ∉ Ru :=
    fun hc => (List.nodup_cons.mp
      (List.nodup_append.mp hndB).2.1).1
      (List.mem_append.mpr (Or.inl hc))
  have hRuq : ∀ q ∈ Ru, q ≠ p ∧ q ≠ gg ∧ (∀ t ∈ Rp, q ≠ t) := by
    intro q hq
    refine ⟨(nd_ne hndB (by simp) (by simp [hq])).symm,
      fun he => hggRu (he ▸ hq), ?_⟩
    intro t ht
    exact (nd_ne hndB (by simp [ht]) (by simp [hq])).symm
  have hggrp : (getNode s gg).right ≠ some p := by
    intro hc
    obtain ⟨-, -, -, hmem2⟩ := VT_some_inv (hc ▸ hu)
    exact (hRuq p hmem2).1 rfl
  have hprx : (getNode s p).right ≠ some x := by
    intro hc
    obtain ⟨-, -, -, hmem2⟩ := VT_some_inv (hc ▸ hRp)
    have hxA : x ∈ pre ++ lx := List.mem_append.mpr (Or.inr hxmem)
    exact (nd_ne hndA hxA (by simp [hmem2])) rfl
  have hpnotRp : p ∉ Rp := fun hc =>
    (List.nodup_cons.mp (List.nodup_append.mp hndA).2.1).1
      (List.mem_append.mpr (Or.inl hc))
  have hlxq : ∀ q ∈ lx, q ≠ p ∧ q ≠ gg ∧ (∀ t ∈ Rp, q ≠ t) ∧
      q ∉ pre ∧ q ∉ post2 := by
    intro q hq
    refine ⟨nd_ne hndA (by simp [hq]) (by simp),
      nd_ne hndB (by simp [hq]) (by simp), ?_, ?_, ?_⟩
    · intro t ht
      exact nd_ne hndA (by simp [hq]) (by simp [ht])
    · intro hc
      exact (nd_ne hnd hc (by simp [hq])) rfl
    · intro hc
      exact (nd_ne hndE (by simp [hq]) hc) rfl
  have hRpq : ∀ q ∈ Rp, q ≠ p ∧ q ≠ gg ∧ q ∉ pre ∧ q ∉ post2 := by
    intro q hq
    refine ⟨fun he => hpnotRp (he ▸ hq),
      nd_ne hndB (by simp [hq]) (by simp), ?_, ?_⟩
    · intro hc
      exact (nd_ne hnd hc (by simp [hq])) rfl
    · intro hc
      exact (nd_ne hndE (by simp [hq]) hc) rfl
  have hprepost : ∀ q ∈ pre ++ post2,
      q ≠ p ∧ q ≠ gg ∧ (∀ t ∈ Rp, q ≠ t) ∧ (∀ t ∈ Ru, q ≠ t) := by
    intro q hq
    rcases List.mem_append.mp hq with h1 | h1
    · refine ⟨nd_ne hnd h1 (by simp), nd_ne hnd h1 (by simp),
        ?_, ?_⟩
      · intro t ht
        exact nd_ne hnd h1 (by simp [ht])
      · intro t ht
        exact nd_ne hnd h1 (by simp [ht])
    · refine ⟨(nd_ne hndE (by simp) h1).symm,
        (nd_ne hndE (by simp) h1).symm, ?_, ?_⟩
      · intro t ht
        exact (nd_ne hndE (by simp [ht]) h1).symm
      · intro t ht
        exact (nd_ne hndE (by simp [ht]) h1).symm
  have hndf : (pre ++ post2).Nodup := by
    refine List.Nodup.sublist ?_ hndM
    exact List.Sublist.append_left
      (List.sublist_append_right _ _) pre
  have hggnm : gg ∉ pre ++ post2 :=
    fun hc => ((hprepost gg hc).2.1) rfl
  have hframe : ∀ qq2, holePar h2 = some qq2 →
      qq2 ∈ pre ++ post2 := by
    intro qq2 hq2
    obtain ⟨si2, hsl⟩ := holePar_slot hq2
    exact PT_frame_mem (hsl ▸ hup2)
  have hbf : ∀ b, (getNode s p).right = some b →
      b ≠ gg ∧ b ≠ p ∧ b < s.nodes.length := by
    intro b hb
    obtain ⟨-, -, hblen, hbmem⟩ := VT_some_inv (hb ▸ hRp)
    exact ⟨(hRpq b hbmem).2.1, (hRpq b hbmem).1, hblen⟩
  have hqqf : ∀ qq2, holePar h2 = some qq2 → qq2 ≠ gg ∧ qq2 ≠ p ∧
      (∀ b, (getNode s p).right = some b → qq2 ≠ b) ∧
      qq2 < s.nodes.length := by
    intro qq2 hq2
    have hm := hframe qq2 hq2
    refine ⟨(hprepost qq2 hm).2.1, (hprepost qq2 hm).1, ?_,
      PT_mem_len hup2 qq2 hm⟩
    intro b hb
    obtain ⟨-, -, -, hbmem⟩ := VT_some_inv (hb ▸ hRp)
    exact (hprepost qq2 hm).2.2.1 b hbmem
  obtain ⟨T, hTrun, hTadm, hTrng, hTroot, hTg, hTp, hTb, hTq, hTz⟩ :=
    rotate_right_ptr s gg p (getNode s p).right (holePar h2)
      hgglen hplen hpgg2 hggl rfl hbf hpar4 hqqf
  set s5 := set_red (set_black T p) gg with hs5def
  have hTlen : T.nodes.length = s.nodes.length := hTadm.2.2.2.2.2
  have hlen5 : s5.nodes.length = s.nodes.length := by
    rw [hs5def]
    unfold set_red set_black
    rw [nodes_length_updNode, nodes_length_updNode]
    exact hTlen
  have hplen5 : p < T.nodes.length := by rw [hTlen]; exact hplen
  have hgglen5 : gg < (set_black T p).nodes.length := by
    unfold set_black
    rw [nodes_length_updNode, hTlen]
    exact hgglen
  have hs5p : getNode s5 p =
      { getNode T p with color := BLACK } := by
    rw [hs5def, getNode_set_red_ne _ _ _ hpgg2,
      getNode_set_black_self _ _ hplen5]
  have hs5gg : getNode s5 gg =
      { getNode T gg with color := RED } := by
    rw [hs5def, getNode_set_red_self _ _ hgglen5,
      getNode_set_black_ne _ _ _ (Ne.symm hpgg2)]
  have hs5zT : ∀ z, z ≠ p → z ≠ gg → getNode s5 z = getNode T z := by
    intro z hzp hzgg
    rw [hs5def, getNode_set_red_ne _ _ _ hzgg,
      getNode_set_black_ne _ _ _ hzp]
  have hs5z : ∀ z, z ≠ p → z ≠ gg →
      ((getNode s p).right ≠ some z) → (holePar h2 ≠ some z) →
      getNode s5 z = getNode s z := by
    intro z hzp hzgg hzb hzq
    rw [hs5zT z hzp hzgg]
    exact hTz z hzgg hzp hzb hzq
  have hs5pl : (getNode s5 p).left = some x := by
    rw [hs5p, hTp]
    exact hpl
  have hs5pr : (getNode s5 p).right = some gg := by
    rw [hs5p, hTp]
  have hs5ppar : (getNode s5 p).parent = holePar h2 := by
    rw [hs5p, hTp]
  have hs5pcol : (getNode s5 p).color = BLACK := by rw [hs5p]
  have hs5ggl : (getNode s5 gg).left = (getNode s p).right := by
    rw [hs5gg, hTg]
  have hs5ggr : (getNode s5 gg).right = (getNode s gg).right := by
    rw [hs5gg, hTg]
  have hs5ggpar : (getNode s5 gg).parent = some p := by
    rw [hs5gg, hTg]
  have hs5ggcol : (getNode s5 gg).color = RED := by rw [hs5gg]
  have hsub5 : VT s5 (some x) (some p) (getNode s x).color bhx lx :=
    VT_congr hlen5 hsub (fun q hq => sEq_of_eq
      (hs5z q (hlxq q hq).1 (hlxq q hq).2.1
        (fun hc => by
          obtain ⟨-, -, -, hbm⟩ := VT_some_inv (hc ▸ hRp)
          exact (hlxq q hq).2.2.1 q hbm rfl)
        (fun hc => by
          have hm := hframe q hc
          rcases List.mem_append.mp hm with h1 | h1
          · exact (hlxq q hq).2.2.2.1 h1
          · exact (hlxq q hq).2.2.2.2 h1)))
  have hB5 : VT s5 (getNode s p).right (some gg) cr bhx Rp := by
    refine VT_ptr_transfer hRp
      ((List.nodup_append.mp
        (List.nodup_cons.mp
          (List.nodup_append.mp hndA).2.1).2).1) hlen5 ?_ ?_
    · intro q hq hqb
      refine sEq_of_eq (hs5z q (hRpq q hq).1 (hRpq q hq).2.1
        (fun hc => hqb q hc rfl) ?_)
      intro hc
      have hm := hframe q hc
      rcases List.mem_append.mp hm with h1 | h1
      · exact (hRpq q hq).2.2.1 h1
      · exact (hRpq q hq).2.2.2 h1
    · intro b hb
      have hTbf := hTb b hb
      obtain ⟨hb1, hb2, -⟩ := hbf b hb
      have hb5 : getNode s5 b = getNode T b :=
        hs5zT b hb2 hb1
      rw [hb5, hTbf]
      exact ⟨rfl, rfl, rfl, rfl⟩
  have hu5 : VT s5 (getNode s gg).right (some gg) cru bhx Ru :=
    VT_congr hlen5 hu (fun q hq => sEq_of_eq
      (hs5z q (hRuq q hq).1 (hRuq q hq).2.1
        (fun hc => by
          obtain ⟨-, -, -, hbm⟩ := VT_some_inv (hc ▸ hRp)
          exact (hRuq q hq).2.2 q hbm rfl)
        (fun hc => by
          have hm := hframe q hc
          exact ((hprepost q hm).2.2.2 q hq) rfl)))
  have hggn5 := VT_node_red (s := s5) (i := gg) (o := some p)
    (by rw [hlen5]; exact hgglen) hs5ggpar hs5ggcol
    (hredRp hpred) hcruB
    (by rw [hs5ggl]; exact hB5)
    (by rw [hs5ggr]; exact hu5)
  have hpn5 := VT_node_black (s := s5) (i := p)
    (o := holePar h2)
    (by rw [hlen5]; exact hplen) hs5ppar hs5pcol
    (by rw [hs5pl]; exact hsub5)
    (by rw [hs5pr]; exact hggn5)
  have hroot5 : s5.root =
      (if holePar h2 = none then some p else s.root) := by
    have : s5.root = T.root := rfl
    rw [this, hTroot]
  have hfr5 : ∀ qq2, holePar h2 = some qq2 →
      getNode s5 qq2 = (if (getNode s qq2).left = some gg
        then { getNode s qq2 with left := some p }
        else { getNode s qq2 with right := some p }) := by
    intro qq2 hq2
    obtain ⟨hq1, hq2b, -, -⟩ := hqqf qq2 hq2
    rw [hs5zT qq2 hq2b hq1]
    exact hTq qq2 hq2
  have hoth5 : ∀ q ∈ pre ++ post2, some q ≠ holePar h2 →
      sEq (getNode s5 q) (getNode s q) := by
    intro q hq hqne
    refine sEq_of_eq (hs5z q (hprepost q hq).1 (hprepost q hq).2.1
      ?_ (fun hc => hqne (by rw [hc])))
    intro hc
    obtain ⟨-, -, -, hbm⟩ := VT_some_inv (hc ▸ hRp)
    exact ((hprepost q hq).2.2.1 q hbm) rfl
  obtain ⟨hctx5, hhold5⟩ := PT_rot_retarget hup2 hhold3 hndf hggnm
    hlen5 hroot5 hfr5 hoth5
  obtain ⟨c2, bh2, hvt5⟩ := PT_plug hctx5 hhold5 hpn5
    (fun j hj hjr => rfl)
  have hrbfin : s5.root ≠ none ∧ is_black s5 s5.root = true := by
    rcases hh2p : holePar h2 with _ | qq
    · rw [hh2p] at hroot5
      simp only [if_pos rfl] at hroot5
      rw [hroot5]
      refine ⟨by simp, ?_⟩
      simp [is_black, hs5pcol]
    · rw [hh2p] at hroot5
      simp only [reduceCtorEq, if_false] at hroot5
      have hd1p : 1 ≤ d1 := by
        obtain ⟨si2, hsl⟩ := holePar_slot hh2p
        rcases Nat.eq_zero_or_pos d1 with h0 | hp2
        · exfalso
          obtain ⟨hh, -, -⟩ := PT_d0 (by rw [h0] at hup2; exact hup2)
          exact absurd (hsl.symm.trans hh) (by simp)
        · exact hp2
      obtain ⟨r2, hr2, hr2mem⟩ := PT_root_mem hup2 hd1p
      rw [hroot5, hr2]
      rw [hr2] at hrootb
      have hbb := black_of_is_black hrootb
      refine ⟨by simp, ?_⟩
      by_cases hrq : r2 = qq
      · subst hrq
        have := hfr5 r2 hh2p
        have hcol5 : (getNode s5 r2).color = (getNode s r2).color := by
          rw [this]
          split <;> rfl
        simp [is_black, hcol5, hbb]
      · have hz := hs5z r2 (hprepost r2 hr2mem).1
          (hprepost r2 hr2mem).2.1
          (fun hc => by
            obtain ⟨-, -, -, hbm⟩ := VT_some_inv (hc ▸ hRp)
            exact ((hprepost r2 hr2mem).2.2.1 r2 hbm) rfl)
          (fun hc => hrq (by rw [hh2p] at hc; injection hc with h3; exact h3.symm))
        simp [is_black, hz, hbb]
  have hlcx : is_left_child s x = true := by
    simp [is_left_child, is_root, hpp, hpl]
  have hrun : TIRtail s x = .ok s5 := by
    show (do
      let g2 ← toIdx (get_grandparent s x)
      if is_left_child s x = true then do
        let y_1 ← rotate_right s g2
        let p2 ← toIdx (getNode s x).parent
        pure (set_red (set_black y_1 p2) g2)
      else do
        let y_1 ← rotate_left s g2
        let p2 ← toIdx (getNode s x).parent
        pure (set_red (set_black y_1 p2) g2)) = Except.ok s5
    rw [hgp]
    have ht1 : toIdx (some gg) = Except.ok gg := rfl
    rw [ht1, bind_ok]
    simp only [hlcx, if_pos]
    rw [hTrun, bind_ok, hpp]
    have ht3 : toIdx (some p) = Except.ok p := rfl
    rw [ht3, bind_ok, hs5def]
    rfl
  refine ⟨s5, hrun, ?_, ?_, ?_, hrbfin.1, hrbfin.2, c2, bh2, ?_⟩
  · refine admEq_trans ?_ hTadm
    exact admEq_trans (admEq_updNode _ _ _) (admEq_updNode _ _ _)
  · refine rngEq_trans ?_ hTrng
    exact rngEq_trans (rngEq_updNode_of _ _ _ (fun n => rfl))
      (rngEq_updNode_of _ _ _ (fun n => rfl))
  · intro q hq
    refine hs5z q (fun he => hq (by rw [he]; simp))
      (fun he => hq (by rw [he]; simp)) ?_ ?_
    · intro hc
      obtain ⟨-, -, -, hbm⟩ := VT_some_inv (hc ▸ hRp)
      exact hq (by
        have : q ∈ Rp := hbm
        simp [this])
    · intro hc
      have hm := hframe q hc
      rcases List.mem_append.mp hm with h1 | h1
      · exact hq (by simp [h1])
      · exact hq (by simp [h1])
  · simpa [List.append_assoc] using hvt5

/-- Mirror specification of the rebalancing tail for the right-right
configuration: `x` is the red right child of the red node `p`, itself
the right child of the black grandparent `gg`, and the uncle subtree
(the left child of `gg`) has a black root. -/
theorem TIRtail_right_spec {s : RBTreeState} {x p gg : Nat} {h2 : Hole}
    {cl cru : Bool} {bhx d1 : Nat} {lx Lp Lu pre post2 : List Nat}
    (hplen : p < s.nodes.length)
    (hgglen : gg < s.nodes.length)
    (hpp : (getNode s x).parent = some p)
    (hpr : (getNode s p).right = some x)
    (hpred : (getNode s p).color = RED)
    (hpgg : (getNode s p).parent = some gg)
    (hggr : (getNode s gg).right = some p)
    (hsub : VT s (some x) (some p) (getNode s x).color bhx lx)
    (hLp : VT s (getNode s p).left (some p) cl bhx Lp)
    (hredLp : (getNode s p).color = RED → cl = BLACK)
    (hu : VT s (getNode s gg).left (some gg) cru bhx Lu)
    (hcruB : cru = BLACK)
    (hup2 : PT s h2 (bhx + 1) pre post2 d1)
    (hhold3 : holeVal s h2 = some gg)
    (hpar4 : (getNode s gg).parent = holePar h2)
    (hnd : (((pre ++ (Lu ++ [gg])) ++ (Lp ++ [p])) ++
      (lx ++ post2)).Nodup)
    (hrootb : is_black s s.root = true) :
    ∃ s5, TIRtail s x = .ok s5 ∧ admEq s5 s ∧ rngEq s5 s ∧
      (∀ q, q ∉ ((pre ++ (Lu ++ [gg])) ++ (Lp ++ [p])) ++
        (lx ++ post2) → getNode s5 q = getNode s q) ∧
      s5.root ≠ none ∧ is_black s5 s5.root = true ∧
      ∃ c2 bh2, VT s5 s5.root none c2 bh2
        (((pre ++ (Lu ++ [gg])) ++ (Lp ++ [p])) ++ (lx ++ post2)) := by
  have hxmem : x ∈ lx := (VT_some_inv hsub).2.2.2
  have hgp : get_grandparent s x = some gg := by
    simp [get_grandparent, hpp, hpgg]
  have hndP : (pre ++ (Lu ++ (gg :: (Lp ++ (p :: (lx ++
      post2)))))).Nodup := by
    simpa [List.append_assoc] using hnd
  have hndA : ((pre ++ (Lu ++ (gg :: (Lp ++ [p])))) ++
      (lx ++ post2)).Nodup := by
    simpa [List.append_assoc] using hnd
  have hndB : ((pre ++ (Lu ++ (gg :: Lp))) ++
      (p :: (lx ++ post2))).Nodup := by
    simpa [List.append_assoc] using hnd
  have hndC : ((pre ++ Lu) ++
      (gg :: (Lp ++ (p :: (lx ++ post2))))).Nodup := by
    simpa [List.append_assoc] using hnd
  have hndE : ((pre ++ (Lu ++ (gg :: (Lp ++ (p :: lx))))) ++
      post2).Nodup := by
    simpa [List.append_assoc] using hnd
  have hndM : (pre ++ (((Lu ++ gg :: Lp) ++ p :: lx) ++
      post2)).Nodup := by
    simpa [List.append_assoc] using hnd
  have hpnot : p ∉ lx ++ post2 :=
    (List.nodup_cons.mp (List.nodup_append.mp hndB).2.1).1
  have hggnot : gg ∉ Lp ++ (p :: (lx ++ post2)) :=
    (List.nodup_cons.mp (List.nodup_append.mp hndC).2.1).1
  have hxp2 : x ≠ p :=
    fun he => hpnot (he ▸ (List.mem_append.mpr (Or.inl hxmem)))
  have hxgg : x ≠ gg := fun he => hggnot (he ▸ (by simp [hxmem]))
  have hpgg2 : p ≠ gg := fun he => hggnot (he ▸ (by simp))
  have hLuq : ∀ q ∈ Lu, q ≠ p ∧ q ≠ gg ∧ (∀ t ∈ Lp, q ≠ t) := by
    intro q hq
    refine ⟨nd_ne hndC (by simp [hq]) (by simp),
      nd_ne hndC (by simp [hq]) (by simp), ?_⟩
    intro t ht
    exact nd_ne hndC (by simp [hq]) (by simp [ht])
  have hgglp : (getNode s gg).left ≠ some p := by
    intro hc
    obtain ⟨-, -, -, hmem2⟩ := VT_some_inv (hc ▸ hu)
    exact (hLuq p hmem2).1 rfl
  have hplx : (getNode s p).left ≠ some x := by
    intro hc
    obtain ⟨-, -, -, hmem2⟩ := VT_some_inv (hc ▸ hLp)
    have hxB : x ∈ p :: (lx ++ post2) := by simp [hxmem]
    exact (nd_ne hndB (by simp [hmem2]) hxB) rfl
  have hLpq : ∀ q ∈ Lp, q ≠ p ∧ q ≠ gg ∧ q ∉ pre ∧ q ∉ post2 := by
    intro q hq
    refine ⟨nd_ne hndB (by simp [hq]) (by simp),
      fun he => hggnot (he ▸ (List.mem_append.mpr (Or.inl hq))),
      ?_, ?_⟩
    · intro hc
      exact (nd_ne hndP hc (by simp [hq])) rfl
    · intro hc
      exact (nd_ne hndE (by simp [hq]) hc) rfl
  have hlxq : ∀ q ∈ lx, q ≠ p ∧ q ≠ gg ∧ (∀ t ∈ Lp, q ≠ t) ∧
      q ∉ pre ∧ q ∉ post2 := by
    intro q hq
    refine ⟨fun he => hpnot (he ▸ (List.mem_append.mpr (Or.inl hq))),
      fun he => hggnot (he ▸ (by simp [hq])), ?_, ?_, ?_⟩
    · intro t ht
      exact (nd_ne hndB (by simp [ht]) (by simp [hq])).symm
    · intro hc
      exact (nd_ne hndP hc (by simp [hq])) rfl
    · intro hc
      exact (nd_ne hndE (by simp [hq]) hc) rfl
  have hprepost : ∀ q ∈ pre ++ post2,
      q ≠ p ∧ q ≠ gg ∧ (∀ t ∈ Lp, q ≠ t) ∧ (∀ t ∈ Lu, q ≠ t) := by
    intro q hq
    rcases List.mem_append.mp hq with h1 | h1
    · refine ⟨nd_ne hndP h1 (by simp), nd_ne hndP h1 (by simp),
        ?_, ?_⟩
      · intro t ht
        exact nd_ne hndP h1 (by simp [ht])
      · intro t ht
        exact nd_ne hndP h1 (by simp [ht])
    · refine ⟨(nd_ne hndE (by simp) h1).symm,
        (nd_ne hndE (by simp) h1).symm, ?_, ?_⟩
      · intro t ht
        exact (nd_ne hndE (by simp [ht]) h1).symm
      · intro t ht
        exact (nd_ne hndE (by simp [ht]) h1).symm
  have hndf : (pre ++ post2).Nodup := by
    refine List.Nodup.sublist ?_ hndM
    exact List.Sublist.append_left
      (List.sublist_append_right _ _) pre
  have hggnm : gg ∉ pre ++ post2 :=
    fun hc => ((hprepost gg hc).2.1) rfl
  have hframe : ∀ qq2, holePar h2 = some qq2 →
      qq2 ∈ pre ++ post2 := by
    intro qq2 hq2
    obtain ⟨si2, hsl⟩ := holePar_slot hq2
    exact PT_frame_mem (hsl ▸ hup2)
  have hbf : ∀ b, (getNode s p).left = some b →
      b ≠ gg ∧ b ≠ p ∧ b < s.nodes.length := by
    intro b hb
    obtain ⟨-, -, hblen, hbmem⟩ := VT_some_inv (hb ▸ hLp)
    exact ⟨(hLpq b hbmem).2.1, (hLpq b hbmem).1, hblen⟩
  have hqqf : ∀ qq2, holePar h2 = some qq2 → qq2 ≠ gg ∧ qq2 ≠ p ∧
      (∀ b, (getNode s p).left = some b → qq2 ≠ b) ∧
      qq2 < s.nodes.length := by
    intro qq2 hq2
    have hm := hframe qq2 hq2
    refine ⟨(hprepost qq2 hm).2.1, (hprepost qq2 hm).1, ?_,
      PT_mem_len hup2 qq2 hm⟩
    intro b hb
    obtain ⟨-, -, -, hbmem⟩ := VT_some_inv (hb ▸ hLp)
    exact (hprepost qq2 hm).2.2.1 b hbmem
  obtain ⟨T, hTrun, hTadm, hTrng, hTroot, hTg, hTp, hTb, hTq, hTz⟩ :=
    rotate_left_ptr s gg p (getNode s p).left (holePar h2)
      hgglen hplen hpgg2 hggr rfl hbf hpar4 hqqf
  set s5 := set_red (set_black T p) gg with hs5def
  have hTlen : T.nodes.length = s.nodes.length := hTadm.2.2.2.2.2
  have hlen5 : s5.nodes.length = s.nodes.length := by
    rw [hs5def]
    unfold set_red set_black
    rw [nodes_length_updNode, nodes_length_updNode]
    exact hTlen
  have hplen5 : p < T.nodes.length := by rw [hTlen]; exact hplen
  have hgglen5 : gg < (set_black T p).nodes.length := by
    unfold set_black
    rw [nodes_length_updNode, hTlen]
    exact hgglen
  have hs5p : getNode s5 p =
      { getNode T p with color := BLACK } := by
    rw [hs5def, getNode_set_red_ne _ _ _ hpgg2,
      getNode_set_black_self _ _ hplen5]
  have hs5gg : getNode s5 gg =
      { getNode T gg with color := RED } := by
    rw [hs5def, getNode_set_red_self _ _ hgglen5,
      getNode_set_black_ne _ _ _ (Ne.symm hpgg2)]
  have hs5zT : ∀ z, z ≠ p → z ≠ gg → getNode s5 z = getNode T z := by
    intro z hzp hzgg
    rw [hs5def, getNode_set_red_ne _ _ _ hzgg,
      getNode_set_black_ne _ _ _ hzp]
  have hs5z : ∀ z, z ≠ p → z ≠ gg →
      ((getNode s p).left ≠ some z) → (holePar h2 ≠ some z) →
      getNode s5 z = getNode s z := by
    intro z hzp hzgg hzb hzq
    rw [hs5zT z hzp hzgg]
    exact hTz z hzgg hzp hzb hzq
  have hs5pr : (getNode s5 p).right = some x := by
    rw [hs5p, hTp]
    exact hpr
  have hs5pl : (getNode s5 p).left = some gg := by
    rw [hs5p, hTp]
  have hs5ppar : (getNode s5 p).parent = holePar h2 := by
    rw [hs5p, hTp]
  have hs5pcol : (getNode s5 p).color = BLACK := by rw [hs5p]
  have hs5ggr : (getNode s5 gg).right = (getNode s p).left := by
    rw [hs5gg, hTg]
  have hs5ggl : (getNode s5 gg).left = (getNode s gg).left := by
    rw [hs5gg, hTg]
  have hs5ggpar : (getNode s5 gg).parent = some p := by
    rw [hs5gg, hTg]
  have hs5ggcol : (getNode s5 gg).color = RED := by rw [hs5gg]
  have hsub5 : VT s5 (some x) (some p) (getNode s x).color bhx lx :=
    VT_congr hlen5 hsub (fun q hq => sEq_of_eq
      (hs5z q (hlxq q hq).1 (hlxq q hq).2.1
        (fun hc => by
          obtain ⟨-, -, -, hbm⟩ := VT_some_inv (hc ▸ hLp)
          exact (hlxq q hq).2.2.1 q hbm rfl)
        (fun hc => by
          have hm := hframe q hc
          rcases List.mem_append.mp hm with h1 | h1
          · exact (hlxq q hq).2.2.2.1 h1
          · exact (hlxq q hq).2.2.2.2 h1)))
  have hB5 : VT s5 (getNode s p).left (some gg) cl bhx Lp := by
    refine VT_ptr_transfer hLp
      ((List.nodup_append.mp
        (List.nodup_cons.mp
          (List.nodup_append.mp hndC).2.1).2).1) hlen5 ?_ ?_
    · intro q hq hqb
      refine sEq_of_eq (hs5z q (hLpq q hq).1 (hLpq q hq).2.1
        (fun hc => hqb q hc rfl) ?_)
      intro hc
      have hm := hframe q hc
      rcases List.mem_append.mp hm with h1 | h1
      · exact (hLpq q hq).2.2.1 h1
      · exact (hLpq q hq).2.2.2 h1
    · intro b hb
      have hTbf := hTb b hb
      obtain ⟨hb1, hb2, -⟩ := hbf b hb
      have hb5 : getNode s5 b = getNode T b :=
        hs5zT b hb2 hb1
      rw [hb5, hTbf]
      exact ⟨rfl, rfl, rfl, rfl⟩
  have hu5 : VT s5 (getNode s gg).left (some gg) cru bhx Lu :=
    VT_congr hlen5 hu (fun q hq => sEq_of_eq
      (hs5z q (hLuq q hq).1 (hLuq q hq).2.1
        (fun hc => by
          obtain ⟨-, -, -, hbm⟩ := VT_some_inv (hc ▸ hLp)
          exact (hLuq q hq).2.2 q hbm rfl)
        (fun hc => by
          have hm := hframe q hc
          exact ((hprepost q hm).2.2.2 q hq) rfl)))
  have hggn5 := VT_node_red (s := s5) (i := gg) (o := some p)
    (by rw [hlen5]; exact hgglen) hs5ggpar hs5ggcol
    hcruB (hredLp hpred)
    (by rw [hs5ggl]; exact hu5)
    (by rw [hs5ggr]; exact hB5)
  have hpn5 := VT_node_black (s := s5) (i := p)
    (o := holePar h2)
    (by rw [hlen5]; exact hplen) hs5ppar hs5pcol
    (by rw [hs5pl]; exact hggn5)
    (by rw [hs5pr]; exact hsub5)
  have hroot5 : s5.root =
      (if holePar h2 = none then some p else s.root) := by
    have : s5.root = T.root := rfl
    rw [this, hTroot]
  have hfr5 : ∀ qq2, holePar h2 = some qq2 →
      getNode s5 qq2 = (if (getNode s qq2).left = some gg
        then { getNode s qq2 with left := some p }
        else { getNode s qq2 with right := some p }) := by
    intro qq2 hq2
    obtain ⟨hq1, hq2b, -, -⟩ := hqqf qq2 hq2
    rw [hs5zT qq2 hq2b hq1]
    exact hTq qq2 hq2
  have hoth5 : ∀ q ∈ pre ++ post2, some q ≠ holePar h2 →
      sEq (getNode s5 q) (getNode s q) := by
    intro q hq hqne
    refine sEq_of_eq (hs5z q (hprepost q hq).1 (hprepost q hq).2.1
      ?_ (fun hc => hqne (by rw [hc])))
    intro hc
    obtain ⟨-, -, -, hbm⟩ := VT_some_inv (hc ▸ hLp)
    exact ((hprepost q hq).2.2.1 q hbm) rfl
  obtain ⟨hctx5, hhold5⟩ := PT_rot_retarget hup2 hhold3 hndf hggnm
    hlen5 hroot5 hfr5 hoth5
  obtain ⟨c2, bh2, hvt5⟩ := PT_plug hctx5 hhold5 hpn5
    (fun j hj hjr => rfl)
  have hrbfin : s5.root ≠ none ∧ is_black s5 s5.root = true := by
    rcases hh2p : holePar h2 with _ | qq
    · rw [hh2p] at hroot5
      simp only [if_pos rfl] at hroot5
      rw [hroot5]
      refine ⟨by simp, ?_⟩
      simp [is_black, hs5pcol]
    · rw [hh2p] at hroot5
      simp only [reduceCtorEq, if_false] at hroot5
      have hd1p : 1 ≤ d1 := by
        obtain ⟨si2, hsl⟩ := holePar_slot hh2p
        rcases Nat.eq_zero_or_pos d1 with h0 | hp2
        · exfalso
          obtain ⟨hh, -, -⟩ := PT_d0 (by rw [h0] at hup2; exact hup2)
          exact absurd (hsl.symm.trans hh) (by simp)
        · exact hp2
      obtain ⟨r2, hr2, hr2mem⟩ := PT_root_mem hup2 hd1p
      rw [hroot5, hr2]
      rw [hr2] at hrootb
      have hbb := black_of_is_black hrootb
      refine ⟨by simp, ?_⟩
      by_cases hrq : r2 = qq
      · subst hrq
        have := hfr5 r2 hh2p
        have hcol5 : (getNode s5 r2).color = (getNode s r2).color := by
          rw [this]
          split <;> rfl
        simp [is_black, hcol5, hbb]
      · have hz := hs5z r2 (hprepost r2 hr2mem).1
          (hprepost r2 hr2mem).2.1
          (fun hc => by
            obtain ⟨-, -, -, hbm⟩ := VT_some_inv (hc ▸ hLp)
            exact ((hprepost r2 hr2mem).2.2.1 r2 hbm) rfl)
          (fun hc => hrq (by rw [hh2p] at hc; injection hc with h3; exact h3.symm))
        simp [is_black, hz, hbb]
  have hlcxF : is_left_child s x = false := by
    simp [is_left_child, is_root, hpp, hplx]
  have hrun : TIRtail s x = .ok s5 := by
    show (do
      let g2 ← toIdx (get_grandparent s x)
      if is_left_child s x = true then do
        let y_1 ← rotate_right s g2
        let p2 ← toIdx (getNode s x).parent
        pure (set_red (set_black y_1 p2) g2)
      else do
        let y_1 ← rotate_left s g2
        let p2 ← toIdx (getNode s x).parent
        pure (set_red (set_black y_1 p2) g2)) = Except.ok s5
    rw [hgp]
    have ht1 : toIdx (some gg) = Except.ok gg := rfl
    rw [ht1, bind_ok]
    simp only [hlcxF, Bool.false_eq_true, if_false]
    rw [hTrun, bind_ok, hpp]
    have ht3 : toIdx (some p) = Except.ok p := rfl
    rw [ht3, bind_ok, hs5def]
    rfl
  refine ⟨s5, hrun, ?_, ?_, ?_, hrbfin.1, hrbfin.2, c2, bh2, ?_⟩
  · refine admEq_trans ?_ hTadm
    exact admEq_trans (admEq_updNode _ _ _) (admEq_updNode _ _ _)
  · refine rngEq_trans ?_ hTrng
    exact rngEq_trans (rngEq_updNode_of _ _ _ (fun n => rfl))
      (rngEq_updNode_of _ _ _ (fun n => rfl))
  · intro q hq
    refine hs5z q (fun he => hq (by rw [he]; simp))
      (fun he => hq (by rw [he]; simp)) ?_ ?_
    · intro hc
      obtain ⟨-, -, -, hbm⟩ := VT_some_inv (hc ▸ hLp)
      exact hq (by
        have : q ∈ Lp := hbm
        simp [this])
    · intro hc
      have hm := hframe q hc
      rcases List.mem_append.mp hm with h1 | h1
      · exact hq (by simp [h1])
      · exact hq (by simp [h1])
  · simpa [List.append_assoc] using hvt5

set_option maxHeartbeats 2000000 in
/-- DELETE_CASE_6 in the left configuration: the deficient node `x`
(with the black leaf `x0` of the pending deletion at its bottom) is
the left child of `p`; the sibling `w` is black and its right child
`c` is red.  Copying `p`'s colour onto `w`, blackening `p` and `c` and
rotating left at `p` repairs the deficiency; splicing `x0` afterwards
yields a valid tree. -/
theorem DR6_left_spec {s : RBTreeState} {x0 x p w c : Nat} {h2 : Hole}
    {cw : Bool} {v d1 : Nat} {l W pre post : List Nat}
    (hplen : p < s.nodes.length)
    (hpl : (getNode s p).left = some x)
    (hDT : DT s x0 x (some p) v l)
    (hpar3 : (getNode s p).parent = holePar h2)
    (hup2 : PT s h2 (v + 1 + (if (getNode s p).color = BLACK then 1 else 0))
      pre post d1)
    (hhold2 : holeVal s h2 = some p)
    (hredParp : (getNode s p).color = RED → is_black s (holePar h2) = true)
    (hpr : (getNode s p).right = some w)
    (hW : VT s (getNode s p).right (some p) cw (v + 1) W)
    (hwb : (getNode s w).color = BLACK)
    (hwr : (getNode s w).right = some c)
    (hcred : (getNode s c).color = RED)
    (hnd : (pre ++ ((l ++ p :: W) ++ post)).Nodup)
    (hrootb : is_black s s.root = true) :
    ∃ s', DR6 s x = .ok s' ∧ admEq s' s ∧ rngEq s' s ∧
      (∀ q, q ∉ pre ++ ((l ++ p :: W) ++ post) →
        getNode s' q = getNode s q) ∧
      s'.root ≠ none ∧ is_black s' s'.root = true ∧
      ∃ px0 A B c2 bh2,
        (getNode s' x0).parent = some px0 ∧
        (if is_left_child s' x0 then (getNode s' px0).left
          else (getNode s' px0).right) = some x0 ∧
        pre ++ ((l ++ p :: W) ++ post) = A ++ x0 :: B ∧
        VT (updNode s' px0 fun n =>
            if is_left_child s' x0 then { n with left := none }
            else { n with right := none })
          s'.root none c2 bh2 (A ++ B) := by
  obtain ⟨hxpar, hxcol, hxlen, hxmem⟩ := DT_y_facts hDT
  obtain ⟨cb, cc, v0, WB, WC, hWeq, hv0, hcw2, hwpar, hwlen, hredw,
    hWB, hWC⟩ := VT_node_inv (hpr ▸ hW)
  have hv0v : v = v0 := by
    rw [hwb] at hv0
    simp [BLACK] at hv0
    omega
  subst hv0v
  subst hWeq
  obtain ⟨ccl, ccr, vc, CL, CR, hCeq, hvc, hcc2, hcpar, hclen, hredc,
    hCL, hCR⟩ := VT_node_inv (hwr ▸ hWC)
  have hvcv : v = vc := by
    rw [hcred] at hvc
    simp [RED, BLACK] at hvc
    omega
  subst hvcv
  subst hCeq
  obtain ⟨hcclB, hccrB⟩ := hredc hcred
  have hndF : (pre ++ (l ++ (p :: (WB ++ (w :: (CL ++ (c ::
      (CR ++ post)))))))).Nodup := by
    simpa [List.append_assoc] using hnd
  have hndG1 : ((pre ++ l) ++
      (p :: (WB ++ (w :: (CL ++ (c :: (CR ++ post))))))).Nodup := by
    simpa [List.append_assoc] using hnd
  have hndG2 : ((pre ++ (l ++ (p :: WB))) ++
      (w :: (CL ++ (c :: (CR ++ post))))).Nodup := by
    simpa [List.append_assoc] using hnd
  have hndG3 : ((pre ++ (l ++ (p :: (WB ++ (w :: CL))))) ++
      (c :: (CR ++ post))).Nodup := by
    simpa [List.append_assoc] using hnd
  have hndG4 : ((pre ++ (l ++ (p :: (WB ++ (w :: (CL ++ (c ::
      CR))))))) ++ post).Nodup := by
    simpa [List.append_assoc] using hnd
  have hpnot : p ∉ WB ++ (w :: (CL ++ (c :: (CR ++ post)))) :=
    (List.nodup_cons.mp (List.nodup_append.mp hndG1).2.1).1
  have hwnot : w ∉ CL ++ (c :: (CR ++ post)) :=
    (List.nodup_cons.mp (List.nodup_append.mp hndG2).2.1).1
  have hcnot : c ∉ CR ++ post :=
    (List.nodup_cons.mp (List.nodup_append.mp hndG3).2.1).1
  have hndl : l.Nodup :=
    (List.nodup_append.mp (List.nodup_append.mp hndG1).1).2.1
  have hpw : p ≠ w := fun he => hpnot (by rw [he]; simp)
  have hpc : p ≠ c := fun he => hpnot (by rw [he]; simp)
  have hwc : w ≠ c := fun he => hwnot (by rw [he]; simp)
  have hlq : ∀ q ∈ l, q ≠ p ∧ q ≠ w ∧ q ≠ c ∧ q ∉ WB ∧
      q ∉ pre ∧ q ∉ post := by
    intro q hq
    refine ⟨nd_ne hndG1 (by simp [hq]) (by simp),
      nd_ne hndG2 (by simp [hq]) (by simp),
      nd_ne hndG3 (by simp [hq]) (by simp), ?_, ?_, ?_⟩
    · intro hc2
      have hqA : q ∈ pre ++ l := by simp [hq]
      exact (nd_ne hndG1 hqA (by simp [hc2])) rfl
    · intro hc2
      exact (nd_ne hndF hc2 (by simp [hq])) rfl
    · intro hc2
      exact (nd_ne hndG4 (by simp [hq]) hc2) rfl
  have hWBq : ∀ q ∈ WB, q ≠ p ∧ q ≠ w ∧ q ≠ c ∧ q ∉ l ∧
      q ∉ pre ∧ q ∉ post := by
    intro q hq
    refine ⟨fun he => hpnot (by rw [← he]; simp [hq]),
      nd_ne hndG2 (by simp [hq]) (by simp),
      nd_ne hndG3 (by simp [hq]) (by simp), ?_, ?_, ?_⟩
    · intro hc2
      have hqA : q ∈ pre ++ l := by simp [hc2]
      exact (nd_ne hndG1 hqA (by simp [hq])) rfl
    · intro hc2
      exact (nd_ne hndF hc2 (by simp [hq])) rfl
    · intro hc2
      exact (nd_ne hndG4 (by simp [hq]) hc2) rfl
  have hCLq : ∀ q ∈ CL, q ≠ p ∧ q ≠ w ∧ q ≠ c ∧ q ∉ l ∧
      q ∉ WB ∧ q ∉ pre ∧ q ∉ post := by
    intro q hq
    refine ⟨fun he => hpnot (by rw [← he]; simp [hq]),
      fun he => hwnot (by rw [← he]; simp [hq]),
      nd_ne hndG3 (by simp [hq]) (by simp), ?_, ?_, ?_, ?_⟩
    · intro hc2
      have hqA : q ∈ pre ++ l := by simp [hc2]
      exact (nd_ne hndG1 hqA (by simp [hq])) rfl
    · intro hc2
      have hqA : q ∈ pre ++ (l ++ (p :: WB)) := by simp [hc2]
      exact (nd_ne hndG2 hqA (by simp [hq])) rfl
    · intro hc2
      exact (nd_ne hndF hc2 (by simp [hq])) rfl
    · intro hc2
      exact (nd_ne hndG4 (by simp [hq]) hc2) rfl
  have hCRq : ∀ q ∈ CR, q ≠ p ∧ q ≠ w ∧ q ≠ c ∧ q ∉ l ∧
      q ∉ WB ∧ q ∉ pre ∧ q ∉ post := by
    intro q hq
    refine ⟨fun he => hpnot (by rw [← he]; simp [hq]),
      fun he => hwnot (by rw [← he]; simp [hq]),
      fun he => hcnot (by rw [← he]; simp [hq]), ?_, ?_, ?_, ?_⟩
    · intro hc2
      have hqA : q ∈ pre ++ l := by simp [hc2]
      exact (nd_ne hndG1 hqA (by simp [hq])) rfl
    · intro hc2
      have hqA : q ∈ pre ++ (l ++ (p :: WB)) := by simp [hc2]
      exact (nd_ne hndG2 hqA (by simp [hq])) rfl
    · intro hc2
      exact (nd_ne hndF hc2 (by simp [hq])) rfl
    · intro hc2
      exact (nd_ne hndG4 (by simp [hq]) hc2) rfl
  have hfrq : ∀ q ∈ pre ++ post, q ≠ p ∧ q ≠ w ∧ q ≠ c ∧ q ∉ l ∧
      q ∉ WB ∧ q ∉ CL ∧ q ∉ CR := by
    intro q hq
    rcases List.mem_append.mp hq with h1 | h1
    · refine ⟨nd_ne hndF h1 (by simp), nd_ne hndF h1 (by simp),
        nd_ne hndF h1 (by simp), ?_, ?_, ?_, ?_⟩
      · intro hc2
        exact (nd_ne hndF h1 (by simp [hc2])) rfl
      · intro hc2
        exact (nd_ne hndF h1 (by simp [hc2])) rfl
      · intro hc2
        exact (nd_ne hndF h1 (by simp [hc2])) rfl
      · intro hc2
        exact (nd_ne hndF h1 (by simp [hc2])) rfl
    · refine ⟨(nd_ne hndG4 (by simp) h1).symm,
        (nd_ne hndG4 (by simp) h1).symm,
        (nd_ne hndG4 (by simp) h1).symm, ?_, ?_, ?_, ?_⟩
      · intro hc2
        exact (nd_ne hndG4 (by simp [hc2]) h1) rfl
      · intro hc2
        exact (nd_ne hndG4 (by simp [hc2]) h1) rfl
      · intro hc2
        exact (nd_ne hndG4 (by simp [hc2]) h1) rfl
      · intro hc2
        exact (nd_ne hndG4 (by simp [hc2]) h1) rfl
  have hBne : ∀ z, z ∉ WB → (getNode s w).left ≠ some z := by
    intro z hz hb
    obtain ⟨-, -, -, hbmem⟩ := VT_some_inv (hb ▸ hWB)
    exact hz hbmem
  have hfrne : ∀ z, (∀ q2 ∈ pre ++ post, q2 ≠ z) →
      holePar h2 ≠ some z := by
    intro z hz hc2
    obtain ⟨si2, hsl⟩ := holePar_slot hc2
    have hm := PT_frame_mem (hsl ▸ hup2)
    exact hz z hm rfl
  have hilcx : is_left_child s x = true := by
    simp [is_left_child, is_root, hxpar, hpl]
  set s2 := updNode s w (fun n =>
    { n with color := (getNode s p).color }) with hs2def
  set s3 := set_black s2 p with hs3def
  set s4 := set_black s3 c with hs4def
  have hlen2 : s2.nodes.length = s.nodes.length := by
    rw [hs2def, nodes_length_updNode]
  have hlen3 : s3.nodes.length = s.nodes.length := by
    rw [hs3def]
    unfold set_black
    rw [nodes_length_updNode, hlen2]
  have hlen4 : s4.nodes.length = s.nodes.length := by
    rw [hs4def]
    unfold set_black
    rw [nodes_length_updNode, hlen3]
  have hs4z : ∀ z, z ≠ w → z ≠ p → z ≠ c →
      getNode s4 z = getNode s z := by
    intro z h1 h2b h3
    rw [hs4def, getNode_set_black_ne _ _ _ h3, hs3def,
      getNode_set_black_ne _ _ _ h2b, hs2def,
      getNode_updNode_ne _ _ _ _ h1]
  have hs4p : getNode s4 p = { getNode s p with color := BLACK } := by
    rw [hs4def, getNode_set_black_ne _ _ _ hpc, hs3def,
      getNode_set_black_self _ _ (by rw [hlen2]; exact hplen),
      hs2def, getNode_updNode_ne _ _ _ _ hpw]
  have hs4w : getNode s4 w =
      { getNode s w with color := (getNode s p).color } := by
    rw [hs4def, getNode_set_black_ne _ _ _ hwc, hs3def,
      getNode_set_black_ne _ _ _ (Ne.symm hpw), hs2def,
      getNode_updNode_self _ _ _ hwlen]
  have hs4c : getNode s4 c = { getNode s c with color := BLACK } := by
    rw [hs4def, getNode_set_black_self _ _ (by rw [hlen3]; exact hclen),
      hs3def, getNode_set_black_ne _ _ _ (Ne.symm hpc), hs2def,
      getNode_updNode_ne _ _ _ _ (Ne.symm hwc)]
  have hs4root : s4.root = s.root := rfl
  have hbfB : ∀ b, (getNode s w).left = some b →
      b ≠ p ∧ b ≠ w ∧ b < s4.nodes.length := by
    intro b hb
    obtain ⟨-, -, hblen, hbmem⟩ := VT_some_inv (hb ▸ hWB)
    exact ⟨(hWBq b hbmem).1, (hWBq b hbmem).2.1,
      by rw [hlen4]; exact hblen⟩
  have hqqf : ∀ qq, holePar h2 = some qq → qq ≠ p ∧ qq ≠ w ∧
      (∀ b, (getNode s w).left = some b → qq ≠ b) ∧
      qq < s4.nodes.length := by
    intro qq hq2
    obtain ⟨si2, hsl⟩ := holePar_slot hq2
    have hm := PT_frame_mem (hsl ▸ hup2)
    refine ⟨(hfrq qq hm).1, (hfrq qq hm).2.1, ?_,
      by rw [hlen4]; exact PT_mem_len hup2 qq hm⟩
    intro b hb
    obtain ⟨-, -, -, hbmem⟩ := VT_some_inv (hb ▸ hWB)
    exact fun he => (hfrq qq hm).2.2.2.2.1 (he ▸ hbmem)
  obtain ⟨T, hTrun, hTadm, hTrng, hTroot, hTg, hTp, hTb, hTq, hTz⟩ :=
    rotate_left_ptr s4 p w ((getNode s w).left) (holePar h2)
      (by rw [hlen4]; exact hplen) (by rw [hlen4]; exact hwlen)
      (Ne.symm hpw) (by rw [hs4p]; exact hpr) (by rw [hs4w]) hbfB
      (by rw [hs4p]; exact hpar3) hqqf
  have hTlen : T.nodes.length = s.nodes.length := by
    rw [hTadm.2.2.2.2.2, hlen4]
  have hTpl : (getNode T p).left = some x := by
    rw [hTg, hs4p]
    exact hpl
  have hTpr : (getNode T p).right = (getNode s w).left := by rw [hTg]
  have hTppar : (getNode T p).parent = some w := by rw [hTg]
  have hTpcol : (getNode T p).color = BLACK := by rw [hTg, hs4p]
  have hTwl : (getNode T w).left = some p := by rw [hTp]
  have hTwr : (getNode T w).right = some c := by
    rw [hTp, hs4w]
    exact hwr
  have hTwpar : (getNode T w).parent = holePar h2 := by rw [hTp]
  have hTwcol : (getNode T w).color = (getNode s p).color := by
    rw [hTp, hs4w]
  have hTzS : ∀ z, z ≠ p → z ≠ w → z ≠ c →
      ((getNode s w).left ≠ some z) → (holePar h2 ≠ some z) →
      getNode T z = getNode s z := by
    intro z h1 h2b h3 h4 h5
    rw [hTz z h1 h2b h4 h5]
    exact hs4z z h2b h1 h3
  have hTc : getNode T c = { getNode s c with color := BLACK } := by
    have hcWB : c ∉ WB := by
      intro hm
      have hcA : c ∈ pre ++ (l ++ (p :: WB)) := by simp [hm]
      exact (nd_ne hndG2 hcA (by simp)) rfl
    rw [hTz c (Ne.symm hpc) (Ne.symm hwc) (hBne c hcWB)
      (hfrne c (fun q2 hq2 => (hfrq q2 hq2).2.2.1))]
    exact hs4c
  have hTb2 : ∀ b, (getNode s w).left = some b →
      getNode T b = { getNode s b with parent := some p } := by
    intro b hb
    obtain ⟨-, -, -, hbmem⟩ := VT_some_inv (hb ▸ hWB)
    have h8 := hTb b hb
    rw [h8, hs4z b (hWBq b hbmem).2.1 (hWBq b hbmem).1
      (hWBq b hbmem).2.2.1]
  have hTfr : ∀ qq, holePar h2 = some qq →
      getNode T qq = (if (getNode s qq).left = some p
        then { getNode s qq with left := some w }
        else { getNode s qq with right := some w }) := by
    intro qq hq2
    obtain ⟨hq1, hq2b, -, -⟩ := hqqf qq hq2
    have h9 := hTq qq hq2
    obtain ⟨si2, hsl⟩ := holePar_slot hq2
    have hm := PT_frame_mem (hsl ▸ hup2)
    rw [hs4z qq hq2b hq1 (hfrq qq hm).2.2.1] at h9
    exact h9
  have hDT_T : DT T x0 x (some p) v l := by
    refine DT_congr (by rw [hTlen]) hDT ?_
    intro q hq
    exact sEq_of_eq (hTzS q (hlq q hq).1 (hlq q hq).2.1
      (hlq q hq).2.2.1 (hBne q (hlq q hq).2.2.2.1)
      (hfrne q (fun q2 hq2 he => ((hfrq q2 hq2).2.2.2.1) (he ▸ hq))))
  obtain ⟨hxpT, hxcT, hxlT, hxmT⟩ := DT_y_facts hDT_T
  have hx0l : x0 ∈ l := by
    obtain ⟨A9, B9, h9⟩ := DT_decomp hDT
    rw [h9]
    simp
  have hpnl : p ∉ l := fun hc2 => (hlq p hc2).1 rfl
  have hx0par : ∃ px0, (getNode T x0).parent = some px0 ∧
      ((px0 = p ∧ x0 = x) ∨ px0 ∈ l) := by
    rcases DT_x_parent_mem hDT_T with hx0x | ⟨px0, hpx1, hpx2, hpx3⟩
    · subst hx0x
      exact ⟨p, hxpT, Or.inl ⟨rfl, rfl⟩⟩
    · exact ⟨px0, hpx1, Or.inr hpx2⟩
  obtain ⟨px0, hxp0, hpx0loc⟩ := hx0par
  have hside : ∃ sideL : Bool,
      (if sideL then (getNode T px0).left else (getNode T px0).right)
        = some x0 ∧ is_left_child T x0 = sideL := by
    by_cases hlc : (getNode T px0).left = some x0
    · exact ⟨true, by simpa using hlc,
        by simp [is_left_child, is_root, hxp0, hlc]⟩
    · have hrc : (getNode T px0).right = some x0 := by
        rcases DT_x_parent_mem hDT_T with hx0x | ⟨px0b, hpx1, hpx2, hpx3⟩
        · exfalso
          have hpeq : px0 = p := by
            rw [hx0x] at hxp0
            rw [hxp0] at hxpT
            exact Option.some.inj hxpT
          subst hpeq
          rw [hx0x] at hlc
          exact hlc hTpl
        · have hpeq : px0b = px0 := by
            rw [hpx1] at hxp0
            exact Option.some.inj hxp0
          subst hpeq
          rcases hpx3 with h3 | h3
          · exact absurd h3 hlc
          · exact h3
      exact ⟨false, by simpa using hrc,
        by simp [is_left_child, is_root, hxp0, hlc]⟩
  obtain ⟨sideL, hxs, hilcT⟩ := hside
  obtain ⟨A2, B2, q, hlAB, hVq, hqcase⟩ :=
    DT_splice hDT_T hndl hxp0 hxs
  set s5 := updNode T px0 (fun n =>
    if sideL then { n with left := none }
    else { n with right := none }) with hs5def
  have hlen5 : s5.nodes.length = s.nodes.length := by
    rw [hs5def, nodes_length_updNode, hTlen]
  have hs5root : s5.root = T.root := rfl
  have hpx0w : px0 ≠ w := by
    rcases hpx0loc with ⟨rfl, -⟩ | hm
    · exact hpw
    · exact (hlq px0 hm).2.1
  have hpx0c : px0 ≠ c := by
    rcases hpx0loc with ⟨rfl, -⟩ | hm
    · exact hpc
    · exact (hlq px0 hm).2.2.1
  have hs5zT : ∀ z, z ≠ px0 → getNode s5 z = getNode T z := by
    intro z hz
    rw [hs5def, getNode_updNode_ne _ _ _ _ hz]
  have hs5zS : ∀ z, z ≠ p → z ≠ w → z ≠ c → z ∉ l →
      ((getNode s w).left ≠ some z) → (holePar h2 ≠ some z) →
      getNode s5 z = getNode s z := by
    intro z h1 h2b h3 h4 h5 h6
    have hzpx : z ≠ px0 := by
      rcases hpx0loc with ⟨rfl, -⟩ | hm
      · exact h1
      · exact fun he => h4 (he ▸ hm)
    rw [hs5zT z hzpx]
    exact hTzS z h1 h2b h3 h5 h6
  have hs5w : getNode s5 w = getNode T w := hs5zT w (Ne.symm hpx0w)
  have hs5c : getNode s5 c = getNode T c := hs5zT c (Ne.symm hpx0c)
  have hpx0p_side : px0 = p → sideL = true := by
    intro he
    subst he
    cases hsl : sideL
    · exfalso
      rw [hsl] at hxs
      simp at hxs
      rw [hTpr] at hxs
      obtain ⟨-, -, -, hbmem⟩ := VT_some_inv (hxs ▸ hWB)
      exact (hWBq x0 hbmem).2.2.2.1 hx0l
    · rfl
  have hs5p_fields : (getNode s5 p).right = (getNode T p).right ∧
      (getNode s5 p).parent = (getNode T p).parent ∧
      (getNode s5 p).color = (getNode T p).color := by
    by_cases hpp0 : p = px0
    · have hsl := hpx0p_side hpp0.symm
      rw [hs5def, ← hpp0,
        getNode_updNode_self _ _ _ (by rw [hTlen]; exact hplen), hsl]
      exact ⟨rfl, rfl, rfl⟩
    · rw [hs5zT p (fun he => hpp0 he)]
      exact ⟨rfl, rfl, rfl⟩
  have hs5plq : (getNode s5 p).left = q := by
    rcases hqcase with ⟨hx0y, hqn⟩ | ⟨hx0y, hqs⟩
    · have hpeq : px0 = p := by
        rw [hx0y] at hxp0
        rw [hxp0] at hxpT
        exact Option.some.inj hxpT
      have hsl := hpx0p_side hpeq
      rw [hs5def, hpeq,
        getNode_updNode_self _ _ _ (by rw [hTlen]; exact hplen),
        hsl, hqn]
      simp
    · have hpne : p ≠ px0 := by
        intro he
        cases hsl : sideL
        · rw [hsl] at hxs
          simp at hxs
          rw [← he, hTpr] at hxs
          obtain ⟨-, -, -, hbmem⟩ := VT_some_inv (hxs ▸ hWB)
          exact (hWBq x0 hbmem).2.2.2.1 hx0l
        · rw [hsl] at hxs
          simp at hxs
          rw [← he, hTpl] at hxs
          exact hx0y (Option.some.inj hxs).symm
      rw [hs5zT p hpne, hTpl, hqs]
  have hndWB : WB.Nodup := by
    have h5 : (WB ++ (w :: (CL ++ (c :: (CR ++ post))))).Nodup :=
      (List.nodup_cons.mp (List.nodup_append.mp hndG1).2.1).2
    exact (List.nodup_append.mp h5).1
  have hWB5 : VT s5 (getNode s w).left (some p) cb v WB := by
    refine VT_ptr_transfer hWB hndWB hlen5 ?_ ?_
    · intro z hz hzb
      exact sEq_of_eq (hs5zS z (hWBq z hz).1 (hWBq z hz).2.1
        (hWBq z hz).2.2.1 (hWBq z hz).2.2.2.1
        (fun hb => hzb z hb rfl)
        (hfrne z (fun q2 hq2 he =>
          ((hfrq q2 hq2).2.2.2.2.1) (he ▸ hz))))
    · intro b hb
      obtain ⟨-, -, -, hbmem⟩ := VT_some_inv (hb ▸ hWB)
      have hbpx : b ≠ px0 := by
        rcases hpx0loc with ⟨rfl, -⟩ | hm
        · exact (hWBq b hbmem).1
        · exact fun he => (hWBq b hbmem).2.2.2.1 (he ▸ hm)
      rw [hs5zT b hbpx, hTb2 b hb]
      exact ⟨rfl, rfl, rfl, rfl⟩
  have hCL5 : VT s5 (getNode s c).left (some c) ccl v CL :=
    VT_congr hlen5 hCL (fun z hz => sEq_of_eq
      (hs5zS z (hCLq z hz).1 (hCLq z hz).2.1 (hCLq z hz).2.2.1
        (hCLq z hz).2.2.2.1 (hBne z (hCLq z hz).2.2.2.2.1)
        (hfrne z (fun q2 hq2 he =>
          ((hfrq q2 hq2).2.2.2.2.2.1) (he ▸ hz)))))
  have hCR5 : VT s5 (getNode s c).right (some c) ccr v CR :=
    VT_congr hlen5 hCR (fun z hz => sEq_of_eq
      (hs5zS z (hCRq z hz).1 (hCRq z hz).2.1 (hCRq z hz).2.2.1
        (hCRq z hz).2.2.2.1 (hBne z (hCRq z hz).2.2.2.2.1)
        (hfrne z (fun q2 hq2 he =>
          ((hfrq q2 hq2).2.2.2.2.2.2) (he ▸ hz)))))
  have hpn5 : VT s5 (some p) (some w) BLACK (v + 1)
      ((A2 ++ B2) ++ p :: WB) := by
    have hLp : VT s5 (getNode s5 p).left (some p) BLACK v (A2 ++ B2) := by
      rw [hs5plq]
      exact hVq
    have hRp : VT s5 (getNode s5 p).right (some p) cb v WB := by
      rw [hs5p_fields.1, hTpr]
      exact hWB5
    exact VT_node_black (by rw [hlen5]; exact hplen)
      (by rw [hs5p_fields.2.1]; exact hTppar)
      (by rw [hs5p_fields.2.2]; exact hTpcol) hLp hRp
  have hcn5 : VT s5 (some c) (some w) BLACK (v + 1)
      (CL ++ c :: CR) := by
    have hLc : VT s5 (getNode s5 c).left (some c) ccl v CL := by
      have h6 : (getNode s5 c).left = (getNode s c).left := by
        rw [hs5c, hTc]
      rw [h6]
      exact hCL5
    have hRc : VT s5 (getNode s5 c).right (some c) ccr v CR := by
      have h6 : (getNode s5 c).right = (getNode s c).right := by
        rw [hs5c, hTc]
      rw [h6]
      exact hCR5
    exact VT_node_black (by rw [hlen5]; exact hclen)
      (by rw [hs5c, hTc]; exact hcpar)
      (by rw [hs5c, hTc]) hLc hRc
  have hwn5 := VT.node (s := s5) w (holePar h2) BLACK BLACK (v + 1)
    ((A2 ++ B2) ++ p :: WB) (CL ++ c :: CR)
    (by rw [hlen5]; exact hwlen)
    (by rw [hs5w]; exact hTwpar)
    (fun _ => ⟨rfl, rfl⟩)
    (by rw [hs5w, hTwl]; exact hpn5)
    (by rw [hs5w, hTwr]; exact hcn5)
  have hwcol5 : (getNode s5 w).color = (getNode s p).color := by
    rw [hs5w]
    exact hTwcol
  rw [hwcol5] at hwn5
  have hndfr : (pre ++ post).Nodup := by
    have hndM : (pre ++ ((l ++ p :: (WB ++ w :: (CL ++ c :: CR))) ++
        post)).Nodup := by
      simpa [List.append_assoc] using hnd
    refine List.Nodup.sublist ?_ hndM
    exact List.Sublist.append_left (List.sublist_append_right _ _) pre
  have hpnm : p ∉ pre ++ post := fun hc2 => (hfrq p hc2).1 rfl
  have hroot5b : s5.root = (if holePar h2 = none then some w
      else s.root) := by
    rw [hs5root, hTroot, hs4root]
  have hfr5 : ∀ qq, holePar h2 = some qq →
      getNode s5 qq = (if (getNode s qq).left = some p
        then { getNode s qq with left := some w }
        else { getNode s qq with right := some w }) := by
    intro qq hq2
    obtain ⟨si2, hsl⟩ := holePar_slot hq2
    have hm := PT_frame_mem (hsl ▸ hup2)
    have hqpx : qq ≠ px0 := by
      rcases hpx0loc with ⟨rfl, -⟩ | hmm
      · exact (hfrq qq hm).1
      · exact fun he => (hfrq qq hm).2.2.2.1 (he ▸ hmm)
    rw [hs5zT qq hqpx]
    exact hTfr qq hq2
  have hoth5 : ∀ z ∈ pre ++ post, some z ≠ holePar h2 →
      sEq (getNode s5 z) (getNode s z) := by
    intro z hz hzne
    exact sEq_of_eq (hs5zS z (hfrq z hz).1 (hfrq z hz).2.1
      (hfrq z hz).2.2.1 (hfrq z hz).2.2.2.1
      (hBne z (hfrq z hz).2.2.2.2.1)
      (fun hc2 => hzne (by rw [hc2])))
  obtain ⟨hctx5, hhold5⟩ := PT_rot_retarget hup2 hhold2 hndfr hpnm
    hlen5 hroot5b hfr5 hoth5
  have hplugc : ∀ j, holePar h2 = some j →
      (getNode s5 j).color = RED → (getNode s p).color = BLACK := by
    intro j hj hjr
    have hcolj : (getNode s5 j).color = (getNode s j).color := by
      rw [hfr5 j hj]
      split <;> rfl
    have hjrS : (getNode s j).color = RED := by
      rw [← hcolj]
      exact hjr
    by_cases hpc2 : (getNode s p).color = RED
    · exfalso
      have hb2 := hredParp hpc2
      rw [hj] at hb2
      have hb3 := black_of_is_black hb2
      rw [hb3] at hjrS
      exact absurd hjrS (by simp [RED, BLACK])
    · exact color_black_of_not_red hpc2
  obtain ⟨c2, bh2, hvt5⟩ := PT_plug hctx5 hhold5 hwn5 hplugc
  have hrbT : T.root ≠ none ∧ is_black T T.root = true := by
    rcases hh2p : holePar h2 with _ | qq
    · have hT2 : T.root = some w := by
        rw [hTroot, hh2p]
        simp
      have hrp : s.root = some p := by
        have h7 : holeVal s h2 = s.root := by
          cases h2 with
          | root => rfl
          | slot j sj => cases hh2p
        rw [← h7, hhold2]
      have hpb2 : (getNode s p).color = BLACK := by
        rw [hrp] at hrootb
        exact black_of_is_black hrootb
      rw [hT2]
      refine ⟨by simp, ?_⟩
      simp [is_black, hTwcol, hpb2]
    · have hT2 : T.root = s.root := by
        rw [hTroot, hh2p]
        simp only [reduceCtorEq, if_false]
        exact hs4root
      have hd1p : 1 ≤ d1 := by
        obtain ⟨si2, hsl⟩ := holePar_slot hh2p
        rcases Nat.eq_zero_or_pos d1 with h0 | hp2
        · exfalso
          obtain ⟨hh, -, -⟩ := PT_d0 (by rw [h0] at hup2; exact hup2)
          exact absurd (hsl.symm.trans hh) (by simp)
        · exact hp2
      obtain ⟨r2, hr2, hr2mem⟩ := PT_root_mem hup2 hd1p
      rw [hT2, hr2]
      rw [hr2] at hrootb
      have hbb := black_of_is_black hrootb
      refine ⟨by simp, ?_⟩
      by_cases hrq : r2 = qq
      · subst hrq
        have h7 := hTfr r2 hh2p
        have hcol7 : (getNode T r2).color = (getNode s r2).color := by
          rw [h7]
          split <;> rfl
        simp [is_black, hcol7, hbb]
      · have hz := hTzS r2 (hfrq r2 hr2mem).1 (hfrq r2 hr2mem).2.1
          (hfrq r2 hr2mem).2.2.1 (hBne r2 (hfrq r2 hr2mem).2.2.2.2.1)
          (fun hc2 => hrq (Option.some.inj
            (by rw [hh2p] at hc2; exact hc2)).symm)
        simp [is_black, hz, hbb]
  have hgs : get_sibling s x = (getNode s p).right := by
    simp [get_sibling, hxpar, hilcx]
  have hs3p : getNode s3 p = { getNode s p with color := BLACK } := by
    rw [hs3def, getNode_set_black_self _ _ (by rw [hlen2]; exact hplen),
      hs2def, getNode_updNode_ne _ _ _ _ hpw]
  have hxneW : x ≠ w := fun he => (hlq x hxmem).2.1 he
  have hxneP : x ≠ p := fun he => (hlq x hxmem).1 he
  have hxq3 : getNode s3 x = getNode s x := by
    rw [hs3def, getNode_set_black_ne _ _ _ hxneP, hs2def,
      getNode_updNode_ne _ _ _ _ hxneW]
  have hp3l : (getNode s3 p).left = some x := by
    rw [hs3p]
    exact hpl
  have hilc3 : is_left_child s3 x = true := by
    simp [is_left_child, is_root, hxq3, hxpar, hp3l]
  have hw3r : (getNode s3 w).right = some c := by
    rw [hs3def, getNode_set_black_ne _ _ _ (Ne.symm hpw), hs2def,
      getNode_updNode_self _ _ _ hwlen]
    exact hwr
  have hrun : DR6 s x = .ok T := by
    rw [DR6, hgs, hpr]
    have ht1 : toIdx (some w) = Except.ok w := rfl
    rw [ht1, bind_ok, hxpar]
    have ht2 : toIdx (some p) = Except.ok p := rfl
    rw [ht2, bind_ok]
    show (if is_left_child s3 x = true then do
        let sr ← toIdx (getNode s3 w).right
        let s6 := set_black s3 sr
        rotate_left s6 p
      else do
        let sl ← toIdx (getNode s3 w).left
        let s6 := set_black s3 sl
        rotate_right s6 p) = Except.ok T
    rw [if_pos hilc3, hw3r]
    have ht3 : toIdx (some c) = Except.ok c := rfl
    rw [ht3, bind_ok]
    show rotate_left s4 p = Except.ok T
    exact hTrun
  refine ⟨T, hrun, ?_, ?_, ?_, hrbT.1, hrbT.2, px0, pre ++ A2,
    (B2 ++ p :: (WB ++ w :: (CL ++ c :: CR))) ++ post, c2, bh2,
    hxp0, ?_, ?_, ?_⟩
  · refine admEq_trans hTadm ?_
    exact admEq_trans (admEq_updNode _ _ _)
      (admEq_trans (admEq_updNode _ _ _) (admEq_updNode _ _ _))
  · refine rngEq_trans hTrng ?_
    exact rngEq_trans (rngEq_updNode_of _ _ _ (fun n => rfl))
      (rngEq_trans (rngEq_updNode_of _ _ _ (fun n => rfl))
        (rngEq_updNode_of _ _ _ (fun n => rfl)))
  · intro z hz
    refine hTzS z (fun he => hz (by rw [he]; simp))
      (fun he => hz (by rw [he]; simp))
      (fun he => hz (by rw [he]; simp)) ?_ ?_
    · intro hb
      obtain ⟨-, -, -, hbmem⟩ := VT_some_inv (hb ▸ hWB)
      exact hz (by simp [hbmem])
    · intro hc2
      obtain ⟨si2, hsl⟩ := holePar_slot hc2
      have hm := PT_frame_mem (hsl ▸ hup2)
      rcases List.mem_append.mp hm with h1 | h1
      · exact hz (by simp [h1])
      · exact hz (by simp [h1])
  · rw [hilcT]
    exact hxs
  · rw [hlAB]
    simp [List.append_assoc]
  · rw [hilcT]
    have hgoal := hvt5
    rw [hs5def] at hgoal
    have hroots : T.root = s5.root := hs5root.symm
    rw [hroots, hs5def]
    simpa [List.append_assoc] using hgoal

set_option maxHeartbeats 2000000 in
/-- DELETE_CASE_6 in the right configuration: the deficient node `x`
(with the black leaf `x0` of the pending deletion at its bottom) is
the right child of `p`; the sibling `w` is black and its left child
`c` is red.  Copying `p`'s colour onto `w`, blackening `p` and `c` and
rotating right at `p` repairs the deficiency; splicing `x0` afterwards
yields a valid tree. -/
theorem DR6_right_spec {s : RBTreeState} {x0 x p w c : Nat} {h2 : Hole}
    {cw : Bool} {v d1 : Nat} {l W pre post : List Nat}
    (hplen : p < s.nodes.length)
    (hprx : (getNode s p).right = some x)
    (hDT : DT s x0 x (some p) v l)
    (hpar3 : (getNode s p).parent = holePar h2)
    (hup2 : PT s h2 (v + 1 + (if (getNode s p).color = BLACK then 1 else 0))
      pre post d1)
    (hhold2 : holeVal s h2 = some p)
    (hredParp : (getNode s p).color = RED → is_black s (holePar h2) = true)
    (hplw : (getNode s p).left = some w)
    (hW : VT s (getNode s p).left (some p) cw (v + 1) W)
    (hwb : (getNode s w).color = BLACK)
    (hwl : (getNode s w).left = some c)
    (hcred : (getNode s c).color = RED)
    (hnd : (pre ++ ((W ++ p :: l) ++ post)).Nodup)
    (hrootb : is_black s s.root = true) :
    ∃ s', DR6 s x = .ok s' ∧ admEq s' s ∧ rngEq s' s ∧
      (∀ q, q ∉ pre ++ ((W ++ p :: l) ++ post) →
        getNode s' q = getNode s q) ∧
      s'.root ≠ none ∧ is_black s' s'.root = true ∧
      ∃ px0 A B c2 bh2,
        (getNode s' x0).parent = some px0 ∧
        (if is_left_child s' x0 then (getNode s' px0).left
          else (getNode s' px0).right) = some x0 ∧
        pre ++ ((W ++ p :: l) ++ post) = A ++ x0 :: B ∧
        VT (updNode s' px0 fun n =>
            if is_left_child s' x0 then { n with left := none }
            else { n with right := none })
          s'.root none c2 bh2 (A ++ B) := by
  obtain ⟨hxpar, hxcol, hxlen, hxmem⟩ := DT_y_facts hDT
  obtain ⟨cb, cc, v0, WB, WC, hWeq, hv0, hcw2, hwpar, hwlen, hredw,
    hWB, hWC⟩ := VT_node_inv (hplw ▸ hW)
  have hv0v : v = v0 := by
    rw [hwb] at hv0
    simp [BLACK] at hv0
    omega
  subst hv0v
  subst hWeq
  obtain ⟨ccl, ccr, vc, CL, CR, hCeq, hvc, hcb2, hcpar, hclen, hredc,
    hCL, hCR⟩ := VT_node_inv (hwl ▸ hWB)
  have hvcv : v = vc := by
    rw [hcred] at hvc
    simp [RED, BLACK] at hvc
    omega
  subst hvcv
  subst hCeq
  obtain ⟨hcclB, hccrB⟩ := hredc hcred
  have hndF : (pre ++ (CL ++ (c :: (CR ++ (w :: (WC ++ (p ::
      (l ++ post)))))))).Nodup := by
    simpa [List.append_assoc] using hnd
  have hndG1 : ((pre ++ CL) ++
      (c :: (CR ++ (w :: (WC ++ (p :: (l ++ post))))))).Nodup := by
    simpa [List.append_assoc] using hnd
  have hndG2 : ((pre ++ (CL ++ (c :: CR))) ++
      (w :: (WC ++ (p :: (l ++ post))))).Nodup := by
    simpa [List.append_assoc] using hnd
  have hndG3 : ((pre ++ (CL ++ (c :: (CR ++ (w :: WC))))) ++
      (p :: (l ++ post))).Nodup := by
    simpa [List.append_assoc] using hnd
  have hndG4 : ((pre ++ (CL ++ (c :: (CR ++ (w :: (WC ++ (p ::
      l))))))) ++ post).Nodup := by
    simpa [List.append_assoc] using hnd
  have hcnot : c ∉ CR ++ (w :: (WC ++ (p :: (l ++ post)))) :=
    (List.nodup_cons.mp (List.nodup_append.mp hndG1).2.1).1
  have hwnot : w ∉ WC ++ (p :: (l ++ post)) :=
    (List.nodup_cons.mp (List.nodup_append.mp hndG2).2.1).1
  have hpnot : p ∉ l ++ post :=
    (List.nodup_cons.mp (List.nodup_append.mp hndG3).2.1).1
  have hndl : l.Nodup := by
    have h5 : (l ++ post).Nodup :=
      (List.nodup_cons.mp (List.nodup_append.mp hndG3).2.1).2
    exact (List.nodup_append.mp h5).1
  have hwp : w ≠ p := nd_ne hndG3 (by simp) (by simp)
  have hpw : p ≠ w := hwp.symm
  have hcp : c ≠ p := nd_ne hndG3 (by simp) (by simp)
  have hpc : p ≠ c := hcp.symm
  have hcw : c ≠ w := nd_ne hndG2 (by simp) (by simp)
  have hwc : w ≠ c := hcw.symm
  have hlq : ∀ q ∈ l, q ≠ p ∧ q ≠ w ∧ q ≠ c ∧ q ∉ WC ∧
      q ∉ pre ∧ q ∉ post := by
    intro q hq
    refine ⟨fun he => hpnot (by rw [← he]; simp [hq]),
      fun he => hwnot (by rw [← he]; simp [hq]),
      fun he => hcnot (by rw [← he]; simp [hq]), ?_, ?_, ?_⟩
    · intro hc2
      have hqA : q ∈ pre ++ (CL ++ (c :: (CR ++ (w :: WC)))) := by
        simp [hc2]
      exact (nd_ne hndG3 hqA (by simp [hq])) rfl
    · intro hc2
      exact (nd_ne hndF hc2 (by simp [hq])) rfl
    · intro hc2
      exact (nd_ne hndG4 (by simp [hq]) hc2) rfl
  have hWCq : ∀ q ∈ WC, q ≠ p ∧ q ≠ w ∧ q ≠ c ∧ q ∉ l ∧
      q ∉ pre ∧ q ∉ post := by
    intro q hq
    refine ⟨nd_ne hndG3 (by simp [hq]) (by simp),
      fun he => hwnot (by rw [← he]; simp [hq]),
      fun he => hcnot (by rw [← he]; simp [hq]), ?_, ?_, ?_⟩
    · intro hc2
      have hqA : q ∈ pre ++ (CL ++ (c :: (CR ++ (w :: WC)))) := by
        simp [hq]
      exact (nd_ne hndG3 hqA (by simp [hc2])) rfl
    · intro hc2
      exact (nd_ne hndF hc2 (by simp [hq])) rfl
    · intro hc2
      exact (nd_ne hndG4 (by simp [hq]) hc2) rfl
  have hCLq : ∀ q ∈ CL, q ≠ p ∧ q ≠ w ∧ q ≠ c ∧ q ∉ l ∧
      q ∉ WC ∧ q ∉ pre ∧ q ∉ post := by
    intro q hq
    refine ⟨nd_ne hndG3 (by simp [hq]) (by simp),
      nd_ne hndG2 (by simp [hq]) (by simp),
      nd_ne hndG1 (by simp [hq]) (by simp), ?_, ?_, ?_, ?_⟩
    · intro hc2
      have hqA : q ∈ pre ++ (CL ++ (c :: (CR ++ (w :: WC)))) := by
        simp [hq]
      exact (nd_ne hndG3 hqA (by simp [hc2])) rfl
    · intro hc2
      have hqA : q ∈ pre ++ (CL ++ (c :: CR)) := by
        simp [hq]
      exact (nd_ne hndG2 hqA (by simp [hc2])) rfl
    · intro hc2
      exact (nd_ne hndF hc2 (by simp [hq])) rfl
    · intro hc2
      exact (nd_ne hndG4 (by simp [hq]) hc2) rfl
  have hCRq : ∀ q ∈ CR, q ≠ p ∧ q ≠ w ∧ q ≠ c ∧ q ∉ l ∧
      q ∉ WC ∧ q ∉ pre ∧ q ∉ post := by
    intro q hq
    refine ⟨nd_ne hndG3 (by simp [hq]) (by simp),
      nd_ne hndG2 (by simp [hq]) (by simp),
      fun he => hcnot (by rw [← he]; simp [hq]), ?_, ?_, ?_, ?_⟩
    · intro hc2
      have hqA : q ∈ pre ++ (CL ++ (c :: (CR ++ (w :: WC)))) := by
        simp [hq]
      exact (nd_ne hndG3 hqA (by simp [hc2])) rfl
    · intro hc2
      have hqA : q ∈ pre ++ (CL ++ (c :: CR)) := by
        simp [hq]
      exact (nd_ne hndG2 hqA (by simp [hc2])) rfl
    · intro hc2
      exact (nd_ne hndF hc2 (by simp [hq])) rfl
    · intro hc2
      exact (nd_ne hndG4 (by simp [hq]) hc2) rfl
  have hfrq : ∀ q ∈ pre ++ post, q ≠ p ∧ q ≠ w ∧ q ≠ c ∧ q ∉ l ∧
      q ∉ WC ∧ q ∉ CL ∧ q ∉ CR := by
    intro q hq
    rcases List.mem_append.mp hq with h1 | h1
    · refine ⟨nd_ne hndF h1 (by simp), nd_ne hndF h1 (by simp),
        nd_ne hndF h1 (by simp), ?_, ?_, ?_, ?_⟩
      · intro hc2
        exact (nd_ne hndF h1 (by simp [hc2])) rfl
      · intro hc2
        exact (nd_ne hndF h1 (by simp [hc2])) rfl
      · intro hc2
        exact (nd_ne hndF h1 (by simp [hc2])) rfl
      · intro hc2
        exact (nd_ne hndF h1 (by simp [hc2])) rfl
    · refine ⟨(nd_ne hndG4 (by simp) h1).symm,
        (nd_ne hndG4 (by simp) h1).symm,
        (nd_ne hndG4 (by simp) h1).symm, ?_, ?_, ?_, ?_⟩
      · intro hc2
        exact (nd_ne hndG4 (by simp [hc2]) h1) rfl
      · intro hc2
        exact (nd_ne hndG4 (by simp [hc2]) h1) rfl
      · intro hc2
        exact (nd_ne hndG4 (by simp [hc2]) h1) rfl
      · intro hc2
        exact (nd_ne hndG4 (by simp [hc2]) h1) rfl
  have hBne : ∀ z, z ∉ WC → (getNode s w).right ≠ some z := by
    intro z hz hb
    obtain ⟨-, -, -, hbmem⟩ := VT_some_inv (hb ▸ hWC)
    exact hz hbmem
  have hfrne : ∀ z, (∀ q2 ∈ pre ++ post, q2 ≠ z) →
      holePar h2 ≠ some z := by
    intro z hz hc2
    obtain ⟨si2, hsl⟩ := holePar_slot hc2
    have hm := PT_frame_mem (hsl ▸ hup2)
    exact hz z hm rfl
  have hxneW : x ≠ w := fun he => (hlq x hxmem).2.1 he
  have hxneP : x ≠ p := fun he => (hlq x hxmem).1 he
  have hilcx : is_left_child s x = false := by
    simp [is_left_child, is_root, hxpar, hplw]
    exact fun he => hxneW he.symm
  set s2 := updNode s w (fun n =>
    { n with color := (getNode s p).color }) with hs2def
  set s3 := set_black s2 p with hs3def
  set s4 := set_black s3 c with hs4def
  have hlen2 : s2.nodes.length = s.nodes.length := by
    rw [hs2def, nodes_length_updNode]
  have hlen3 : s3.nodes.length = s.nodes.length := by
    rw [hs3def]
    unfold set_black
    rw [nodes_length_updNode, hlen2]
  have hlen4 : s4.nodes.length = s.nodes.length := by
    rw [hs4def]
    unfold set_black
    rw [nodes_length_updNode, hlen3]
  have hs4z : ∀ z, z ≠ w → z ≠ p → z ≠ c →
      getNode s4 z = getNode s z := by
    intro z h1 h2b h3
    rw [hs4def, getNode_set_black_ne _ _ _ h3, hs3def,
      getNode_set_black_ne _ _ _ h2b, hs2def,
      getNode_updNode_ne _ _ _ _ h1]
  have hs4p : getNode s4 p = { getNode s p with color := BLACK } := by
    rw [hs4def, getNode_set_black_ne _ _ _ hpc, hs3def,
      getNode_set_black_self _ _ (by rw [hlen2]; exact hplen),
      hs2def, getNode_updNode_ne _ _ _ _ hpw]
  have hs4w : getNode s4 w =
      { getNode s w with color := (getNode s p).color } := by
    rw [hs4def, getNode_set_black_ne _ _ _ hwc, hs3def,
      getNode_set_black_ne _ _ _ (Ne.symm hpw), hs2def,
      getNode_updNode_self _ _ _ hwlen]
  have hs4c : getNode s4 c = { getNode s c with color := BLACK } := by
    rw [hs4def, getNode_set_black_self _ _ (by rw [hlen3]; exact hclen),
      hs3def, getNode_set_black_ne _ _ _ (Ne.symm hpc), hs2def,
      getNode_updNode_ne _ _ _ _ (Ne.symm hwc)]
  have hs4root : s4.root = s.root := rfl
  have hbfB : ∀ b, (getNode s w).right = some b →
      b ≠ p ∧ b ≠ w ∧ b < s4.nodes.length := by
    intro b hb
    obtain ⟨-, -, hblen, hbmem⟩ := VT_some_inv (hb ▸ hWC)
    exact ⟨(hWCq b hbmem).1, (hWCq b hbmem).2.1,
      by rw [hlen4]; exact hblen⟩
  have hqqf : ∀ qq, holePar h2 = some qq → qq ≠ p ∧ qq ≠ w ∧
      (∀ b, (getNode s w).right = some b → qq ≠ b) ∧
      qq < s4.nodes.length := by
    intro qq hq2
    obtain ⟨si2, hsl⟩ := holePar_slot hq2
    have hm := PT_frame_mem (hsl ▸ hup2)
    refine ⟨(hfrq qq hm).1, (hfrq qq hm).2.1, ?_,
      by rw [hlen4]; exact PT_mem_len hup2 qq hm⟩
    intro b hb
    obtain ⟨-, -, -, hbmem⟩ := VT_some_inv (hb ▸ hWC)
    exact fun he => (hfrq qq hm).2.2.2.2.1 (he ▸ hbmem)
  obtain ⟨T, hTrun, hTadm, hTrng, hTroot, hTg, hTp, hTb, hTq, hTz⟩ :=
    rotate_right_ptr s4 p w ((getNode s w).right) (holePar h2)
      (by rw [hlen4]; exact hplen) (by rw [hlen4]; exact hwlen)
      (Ne.symm hpw) (by rw [hs4p]; exact hplw) (by rw [hs4w]) hbfB
      (by rw [hs4p]; exact hpar3) hqqf
  have hTlen : T.nodes.length = s.nodes.length := by
    rw [hTadm.2.2.2.2.2, hlen4]
  have hTpr2 : (getNode T p).right = some x := by
    rw [hTg, hs4p]
    exact hprx
  have hTpl2 : (getNode T p).left = (getNode s w).right := by rw [hTg]
  have hTppar : (getNode T p).parent = some w := by rw [hTg]
  have hTpcol : (getNode T p).color = BLACK := by rw [hTg, hs4p]
  have hTwr : (getNode T w).right = some p := by rw [hTp]
  have hTwl : (getNode T w).left = some c := by
    rw [hTp, hs4w]
    exact hwl
  have hTwpar : (getNode T w).parent = holePar h2 := by rw [hTp]
  have hTwcol : (getNode T w).color = (getNode s p).color := by
    rw [hTp, hs4w]
  have hTzS : ∀ z, z ≠ p → z ≠ w → z ≠ c →
      ((getNode s w).right ≠ some z) → (holePar h2 ≠ some z) →
      getNode T z = getNode s z := by
    intro z h1 h2b h3 h4 h5
    rw [hTz z h1 h2b h4 h5]
    exact hs4z z h2b h1 h3
  have hTc : getNode T c = { getNode s c with color := BLACK } := by
    have hcWC : c ∉ WC := by
      intro hm
      have hcA : c ∈ pre ++ (CL ++ (c :: CR)) := by simp
      exact (nd_ne hndG2 hcA (by simp [hm])) rfl
    rw [hTz c (Ne.symm hpc) (Ne.symm hwc) (hBne c hcWC)
      (hfrne c (fun q2 hq2 => (hfrq q2 hq2).2.2.1))]
    exact hs4c
  have hTb2 : ∀ b, (getNode s w).right = some b →
      getNode T b = { getNode s b with parent := some p } := by
    intro b hb
    obtain ⟨-, -, -, hbmem⟩ := VT_some_inv (hb ▸ hWC)
    have h8 := hTb b hb
    rw [h8, hs4z b (hWCq b hbmem).2.1 (hWCq b hbmem).1
      (hWCq b hbmem).2.2.1]
  have hTfr : ∀ qq, holePar h2 = some qq →
      getNode T qq = (if (getNode s qq).left = some p
        then { getNode s qq with left := some w }
        else { getNode s qq with right := some w }) := by
    intro qq hq2
    obtain ⟨hq1, hq2b, -, -⟩ := hqqf qq hq2
    have h9 := hTq qq hq2
    obtain ⟨si2, hsl⟩ := holePar_slot hq2
    have hm := PT_frame_mem (hsl ▸ hup2)
    rw [hs4z qq hq2b hq1 (hfrq qq hm).2.2.1] at h9
    exact h9
  have hDT_T : DT T x0 x (some p) v l := by
    refine DT_congr (by rw [hTlen]) hDT ?_
    intro q hq
    exact sEq_of_eq (hTzS q (hlq q hq).1 (hlq q hq).2.1
      (hlq q hq).2.2.1 (hBne q (hlq q hq).2.2.2.1)
      (hfrne q (fun q2 hq2 he => ((hfrq q2 hq2).2.2.2.1) (he ▸ hq))))
  obtain ⟨hxpT, hxcT, hxlT, hxmT⟩ := DT_y_facts hDT_T
  have hx0l : x0 ∈ l := by
    obtain ⟨A9, B9, h9⟩ := DT_decomp hDT
    rw [h9]
    simp
  have hpnl : p ∉ l := fun hc2 => (hlq p hc2).1 rfl
  have hx0par : ∃ px0, (getNode T x0).parent = some px0 ∧
      ((px0 = p ∧ x0 = x) ∨ px0 ∈ l) := by
    rcases DT_x_parent_mem hDT_T with hx0x | ⟨px0, hpx1, hpx2, hpx3⟩
    · subst hx0x
      exact ⟨p, hxpT, Or.inl ⟨rfl, rfl⟩⟩
    · exact ⟨px0, hpx1, Or.inr hpx2⟩
  obtain ⟨px0, hxp0, hpx0loc⟩ := hx0par
  have hside : ∃ sideL : Bool,
      (if sideL then (getNode T px0).left else (getNode T px0).right)
        = some x0 ∧ is_left_child T x0 = sideL := by
    by_cases hlc : (getNode T px0).left = some x0
    · exact ⟨true, by simpa using hlc,
        by simp [is_left_child, is_root, hxp0, hlc]⟩
    · have hrc : (getNode T px0).right = some x0 := by
        rcases DT_x_parent_mem hDT_T with hx0x | ⟨px0b, hpx1, hpx2, hpx3⟩
        · have hpeq : px0 = p := by
            rw [hx0x] at hxp0
            rw [hxp0] at hxpT
            exact Option.some.inj hxpT
          subst hpeq
          rw [hx0x]
          exact hTpr2
        · have hpeq : px0b = px0 := by
            rw [hpx1] at hxp0
            exact Option.some.inj hxp0
          subst hpeq
          rcases hpx3 with h3 | h3
          · exact absurd h3 hlc
          · exact h3
      exact ⟨false, by simpa using hrc,
        by simp [is_left_child, is_root, hxp0, hlc]⟩
  obtain ⟨sideL, hxs, hilcT⟩ := hside
  obtain ⟨A2, B2, q, hlAB, hVq, hqcase⟩ :=
    DT_splice hDT_T hndl hxp0 hxs
  set s5 := updNode T px0 (fun n =>
    if sideL then { n with left := none }
    else { n with right := none }) with hs5def
  have hlen5 : s5.nodes.length = s.nodes.length := by
    rw [hs5def, nodes_length_updNode, hTlen]
  have hs5root : s5.root = T.root := rfl
  have hpx0w : px0 ≠ w := by
    rcases hpx0loc with ⟨rfl, -⟩ | hm
    · exact hpw
    · exact (hlq px0 hm).2.1
  have hpx0c : px0 ≠ c := by
    rcases hpx0loc with ⟨rfl, -⟩ | hm
    · exact hpc
    · exact (hlq px0 hm).2.2.1
  have hs5zT : ∀ z, z ≠ px0 → getNode s5 z = getNode T z := by
    intro z hz
    rw [hs5def, getNode_updNode_ne _ _ _ _ hz]
  have hs5zS : ∀ z, z ≠ p → z ≠ w → z ≠ c → z ∉ l →
      ((getNode s w).right ≠ some z) → (holePar h2 ≠ some z) →
      getNode s5 z = getNode s z := by
    intro z h1 h2b h3 h4 h5 h6
    have hzpx : z ≠ px0 := by
      rcases hpx0loc with ⟨rfl, -⟩ | hm
      · exact h1
      · exact fun he => h4 (he ▸ hm)
    rw [hs5zT z hzpx]
    exact hTzS z h1 h2b h3 h5 h6
  have hs5w : getNode s5 w = getNode T w := hs5zT w (Ne.symm hpx0w)
  have hs5c : getNode s5 c = getNode T c := hs5zT c (Ne.symm hpx0c)
  have hpx0p_side : px0 = p → sideL = false := by
    intro he
    subst he
    cases hsl : sideL
    · rfl
    · exfalso
      rw [hsl] at hxs
      simp at hxs
      rw [hTpl2] at hxs
      obtain ⟨-, -, -, hbmem⟩ := VT_some_inv (hxs ▸ hWC)
      exact (hWCq x0 hbmem).2.2.2.1 hx0l
  have hs5p_fields : (getNode s5 p).left = (getNode T p).left ∧
      (getNode s5 p).parent = (getNode T p).parent ∧
      (getNode s5 p).color = (getNode T p).color := by
    by_cases hpp0 : p = px0
    · have hsl := hpx0p_side hpp0.symm
      rw [hs5def, ← hpp0,
        getNode_updNode_self _ _ _ (by rw [hTlen]; exact hplen), hsl]
      exact ⟨rfl, rfl, rfl⟩
    · rw [hs5zT p (fun he => hpp0 he)]
      exact ⟨rfl, rfl, rfl⟩
  have hs5prq : (getNode s5 p).right = q := by
    rcases hqcase with ⟨hx0y, hqn⟩ | ⟨hx0y, hqs⟩
    · have hpeq : px0 = p := by
        rw [hx0y] at hxp0
        rw [hxp0] at hxpT
        exact Option.some.inj hxpT
      have hsl := hpx0p_side hpeq
      rw [hs5def, hpeq,
        getNode_updNode_self _ _ _ (by rw [hTlen]; exact hplen),
        hsl, hqn]
      simp
    · have hpne : p ≠ px0 := by
        intro he
        cases hsl : sideL
        · rw [hsl] at hxs
          simp at hxs
          rw [← he, hTpr2] at hxs
          exact hx0y (Option.some.inj hxs).symm
        · rw [hsl] at hxs
          simp at hxs
          rw [← he, hTpl2] at hxs
          obtain ⟨-, -, -, hbmem⟩ := VT_some_inv (hxs ▸ hWC)
          exact (hWCq x0 hbmem).2.2.2.1 hx0l
      rw [hs5zT p hpne, hTpr2, hqs]
  have hndWC : WC.Nodup := by
    have h5 : (WC ++ (p :: (l ++ post))).Nodup :=
      (List.nodup_cons.mp (List.nodup_append.mp hndG2).2.1).2
    exact (List.nodup_append.mp h5).1
  have hWC5 : VT s5 (getNode s w).right (some p) cc v WC := by
    refine VT_ptr_transfer hWC hndWC hlen5 ?_ ?_
    · intro z hz hzb
      exact sEq_of_eq (hs5zS z (hWCq z hz).1 (hWCq z hz).2.1
        (hWCq z hz).2.2.1 (hWCq z hz).2.2.2.1
        (fun hb => hzb z hb rfl)
        (hfrne z (fun q2 hq2 he =>
          ((hfrq q2 hq2).2.2.2.2.1) (he ▸ hz))))
    · intro b hb
      obtain ⟨-, -, -, hbmem⟩ := VT_some_inv (hb ▸ hWC)
      have hbpx : b ≠ px0 := by
        rcases hpx0loc with ⟨rfl, -⟩ | hm
        · exact (hWCq b hbmem).1
        · exact fun he => (hWCq b hbmem).2.2.2.1 (he ▸ hm)
      rw [hs5zT b hbpx, hTb2 b hb]
      exact ⟨rfl, rfl, rfl, rfl⟩
  have hCL5 : VT s5 (getNode s c).left (some c) ccl v CL :=
    VT_congr hlen5 hCL (fun z hz => sEq_of_eq
      (hs5zS z (hCLq z hz).1 (hCLq z hz).2.1 (hCLq z hz).2.2.1
        (hCLq z hz).2.2.2.1 (hBne z (hCLq z hz).2.2.2.2.1)
        (hfrne z (fun q2 hq2 he =>
          ((hfrq q2 hq2).2.2.2.2.2.1) (he ▸ hz)))))
  have hCR5 : VT s5 (getNode s c).right (some c) ccr v CR :=
    VT_congr hlen5 hCR (fun z hz => sEq_of_eq
      (hs5zS z (hCRq z hz).1 (hCRq z hz).2.1 (hCRq z hz).2.2.1
        (hCRq z hz).2.2.2.1 (hBne z (hCRq z hz).2.2.2.2.1)
        (hfrne z (fun q2 hq2 he =>
          ((hfrq q2 hq2).2.2.2.2.2.2) (he ▸ hz)))))
  have hpn5 : VT s5 (some p) (some w) BLACK (v + 1)
      (WC ++ p :: (A2 ++ B2)) := by
    have hLp : VT s5 (getNode s5 p).left (some p) cc v WC := by
      rw [hs5p_fields.1, hTpl2]
      exact hWC5
    have hRp : VT s5 (getNode s5 p).right (some p) BLACK v (A2 ++ B2) := by
      rw [hs5prq]
      exact hVq
    exact VT_node_black (by rw [hlen5]; exact hplen)
      (by rw [hs5p_fields.2.1]; exact hTppar)
      (by rw [hs5p_fields.2.2]; exact hTpcol) hLp hRp
  have hcn5 : VT s5 (some c) (some w) BLACK (v + 1)
      (CL ++ c :: CR) := by
    have hLc : VT s5 (getNode s5 c).left (some c) ccl v CL := by
      have h6 : (getNode s5 c).left = (getNode s c).left := by
        rw [hs5c, hTc]
      rw [h6]
      exact hCL5
    have hRc : VT s5 (getNode s5 c).right (some c) ccr v CR := by
      have h6 : (getNode s5 c).right = (getNode s c).right := by
        rw [hs5c, hTc]
      rw [h6]
      exact hCR5
    exact VT_node_black (by rw [hlen5]; exact hclen)
      (by rw [hs5c, hTc]; exact hcpar)
      (by rw [hs5c, hTc]) hLc hRc
  have hwn5 := VT.node (s := s5) w (holePar h2) BLACK BLACK (v + 1)
    (CL ++ c :: CR) (WC ++ p :: (A2 ++ B2))
    (by rw [hlen5]; exact hwlen)
    (by rw [hs5w]; exact hTwpar)
    (fun _ => ⟨rfl, rfl⟩)
    (by rw [hs5w, hTwl]; exact hcn5)
    (by rw [hs5w, hTwr]; exact hpn5)
  have hwcol5 : (getNode s5 w).color = (getNode s p).color := by
    rw [hs5w]
    exact hTwcol
  rw [hwcol5] at hwn5
  have hndfr : (pre ++ post).Nodup := by
    refine List.Nodup.sublist ?_ hnd
    exact List.Sublist.append_left (List.sublist_append_right _ _) pre
  have hpnm : p ∉ pre ++ post := fun hc2 => (hfrq p hc2).1 rfl
  have hroot5b : s5.root = (if holePar h2 = none then some w
      else s.root) := by
    rw [hs5root, hTroot, hs4root]
  have hfr5 : ∀ qq, holePar h2 = some qq →
      getNode s5 qq = (if (getNode s qq).left = some p
        then { getNode s qq with left := some w }
        else { getNode s qq with right := some w }) := by
    intro qq hq2
    obtain ⟨si2, hsl⟩ := holePar_slot hq2
    have hm := PT_frame_mem (hsl ▸ hup2)
    have hqpx : qq ≠ px0 := by
      rcases hpx0loc with ⟨rfl, -⟩ | hmm
      · exact (hfrq qq hm).1
      · exact fun he => (hfrq qq hm).2.2.2.1 (he ▸ hmm)
    rw [hs5zT qq hqpx]
    exact hTfr qq hq2
  have hoth5 : ∀ z ∈ pre ++ post, some z ≠ holePar h2 →
      sEq (getNode s5 z) (getNode s z) := by
    intro z hz hzne
    exact sEq_of_eq (hs5zS z (hfrq z hz).1 (hfrq z hz).2.1
      (hfrq z hz).2.2.1 (hfrq z hz).2.2.2.1
      (hBne z (hfrq z hz).2.2.2.2.1)
      (fun hc2 => hzne (by rw [hc2])))
  obtain ⟨hctx5, hhold5⟩ := PT_rot_retarget hup2 hhold2 hndfr hpnm
    hlen5 hroot5b hfr5 hoth5
  have hplugc : ∀ j, holePar h2 = some j →
      (getNode s5 j).color = RED → (getNode s p).color = BLACK := by
    intro j hj hjr
    have hcolj : (getNode s5 j).color = (getNode s j).color := by
      rw [hfr5 j hj]
      split <;> rfl
    have hjrS : (getNode s j).color = RED := by
      rw [← hcolj]
      exact hjr
    by_cases hpc2 : (getNode s p).color = RED
    · exfalso
      have hb2 := hredParp hpc2
      rw [hj] at hb2
      have hb3 := black_of_is_black hb2
      rw [hb3] at hjrS
      exact absurd hjrS (by simp [RED, BLACK])
    · exact color_black_of_not_red hpc2
  obtain ⟨c2, bh2, hvt5⟩ := PT_plug hctx5 hhold5 hwn5 hplugc
  have hrbT : T.root ≠ none ∧ is_black T T.root = true := by
    rcases hh2p : holePar h2 with _ | qq
    · have hT2 : T.root = some w := by
        rw [hTroot, hh2p]
        simp
      have hrp : s.root = some p := by
        have h7 : holeVal s h2 = s.root := by
          cases h2 with
          | root => rfl
          | slot j sj => cases hh2p
        rw [← h7, hhold2]
      have hpb2 : (getNode s p).color = BLACK := by
        rw [hrp] at hrootb
        exact black_of_is_black hrootb
      rw [hT2]
      refine ⟨by simp, ?_⟩
      simp [is_black, hTwcol, hpb2]
    · have hT2 : T.root = s.root := by
        rw [hTroot, hh2p]
        simp only [reduceCtorEq, if_false]
        exact hs4root
      have hd1p : 1 ≤ d1 := by
        obtain ⟨si2, hsl⟩ := holePar_slot hh2p
        rcases Nat.eq_zero_or_pos d1 with h0 | hp2
        · exfalso
          obtain ⟨hh, -, -⟩ := PT_d0 (by rw [h0] at hup2; exact hup2)
          exact absurd (hsl.symm.trans hh) (by simp)
        · exact hp2
      obtain ⟨r2, hr2, hr2mem⟩ := PT_root_mem hup2 hd1p
      rw [hT2, hr2]
      rw [hr2] at hrootb
      have hbb := black_of_is_black hrootb
      refine ⟨by simp, ?_⟩
      by_cases hrq : r2 = qq
      · subst hrq
        have h7 := hTfr r2 hh2p
        have hcol7 : (getNode T r2).color = (getNode s r2).color := by
          rw [h7]
          split <;> rfl
        simp [is_black, hcol7, hbb]
      · have hz := hTzS r2 (hfrq r2 hr2mem).1 (hfrq r2 hr2mem).2.1
          (hfrq r2 hr2mem).2.2.1 (hBne r2 (hfrq r2 hr2mem).2.2.2.2.1)
          (fun hc2 => hrq (Option.some.inj
            (by rw [hh2p] at hc2; exact hc2)).symm)
        simp [is_black, hz, hbb]
  have hgs : get_sibling s x = (getNode s p).left := by
    simp [get_sibling, hxpar, hilcx]
  have hs3p : getNode s3 p = { getNode s p with color := BLACK } := by
    rw [hs3def, getNode_set_black_self _ _ (by rw [hlen2]; exact hplen),
      hs2def, getNode_updNode_ne _ _ _ _ hpw]
  have hxq3 : getNode s3 x = getNode s x := by
    rw [hs3def, getNode_set_black_ne _ _ _ hxneP, hs2def,
      getNode_updNode_ne _ _ _ _ hxneW]
  have hp3l : (getNode s3 p).left = some w := by
    rw [hs3p]
    exact hplw
  have hilc3 : is_left_child s3 x = false := by
    simp [is_left_child, is_root, hxq3, hxpar, hp3l]
    exact fun he => hxneW he.symm
  have hw3l : (getNode s3 w).left = some c := by
    rw [hs3def, getNode_set_black_ne _ _ _ (Ne.symm hpw), hs2def,
      getNode_updNode_self _ _ _ hwlen]
    exact hwl
  have hrun : DR6 s x = .ok T := by
    rw [DR6, hgs, hplw]
    have ht1 : toIdx (some w) = Except.ok w := rfl
    rw [ht1, bind_ok, hxpar]
    have ht2 : toIdx (some p) = Except.ok p := rfl
    rw [ht2, bind_ok]
    show (if is_left_child s3 x = true then do
        let sr ← toIdx (getNode s3 w).right
        let s6 := set_black s3 sr
        rotate_left s6 p
      else do
        let sl ← toIdx (getNode s3 w).left
        let s6 := set_black s3 sl
        rotate_right s6 p) = Except.ok T
    rw [if_neg (by simp [hilc3]), hw3l]
    have ht3 : toIdx (some c) = Except.ok c := rfl
    rw [ht3, bind_ok]
    show rotate_right s4 p = Except.ok T
    exact hTrun
  refine ⟨T, hrun, ?_, ?_, ?_, hrbT.1, hrbT.2, px0,
    pre ++ (((CL ++ c :: CR) ++ w :: WC) ++ p :: A2),
    B2 ++ post, c2, bh2, hxp0, ?_, ?_, ?_⟩
  · refine admEq_trans hTadm ?_
    exact admEq_trans (admEq_updNode _ _ _)
      (admEq_trans (admEq_updNode _ _ _) (admEq_updNode _ _ _))
  · refine rngEq_trans hTrng ?_
    exact rngEq_trans (rngEq_updNode_of _ _ _ (fun n => rfl))
      (rngEq_trans (rngEq_updNode_of _ _ _ (fun n => rfl))
        (rngEq_updNode_of _ _ _ (fun n => rfl)))
  · intro z hz
    refine hTzS z (fun he => hz (by rw [he]; simp))
      (fun he => hz (by rw [he]; simp))
      (fun he => hz (by rw [he]; simp)) ?_ ?_
    · intro hb
      obtain ⟨-, -, -, hbmem⟩ := VT_some_inv (hb ▸ hWC)
      exact hz (by simp [hbmem])
    · intro hc2
      obtain ⟨si2, hsl⟩ := holePar_slot hc2
      have hm := PT_frame_mem (hsl ▸ hup2)
      rcases List.mem_append.mp hm with h1 | h1
      · exact hz (by simp [h1])
      · exact hz (by simp [h1])
  · rw [hilcT]
    exact hxs
  · rw [hlAB]
    simp [List.append_assoc]
  · rw [hilcT]
    have hgoal := hvt5
    rw [hs5def] at hgoal
    have hroots : T.root = s5.root := hs5root.symm
    rw [hroots, hs5def]
    simpa [List.append_assoc] using hgoal

theorem try_insert_rebalance_spec :
    ∀ (fuel : Nat) {d : Nat}, d + 1 ≤ fuel →
      ∀ {s : RBTreeState} {x : Nat} {hx : Hole} {bhx : Nat}
        {lx pre post : List Nat},
      holeVal s hx = some x →
      PT s hx bhx pre post d →
      VT s (some x) (holePar hx) (getNode s x).color bhx lx →
      (getNode s x).color = RED →
      (pre ++ (lx ++ post)).Nodup →
      (d = 0 ∨ is_black s s.root = true) →
      ∃ s', try_insert_rebalance fuel s x = .ok s' ∧
        admEq s' s ∧ rngEq s' s ∧
        (∀ q, q ∉ pre ++ (lx ++ post) → getNode s' q = getNode s q) ∧
        s'.root ≠ none ∧
        is_black s' s'.root = true ∧
        ∃ c2 bh2, VT s' s'.root none c2 bh2 (pre ++ (lx ++ post)) := by
  intro fuel
  induction fuel with
  | zero => intro d hd; omega
  | succ fuel ih =>
    intro d hd s x hx bhx lx pre post hhold hctx hsub hxred hnd hroot
    obtain ⟨hcx, hxpar, hxlen, hxmem⟩ := VT_some_inv hsub
    cases hhx : hx with
    | root =>
      subst hhx
      have hpn : (getNode s x).parent = none := hxpar
      cases hctx with
      | root =>
      have hrun : try_insert_rebalance (fuel + 1) s x = .ok (set_black s x) := by
        rw [try_insert_rebalance, hpn]
        rfl
      have hrootx : s.root = some x := hhold
      cases hsub with
      | node i par cl cr bh0 L R hlen hpar2 hred hL hR =>
      have hnds : (L ++ x :: R).Nodup := by simpa using hnd
      have hxnL : x ∉ L := fun hc =>
        (List.nodup_append.mp hnds).2.2 hc (List.mem_cons_self x R)
      have hxnR : x ∉ R := (List.nodup_cons.mp (List.nodup_append.mp hnds).2.1).1
      have hgx : getNode (set_black s x) x =
          { getNode s x with color := BLACK } := getNode_set_black_self s x hxlen
      have hlen2 : (set_black s x).nodes.length = s.nodes.length := by
        unfold set_black
        rw [nodes_length_updNode]
      have hL2 : VT (set_black s x) (getNode s x).left (some x) cl bh0 L :=
        VT_congr hlen2 hL (fun q hq => sEq_of_eq
          (getNode_set_black_ne s x q (fun hc => hxnL (hc ▸ hq))))
      have hR2 : VT (set_black s x) (getNode s x).right (some x) cr bh0 R :=
        VT_congr hlen2 hR (fun q hq => sEq_of_eq
          (getNode_set_black_ne s x q (fun hc => hxnR (hc ▸ hq))))
      have hnode := VT_node_black (s := set_black s x) (i := x) (o := none)
        (by rw [hlen2]; exact hxlen)
        (by rw [hgx]; exact hpn)
        (by rw [hgx])
        (by rw [hgx]; exact hL2)
        (by rw [hgx]; exact hR2)
      have hroot2 : (set_black s x).root = some x := hrootx
      refine ⟨set_black s x, hrun, admEq_updNode _ _ _,
        rngEq_updNode_of _ _ _ (fun n => rfl), ?_, ?_, ?_, BLACK, bh0 + 1, ?_⟩
      · intro q hq
        exact getNode_set_black_ne s x q (fun hc => hq (by rw [hc]; simp))
      · rw [hroot2]
        simp
      · rw [hroot2]
        simp [is_black, hgx]
      · rw [hroot2]
        simpa using hnode
    | slot p sideX =>
      subst hhx
      have hpp : (getNode s x).parent = some p := hxpar
      have hdge : 1 ≤ d := by
        rcases Nat.eq_zero_or_pos d with h0 | h
        · subst h0
          obtain ⟨hh, -, -⟩ := PT_d0 hctx
          exact absurd hh (by simp)
        · exact h
      have hrootb : is_black s s.root = true := hroot.resolve_left (by omega)
      obtain ⟨r, hrs, hrmem⟩ := PT_root_mem hctx hdge
      by_cases hpb : is_black s (some p) = true
      · have hrun : try_insert_rebalance (fuel + 1) s x = .ok s := by
          rw [try_insert_rebalance, hpp]
          simp only [hpb]
          rfl
        have hplug : ∀ j, holePar (Hole.slot p sideX) = some j →
            (getNode s j).color = RED → (getNode s x).color = BLACK := by
          intro j hj hjr
          have hjp : j = p := by
            have : some p = some j := hj
            injection this.symm
          subst hjp
          exact absurd hjr (not_red_of_is_black hpb)
        obtain ⟨c2, bh2, hvt⟩ := PT_plug hctx hhold hsub hplug
        refine ⟨s, hrun, admEq_refl s, rngEq_refl s, fun q _ => rfl, ?_,
          hrootb, c2, bh2, hvt⟩
        rw [hrs]
        simp
      · have hpred : (getNode s p).color = RED := red_of_not_is_black hpb
        cases hctx with
        | goleft h i cr bh0 pre0 post1 Rp d0 hup hhold2 hplen hpar3 hRp hredRp hredParp =>
          have hpl : (getNode s p).left = some x := hhold
          have hite0 : (bhx + if (getNode s p).color = BLACK then 1 else 0)
              = bhx := by
            rw [hpred]
            simp [RED, BLACK]
          rw [hite0] at hup
          cases h with
          | root =>
            exfalso
            have hrp : s.root = some p := hhold2
            rw [hrp] at hrootb
            exact (not_red_of_is_black hrootb) hpred
          | slot gg sideP =>
          have hggb : is_black s (some gg) = true := hredParp hpred
          have hggbc : (getNode s gg).color = BLACK := black_of_is_black hggb
          have hpgg : (getNode s p).parent = some gg := hpar3
          cases hup with
          | goleft h2 i2 cru bh1 pre1 post2 Ru d1 hup2 hhold3 hgglen hpar4 hu
              hredRu hredParg =>
            have hggl : (getNode s gg).left = some p := hhold2
            have hite1 : (bhx + if (getNode s gg).color = BLACK then 1 else 0)
                = bhx + 1 := by
              rw [hggbc]
              simp [BLACK]
            rw [hite1] at hup2
            have hgp : get_grandparent s x = some gg := by
              simp [get_grandparent, hpp, hpgg]
            have hilc : is_left_child s p = true := by
              simp [is_left_child, is_root, hpgg, hggl]
            have hsib : get_sibling s p = (getNode s gg).right := by
              simp [get_sibling, hpgg, hilc]
            rcases hU : (getNode s gg).right with _ | u
            · have huN : VT s (getNode s gg).right (some gg) cru bhx Ru := hu
              have hu0 : VT s none (some gg) cru bhx Ru := by rw [← hU]; exact hu
              have hcruB : cru = BLACK := (VT_nil_inv hu0).1
              have huncN : get_uncle s x = none := by
                simp [get_uncle, hpp, hgp, hsib, hU]
              have hcondF : (get_uncle s x != none &&
                  is_red s (get_uncle s x)) = false := by
                simp [huncN]
              have hndA : ((pre ++ lx) ++
                  (p :: (Rp ++ (gg :: (Ru ++ post2))))).Nodup := by
                simpa [List.append_assoc] using hnd
              have hndB : ((pre ++ (lx ++ (p :: Rp))) ++
                  (gg :: (Ru ++ post2))).Nodup := by
                simpa [List.append_assoc] using hnd
              have hprx : (getNode s p).right ≠ some x := by
                intro hc
                obtain ⟨-, -, -, hmem2⟩ := VT_some_inv (hc ▸ hRp)
                have hxA : x ∈ pre ++ lx := List.mem_append.mpr (Or.inr hxmem)
                exact (nd_ne hndA hxA (by simp [hmem2])) rfl
              have hggrp : (getNode s gg).right ≠ some p := by
                intro hc
                obtain ⟨-, -, -, hmem2⟩ := VT_some_inv (hc ▸ hu)
                have hpA : p ∈ pre ++ (lx ++ (p :: Rp)) := by simp
                exact (nd_ne hndB hpA (by simp [hmem2])) rfl
              obtain ⟨s5, hTail, hAdm, hRng, hUnt, hRne, hRblk, c2, bh2, hvt5⟩ :=
                TIRtail_left_spec hplen hgglen hpp hpl hpred hpgg hggl hsub hRp
                  hredRp hu hcruB hup2 hhold3 hpar4 hnd hrootb
              have hpbf : is_black s (some p) = false := by
                revert hpb
                cases (is_black s (some p)) <;> simp
              have hrun : try_insert_rebalance (fuel + 1) s x = .ok s5 := by
                rw [try_insert_rebalance, hpp]
                simp only [hpbf, hcondF]
                rw [hgp]
                have ht1 : toIdx (some gg) = Except.ok gg := rfl
                rw [ht1, bind_ok]
                have hic1 : (((getNode s gg).left == some p) &&
                    ((getNode s p).right == some x)) = false := by
                  simp [hprx]
                have hic2 : (((getNode s gg).right == some p) &&
                    ((getNode s p).left == some x)) = false := by
                  simp [hggrp]
                simp only [hic1, hic2]
                have ht2 : (pure (s, x) : Except Err (RBTreeState × Nat)) =
                    Except.ok (s, x) := rfl
                rw [ht2, bind_ok]
                exact hTail
              exact ⟨s5, hrun, hAdm, hRng, hUnt, hRne, hRblk, c2, bh2, hvt5⟩
            · rw [hU] at hu
              by_cases hured : (getNode s u).color = RED
              · obtain ⟨hcru, hupar, hulen, humem⟩ := VT_some_inv hu
                have hndA : ((pre ++ lx) ++
                    (p :: (Rp ++ (gg :: (Ru ++ post2))))).Nodup := by
                  simpa [List.append_assoc] using hnd
                have hndB : ((pre ++ (lx ++ (p :: Rp))) ++
                    (gg :: (Ru ++ post2))).Nodup := by
                  simpa [List.append_assoc] using hnd
                have hndC : ((pre ++ (lx ++ (p :: (Rp ++ [gg])))) ++
                    (Ru ++ post2)).Nodup := by
                  simpa [List.append_assoc] using hnd
                have hndD : ((pre ++ (lx ++ (p :: (Rp ++ (gg :: Ru))))) ++
                    post2).Nodup := by
                  simpa [List.append_assoc] using hnd
                have hxp2 : x ≠ p := nd_ne hndA (by simp [hxmem]) (by simp)
                have hxgg : x ≠ gg := nd_ne hndB (by simp [hxmem]) (by simp)
                have hxu : x ≠ u := nd_ne hndC (by simp [hxmem]) (by simp [humem])
                have hpgg2 : p ≠ gg := nd_ne hndB (by simp) (by simp)
                have hpu : p ≠ u := nd_ne hndC (by simp) (by simp [humem])
                have hggu : gg ≠ u := nd_ne hndC (by simp) (by simp [humem])
                have hlxq : ∀ q ∈ lx, q ≠ p ∧ q ≠ u ∧ q ≠ gg := by
                  intro q hq
                  exact ⟨nd_ne hndA (by simp [hq]) (by simp),
                    nd_ne hndC (by simp [hq]) (by simp [humem]),
                    nd_ne hndB (by simp [hq]) (by simp)⟩
                have hpnotRp : p ∉ Rp ++ (gg :: (Ru ++ post2)) :=
                  (List.nodup_cons.mp (List.nodup_append.mp hndA).2.1).1
                have hRpq : ∀ q ∈ Rp, q ≠ p ∧ q ≠ u ∧ q ≠ gg := by
                  intro q hq
                  refine ⟨fun he => hpnotRp (List.mem_append_left _ (he ▸ hq)),
                    nd_ne hndC (by simp [hq]) (by simp [humem]),
                    nd_ne hndB (by simp [hq]) (by simp)⟩
                have hRuq : ∀ q ∈ Ru, q ≠ p ∧ q ≠ gg := by
                  intro q hq
                  exact ⟨(nd_ne hndC (by simp) (by simp [hq])).symm,
                    (nd_ne hndC (by simp) (by simp [hq])).symm⟩
                have hpreq : ∀ q ∈ pre, q ≠ p ∧ q ≠ u ∧ q ≠ gg := by
                  intro q hq
                  exact ⟨nd_ne hnd hq (by simp), nd_ne hnd hq (by simp [humem]),
                    nd_ne hnd hq (by simp)⟩
                have hpost2q : ∀ q ∈ post2, q ≠ p ∧ q ≠ u ∧ q ≠ gg := by
                  intro q hq
                  exact ⟨(nd_ne hndD (by simp) hq).symm,
                    (nd_ne hndD (by simp [humem]) hq).symm,
                    (nd_ne hndD (by simp) hq).symm⟩
                have hndRu : Ru.Nodup :=
                  (List.nodup_append.mp ((List.nodup_append.mp hndC).2.1)).1
                set s3 := set_red (set_black (set_black s p) u) gg with hs3def
                have hlen3 : s3.nodes.length = s.nodes.length := by
                  rw [hs3def]
                  unfold set_red set_black
                  rw [nodes_length_updNode, nodes_length_updNode,
                    nodes_length_updNode]
                have hs3z : ∀ z, z ≠ p → z ≠ u → z ≠ gg →
                    getNode s3 z = getNode s z := by
                  intro z hzp hzu hzgg
                  rw [hs3def, getNode_set_red_ne _ _ _ hzgg,
                    getNode_set_black_ne _ _ _ hzu, getNode_set_black_ne _ _ _ hzp]
                have hs3p : getNode s3 p = { getNode s p with color := BLACK } := by
                  rw [hs3def, getNode_set_red_ne _ _ _ hpgg2,
                    getNode_set_black_ne _ _ _ hpu, getNode_set_black_self _ _ hplen]
                have hs3u : getNode s3 u = { getNode s u with color := BLACK } := by
                  rw [hs3def, getNode_set_red_ne _ _ _ (Ne.symm hggu),
                    getNode_set_black_self _ _ (by
                      unfold set_black
                      rw [nodes_length_updNode]
                      exact hulen),
                    getNode_set_black_ne _ _ _ (Ne.symm hpu)]
                have hs3gg : getNode s3 gg = { getNode s gg with color := RED } := by
                  rw [hs3def, getNode_set_red_self _ _ (by
                      unfold set_black
                      rw [nodes_length_updNode, nodes_length_updNode]
                      exact hgglen),
                    getNode_set_black_ne _ _ _ hggu,
                    getNode_set_black_ne _ _ _ (Ne.symm hpgg2)]
                have hs3pl : (getNode s3 p).left = some x := by rw [hs3p]; exact hpl
                have hs3pr : (getNode s3 p).right = (getNode s p).right := by
                  rw [hs3p]
                have hs3ppar : (getNode s3 p).parent = some gg := by
                  rw [hs3p]; exact hpgg
                have hs3pcol : (getNode s3 p).color = BLACK := by rw [hs3p]
                have hs3ggl : (getNode s3 gg).left = some p := by
                  rw [hs3gg]; exact hggl
                have hs3ggr : (getNode s3 gg).right = some u := by
                  rw [hs3gg]; exact hU
                have hs3ggpar : (getNode s3 gg).parent = holePar h2 := by
                  rw [hs3gg]; exact hpar4
                have hs3ggcol : (getNode s3 gg).color = RED := by rw [hs3gg]
                have hsub3 : VT s3 (some x) (some p) (getNode s x).color bhx lx :=
                  VT_congr hlen3 hsub (fun q hq => sEq_of_eq
                    (hs3z q (hlxq q hq).1 (hlxq q hq).2.1 (hlxq q hq).2.2))
                have hRp3 : VT s3 (getNode s p).right (some p) cr bhx Rp :=
                  VT_congr hlen3 hRp (fun q hq => sEq_of_eq
                    (hs3z q (hRpq q hq).1 (hRpq q hq).2.1 (hRpq q hq).2.2))
                have hpn3 := VT_node_black (s := s3) (i := p) (o := some gg)
                  (by rw [hlen3]; exact hplen) hs3ppar hs3pcol
                  (by rw [hs3pl]; exact hsub3)
                  (by rw [hs3pr]; exact hRp3)
                have hu1 : VT (set_black s p) (some u) (some gg) cru bhx Ru :=
                  VT_congr (by unfold set_black; rw [nodes_length_updNode]) hu
                    (fun q hq => sEq_of_eq
                      (getNode_set_black_ne _ _ _ (hRuq q hq).1))
                have hu2 := VT_blacken_root hu1 hndRu
                have hcolu1 : (getNode (set_black s p) u).color = RED := by
                  rw [getNode_set_black_ne _ _ _ (Ne.symm hpu)]
                  exact hured
                have hif2 : (if (getNode (set_black s p) u).color = BLACK
                    then bhx else bhx + 1) = bhx + 1 := by
                  rw [hcolu1]
                  simp [RED, BLACK]
                rw [hif2] at hu2
                have hu3 : VT s3 (some u) (some gg) BLACK (bhx + 1) Ru :=
                  VT_congr (by
                      rw [hlen3]
                      unfold set_black
                      rw [nodes_length_updNode, nodes_length_updNode])
                    hu2 (fun q hq => sEq_of_eq (by
                      rw [hs3def]
                      exact getNode_set_red_ne _ _ _ (hRuq q hq).2))
                have hggn3 := VT_node_red (s := s3) (i := gg) (o := holePar h2)
                  (by rw [hlen3]; exact hgglen) hs3ggpar hs3ggcol rfl rfl
                  (by rw [hs3ggl]; exact hpn3)
                  (by rw [hs3ggr]; exact hu3)
                have hctx3 : PT s3 h2 (bhx + 1) pre post2 d1 :=
                  PT_congr hlen3 rfl hup2 (fun q hq => sEq_of_eq (by
                    rcases List.mem_append.mp hq with hq2 | hq2
                    · exact hs3z q (hpreq q hq2).1 (hpreq q hq2).2.1
                        (hpreq q hq2).2.2
                    · exact hs3z q (hpost2q q hq2).1 (hpost2q q hq2).2.1
                        (hpost2q q hq2).2.2))
                have hslots : ∀ j si, h2 = Hole.slot j si →
                    getNode s3 j = getNode s j := by
                  intro j si hjh
                  have hjm : j ∈ pre ++ post2 := PT_frame_mem (hjh ▸ hup2)
                  rcases List.mem_append.mp hjm with hq2 | hq2
                  · exact hs3z j (hpreq j hq2).1 (hpreq j hq2).2.1 (hpreq j hq2).2.2
                  · exact hs3z j (hpost2q j hq2).1 (hpost2q j hq2).2.1
                      (hpost2q j hq2).2.2
                have hhold4 : holeVal s3 h2 = some gg :=
                  (holeVal_congr (s := s) (t := s3) rfl hslots).trans hhold3
                have hnd3 : (pre ++ (((lx ++ p :: Rp) ++ gg :: Ru) ++ post2)).Nodup := by
                  simpa [List.append_assoc] using hnd
                have hroot3 : d1 = 0 ∨ is_black s3 s3.root = true := by
                  rcases Nat.eq_zero_or_pos d1 with h0 | hpos
                  · exact Or.inl h0
                  · right
                    obtain ⟨r2, hr2, hr2mem⟩ := PT_root_mem hup2 hpos
                    have hr3 : s3.root = s.root := rfl
                    rw [hr3, hr2]
                    rw [hr2] at hrootb
                    have hbb := black_of_is_black hrootb
                    rcases List.mem_append.mp hr2mem with hq2 | hq2
                    · have hz := hs3z r2 (hpreq r2 hq2).1 (hpreq r2 hq2).2.1
                        (hpreq r2 hq2).2.2
                      simp [is_black, hz, hbb]
                    · have hz := hs3z r2 (hpost2q r2 hq2).1 (hpost2q r2 hq2).2.1
                        (hpost2q r2 hq2).2.2
                      simp [is_black, hz, hbb]
                have hsubgg : VT s3 (some gg) (holePar h2) (getNode s3 gg).color
                    (bhx + 1) ((lx ++ p :: Rp) ++ gg :: Ru) := by
                  rw [hs3ggcol]
                  exact hggn3
                obtain ⟨s', hrun2, hadm', hrng', hoff', hrne', hrb', c2, bh2, hvt'⟩ :=
                  ih (by omega) hhold4 hctx3 hsubgg hs3ggcol hnd3 hroot3
                have hpbf : is_black s (some p) = false := by
                  revert hpb
                  cases (is_black s (some p)) <;> simp
                have hgp : get_grandparent s x = some gg := by
                  simp [get_grandparent, hpp, hpgg]
                have hilc : is_left_child s p = true := by
                  simp [is_left_child, is_root, hpgg, hggl]
                have hsib : get_sibling s p = (getNode s gg).right := by
                  simp [get_sibling, hpgg, hilc]
                have hunc : get_uncle s x = some u := by
                  simp [get_uncle, hpp, hgp, hsib, hU]
                have hcond : (get_uncle s x != none &&
                    is_red s (get_uncle s x)) = true := by
                  simp [hunc, is_red, hured]
                have hx2p : (getNode (set_black (set_black s p) u) x).parent
                    = some p := by
                  rw [getNode_set_black_ne _ _ _ hxu,
                    getNode_set_black_ne _ _ _ hxp2]
                  exact hpp
                have hp2g : (getNode (set_black (set_black s p) u) p).parent
                    = some gg := by
                  rw [getNode_set_black_ne _ _ _ hpu,
                    getNode_set_black_self _ _ hplen]
                  exact hpgg
                have hgp2 : get_grandparent (set_black (set_black s p) u) x
                    = some gg := by
                  simp [get_grandparent, hx2p, hp2g]
                have hrun : try_insert_rebalance (fuel + 1) s x =
                    try_insert_rebalance fuel s3 gg := by
                  rw [try_insert_rebalance, hpp]
                  simp only [hpbf, hcond, hunc, Option.getD_some]
                  rw [hgp2]
                  have ht : toIdx (some gg) = Except.ok gg := rfl
                  rw [ht, bind_ok]
                  have hcond2 : (some u != none && is_red s (some u)) = true := by
                    simp [is_red, hured]
                  rw [hcond2, hs3def]
                  simp
                refine ⟨s', by rw [hrun]; exact hrun2, ?_, ?_, ?_, hrne', hrb',
                  c2, bh2, ?_⟩
                · exact admEq_trans hadm' (admEq_trans (admEq_updNode _ _ _)
                    (admEq_trans (admEq_updNode _ _ _) (admEq_updNode _ _ _)))
                · exact rngEq_trans hrng' (rngEq_trans
                    (rngEq_updNode_of _ _ _ (fun n => rfl))
                    (rngEq_trans (rngEq_updNode_of _ _ _ (fun n => rfl))
                      (rngEq_updNode_of _ _ _ (fun n => rfl))))
                · intro q hq
                  have hq2 : q ∉ pre ++ (((lx ++ p :: Rp) ++ gg :: Ru) ++ post2) := by
                    simpa [List.append_assoc] using hq
                  rw [hoff' q hq2]
                  exact hs3z q (fun he => hq (by rw [he]; simp))
                    (fun he => hq (by rw [he]; simp [humem]))
                    (fun he => hq (by rw [he]; simp))
                · simpa [List.append_assoc] using hvt'
              · have hcruB : cru = BLACK := by
                  rw [(VT_some_inv hu).1]
                  exact color_black_of_not_red hured
                rw [← hU] at hu
                have hcondF : (get_uncle s x != none &&
                    is_red s (get_uncle s x)) = false := by
                  have huncB : get_uncle s x = some u := by
                    simp [get_uncle, hpp, hgp, hsib, hU]
                  simp [huncB, is_red, hured]
                have hndA : ((pre ++ lx) ++
                    (p :: (Rp ++ (gg :: (Ru ++ post2))))).Nodup := by
                  simpa [List.append_assoc] using hnd
                have hndB : ((pre ++ (lx ++ (p :: Rp))) ++
                    (gg :: (Ru ++ post2))).Nodup := by
                  simpa [List.append_assoc] using hnd
                have hprx : (getNode s p).right ≠ some x := by
                  intro hc
                  obtain ⟨-, -, -, hmem2⟩ := VT_some_inv (hc ▸ hRp)
                  have hxA : x ∈ pre ++ lx := List.mem_append.mpr (Or.inr hxmem)
                  exact (nd_ne hndA hxA (by simp [hmem2])) rfl
                have hggrp : (getNode s gg).right ≠ some p := by
                  intro hc
                  obtain ⟨-, -, -, hmem2⟩ := VT_some_inv (hc ▸ hu)
                  have hpA : p ∈ pre ++ (lx ++ (p :: Rp)) := by simp
                  exact (nd_ne hndB hpA (by simp [hmem2])) rfl
                obtain ⟨s5, hTail, hAdm, hRng, hUnt, hRne, hRblk, c2, bh2, hvt5⟩ :=
                  TIRtail_left_spec hplen hgglen hpp hpl hpred hpgg hggl hsub hRp
                    hredRp hu hcruB hup2 hhold3 hpar4 hnd hrootb
                have hpbf : is_black s (some p) = false := by
                  revert hpb
                  cases (is_black s (some p)) <;> simp
                have hrun : try_insert_rebalance (fuel + 1) s x = .ok s5 := by
                  rw [try_insert_rebalance, hpp]
                  simp only [hpbf, hcondF]
                  rw [hgp]
                  have ht1 : toIdx (some gg) = Except.ok gg := rfl
                  rw [ht1, bind_ok]
                  have hic1 : (((getNode s gg).left == some p) &&
                      ((getNode s p).right == some x)) = false := by
                    simp [hprx]
                  have hic2 : (((getNode s gg).right == some p) &&
                      ((getNode s p).left == some x)) = false := by
                    simp [hggrp]
                  simp only [hic1, hic2]
                  have ht2 : (pure (s, x) : Except Err (RBTreeState × Nat)) =
                      Except.ok (s, x) := rfl
                  rw [ht2, bind_ok]
                  exact hTail
                exact ⟨s5, hrun, hAdm, hRng, hUnt, hRne, hRblk, c2, bh2, hvt5⟩
          | goright h2 i2 clu bh1 pre1 post2 Lu d1 hup2 hhold3 hgglen hpar4 hu
              hredLu hredParg =>
            have hggr : (getNode s gg).right = some p := hhold2
            have hite1 : (bhx + if (getNode s gg).color = BLACK then 1 else 0)
                = bhx + 1 := by
              rw [hggbc]
              simp [BLACK]
            rw [hite1] at hup2
            have hgp : get_grandparent s x = some gg := by
              simp [get_grandparent, hpp, hpgg]
            have hndS : ((pre1 ++ Lu) ++
                (gg :: (lx ++ (p :: (Rp ++ post1))))).Nodup := by
              simpa [List.append_assoc] using hnd
            have hgglp : (getNode s gg).left ≠ some p := by
              intro hc
              obtain ⟨-, -, -, hmem2⟩ := VT_some_inv (hc ▸ hu)
              have hpA : p ∈ pre1 ++ Lu := List.mem_append.mpr (Or.inr hmem2)
              exact (nd_ne hndS hpA (by simp)) rfl
            have hilcF : is_left_child s p = false := by
              simp [is_left_child, is_root, hpgg, hgglp]
            have hsib : get_sibling s p = (getNode s gg).left := by
              simp [get_sibling, hpgg, hilcF]
            by_cases hC : (get_uncle s x != none &&
                is_red s (get_uncle s x)) = true
            · have hC2 := hC
              rw [Bool.and_eq_true] at hC2
              rcases hU : (getNode s gg).left with _ | u
              · exfalso
                have huncN : get_uncle s x = none := by
                  simp [get_uncle, hpp, hgp, hsib, hU]
                rw [huncN] at hC2
                simp at hC2
              · have hunc0 : get_uncle s x = some u := by
                  simp [get_uncle, hpp, hgp, hsib, hU]
                have hured : (getNode s u).color = RED := by
                  have h9 := hC2.2
                  rw [hunc0] at h9
                  simpa [is_red] using h9
                rw [hU] at hu
                obtain ⟨hcru, hupar, hulen, humem⟩ := VT_some_inv hu
                have hndS0 : (pre1 ++ (Lu ++ (gg :: (lx ++ (p ::
                    (Rp ++ post1)))))).Nodup := by
                  simpa [List.append_assoc] using hnd
                have hndS1 : ((pre1 ++ Lu) ++
                    (gg :: (lx ++ (p :: (Rp ++ post1))))).Nodup := by
                  simpa [List.append_assoc] using hnd
                have hndS2 : ((pre1 ++ (Lu ++ (gg :: lx))) ++
                    (p :: (Rp ++ post1))).Nodup := by
                  simpa [List.append_assoc] using hnd
                have hndS3 : ((pre1 ++ (Lu ++ (gg :: (lx ++ (p :: Rp))))) ++
                    post1).Nodup := by
                  simpa [List.append_assoc] using hnd
                have hggnot3 : gg ∉ lx ++ (p :: (Rp ++ post1)) :=
                  (List.nodup_cons.mp (List.nodup_append.mp hndS1).2.1).1
                have hpnot3 : p ∉ Rp ++ post1 :=
                  (List.nodup_cons.mp (List.nodup_append.mp hndS2).2.1).1
                have hxp2 : x ≠ p := nd_ne hndS2 (by simp [hxmem]) (by simp)
                have hxgg : x ≠ gg := fun he => hggnot3 (by rw [← he]; simp [hxmem])
                have hxu : x ≠ u := (nd_ne hndS1 (by simp [humem]) (by simp [hxmem])).symm
                have hpgg2 : p ≠ gg := fun he => hggnot3 (by rw [← he]; simp)
                have hpu : p ≠ u := (nd_ne hndS1 (by simp [humem]) (by simp)).symm
                have hggu : gg ≠ u := (nd_ne hndS1 (by simp [humem]) (by simp)).symm
                have hlxq : ∀ q ∈ lx, q ≠ p ∧ q ≠ u ∧ q ≠ gg := by
                  intro q hq
                  exact ⟨nd_ne hndS2 (by simp [hq]) (by simp),
                    (nd_ne hndS1 (by simp [humem]) (by simp [hq])).symm,
                    fun he => hggnot3 (by rw [← he]; simp [hq])⟩
                have hRpq : ∀ q ∈ Rp, q ≠ p ∧ q ≠ u ∧ q ≠ gg := by
                  intro q hq
                  exact ⟨fun he => hpnot3 (by rw [← he]; simp [hq]),
                    (nd_ne hndS1 (by simp [humem]) (by simp [hq])).symm,
                    fun he => hggnot3 (by rw [← he]; simp [hq])⟩
                have hLuq3 : ∀ q ∈ Lu, q ≠ p ∧ q ≠ gg := by
                  intro q hq
                  exact ⟨nd_ne hndS1 (by simp [hq]) (by simp),
                    nd_ne hndS1 (by simp [hq]) (by simp)⟩
                have hpreq : ∀ q ∈ pre1, q ≠ p ∧ q ≠ u ∧ q ≠ gg := by
                  intro q hq
                  exact ⟨nd_ne hndS0 hq (by simp), nd_ne hndS0 hq (by simp [humem]),
                    nd_ne hndS0 hq (by simp)⟩
                have hpost1q : ∀ q ∈ post1, q ≠ p ∧ q ≠ u ∧ q ≠ gg := by
                  intro q hq
                  exact ⟨(nd_ne hndS3 (by simp) hq).symm,
                    (nd_ne hndS3 (by simp [humem]) hq).symm,
                    (nd_ne hndS3 (by simp) hq).symm⟩
                have hndLu : Lu.Nodup :=
                  (List.nodup_append.mp (List.nodup_append.mp hndS1).1).2.1
                set s3 := set_red (set_black (set_black s p) u) gg with hs3def
                have hlen3 : s3.nodes.length = s.nodes.length := by
                  rw [hs3def]
                  unfold set_red set_black
                  rw [nodes_length_updNode, nodes_length_updNode,
                    nodes_length_updNode]
                have hs3z : ∀ z, z ≠ p → z ≠ u → z ≠ gg →
                    getNode s3 z = getNode s z := by
                  intro z hzp hzu hzgg
                  rw [hs3def, getNode_set_red_ne _ _ _ hzgg,
                    getNode_set_black_ne _ _ _ hzu, getNode_set_black_ne _ _ _ hzp]
                have hs3p : getNode s3 p = { getNode s p with color := BLACK } := by
                  rw [hs3def, getNode_set_red_ne _ _ _ hpgg2,
                    getNode_set_black_ne _ _ _ hpu, getNode_set_black_self _ _ hplen]
                have hs3u : getNode s3 u = { getNode s u with color := BLACK } := by
                  rw [hs3def, getNode_set_red_ne _ _ _ (Ne.symm hggu),
                    getNode_set_black_self _ _ (by
                      unfold set_black
                      rw [nodes_length_updNode]
                      exact hulen),
                    getNode_set_black_ne _ _ _ (Ne.symm hpu)]
                have hs3gg : getNode s3 gg = { getNode s gg with color := RED } := by
                  rw [hs3def, getNode_set_red_self _ _ (by
                      unfold set_black
                      rw [nodes_length_updNode, nodes_length_updNode]
                      exact hgglen),
                    getNode_set_black_ne _ _ _ hggu,
                    getNode_set_black_ne _ _ _ (Ne.symm hpgg2)]
                have hs3pl : (getNode s3 p).left = some x := by rw [hs3p]; exact hpl
                have hs3pr : (getNode s3 p).right = (getNode s p).right := by
                  rw [hs3p]
                have hs3ppar : (getNode s3 p).parent = some gg := by
                  rw [hs3p]; exact hpgg
                have hs3pcol : (getNode s3 p).color = BLACK := by rw [hs3p]
                have hs3ggl : (getNode s3 gg).left = some u := by
                  rw [hs3gg]; exact hU
                have hs3ggr : (getNode s3 gg).right = some p := by
                  rw [hs3gg]; exact hggr
                have hs3ggpar : (getNode s3 gg).parent = holePar h2 := by
                  rw [hs3gg]; exact hpar4
                have hs3ggcol : (getNode s3 gg).color = RED := by rw [hs3gg]
                have hsub3 : VT s3 (some x) (some p) (getNode s x).color bhx lx :=
                  VT_congr hlen3 hsub (fun q hq => sEq_of_eq
                    (hs3z q (hlxq q hq).1 (hlxq q hq).2.1 (hlxq q hq).2.2))
                have hRp3 : VT s3 (getNode s p).right (some p) cr bhx Rp :=
                  VT_congr hlen3 hRp (fun q hq => sEq_of_eq
                    (hs3z q (hRpq q hq).1 (hRpq q hq).2.1 (hRpq q hq).2.2))
                have hpn3 := VT_node_black (s := s3) (i := p) (o := some gg)
                  (by rw [hlen3]; exact hplen) hs3ppar hs3pcol
                  (by rw [hs3pl]; exact hsub3)
                  (by rw [hs3pr]; exact hRp3)
                have hu1 : VT (set_black s p) (some u) (some gg) clu bhx Lu :=
                  VT_congr (by unfold set_black; rw [nodes_length_updNode]) hu
                    (fun q hq => sEq_of_eq
                      (getNode_set_black_ne _ _ _ (hLuq3 q hq).1))
                have hu2 := VT_blacken_root hu1 hndLu
                have hcolu1 : (getNode (set_black s p) u).color = RED := by
                  rw [getNode_set_black_ne _ _ _ (Ne.symm hpu)]
                  exact hured
                have hif2 : (if (getNode (set_black s p) u).color = BLACK
                    then bhx else bhx + 1) = bhx + 1 := by
                  rw [hcolu1]
                  simp [RED, BLACK]
                rw [hif2] at hu2
                have hu3 : VT s3 (some u) (some gg) BLACK (bhx + 1) Lu :=
                  VT_congr (by
                      rw [hlen3]
                      unfold set_black
                      rw [nodes_length_updNode, nodes_length_updNode])
                    hu2 (fun q hq => sEq_of_eq (by
                      rw [hs3def]
                      exact getNode_set_red_ne _ _ _ (hLuq3 q hq).2))
                have hggn3 := VT_node_red (s := s3) (i := gg) (o := holePar h2)
                  (by rw [hlen3]; exact hgglen) hs3ggpar hs3ggcol rfl rfl
                  (by rw [hs3ggl]; exact hu3)
                  (by rw [hs3ggr]; exact hpn3)
                have hctx3 : PT s3 h2 (bhx + 1) pre1 post1 d1 :=
                  PT_congr hlen3 rfl hup2 (fun q hq => sEq_of_eq (by
                    rcases List.mem_append.mp hq with hq2 | hq2
                    · exact hs3z q (hpreq q hq2).1 (hpreq q hq2).2.1
                        (hpreq q hq2).2.2
                    · exact hs3z q (hpost1q q hq2).1 (hpost1q q hq2).2.1
                        (hpost1q q hq2).2.2))
                have hslots : ∀ j si, h2 = Hole.slot j si →
                    getNode s3 j = getNode s j := by
                  intro j si hjh
                  have hjm : j ∈ pre1 ++ post1 := PT_frame_mem (hjh ▸ hup2)
                  rcases List.mem_append.mp hjm with hq2 | hq2
                  · exact hs3z j (hpreq j hq2).1 (hpreq j hq2).2.1 (hpreq j hq2).2.2
                  · exact hs3z j (hpost1q j hq2).1 (hpost1q j hq2).2.1
                      (hpost1q j hq2).2.2
                have hhold4 : holeVal s3 h2 = some gg :=
                  (holeVal_congr (s := s) (t := s3) rfl hslots).trans hhold3
                have hnd3 : (pre1 ++ ((Lu ++ gg :: (lx ++ p :: Rp)) ++
                    post1)).Nodup := by
                  simpa [List.append_assoc] using hnd
                have hroot3 : d1 = 0 ∨ is_black s3 s3.root = true := by
                  rcases Nat.eq_zero_or_pos d1 with h0 | hpos
                  · exact Or.inl h0
                  · right
                    obtain ⟨r2, hr2, hr2mem⟩ := PT_root_mem hup2 hpos
                    have hr3 : s3.root = s.root := rfl
                    rw [hr3, hr2]
                    rw [hr2] at hrootb
                    have hbb := black_of_is_black hrootb
                    rcases List.mem_append.mp hr2mem with hq2 | hq2
                    · have hz := hs3z r2 (hpreq r2 hq2).1 (hpreq r2 hq2).2.1
                        (hpreq r2 hq2).2.2
                      simp [is_black, hz, hbb]
                    · have hz := hs3z r2 (hpost1q r2 hq2).1 (hpost1q r2 hq2).2.1
                        (hpost1q r2 hq2).2.2
                      simp [is_black, hz, hbb]
                have hsubgg : VT s3 (some gg) (holePar h2) (getNode s3 gg).color
                    (bhx + 1) (Lu ++ gg :: (lx ++ p :: Rp)) := by
                  rw [hs3ggcol]
                  exact hggn3
                obtain ⟨s', hrun2, hadm', hrng', hoff', hrne', hrb', c2, bh2, hvt'⟩ :=
                  ih (by omega) hhold4 hctx3 hsubgg hs3ggcol hnd3 hroot3
                have hpbf : is_black s (some p) = false := by
                  revert hpb
                  cases (is_black s (some p)) <;> simp
                have hunc : get_uncle s x = some u := by
                  simp [get_uncle, hpp, hgp, hsib, hU]
                have hx2p : (getNode (set_black (set_black s p) u) x).parent
                    = some p := by
                  rw [getNode_set_black_ne _ _ _ hxu,
                    getNode_set_black_ne _ _ _ hxp2]
                  exact hpp
                have hp2g : (getNode (set_black (set_black s p) u) p).parent
                    = some gg := by
                  rw [getNode_set_black_ne _ _ _ hpu,
                    getNode_set_black_self _ _ hplen]
                  exact hpgg
                have hgp2 : get_grandparent (set_black (set_black s p) u) x
                    = some gg := by
                  simp [get_grandparent, hx2p, hp2g]
                have hrun : try_insert_rebalance (fuel + 1) s x =
                    try_insert_rebalance fuel s3 gg := by
                  rw [try_insert_rebalance, hpp]
                  simp only [hpbf, hC, hunc, Option.getD_some]
                  rw [hgp2]
                  have ht : toIdx (some gg) = Except.ok gg := rfl
                  rw [ht, bind_ok]
                  have hcond2 : (some u != none && is_red s (some u)) = true := by
                    simp [is_red, hured]
                  rw [hcond2, hs3def]
                  simp
                refine ⟨s', by rw [hrun]; exact hrun2, ?_, ?_, ?_, hrne', hrb',
                  c2, bh2, ?_⟩
                · exact admEq_trans hadm' (admEq_trans (admEq_updNode _ _ _)
                    (admEq_trans (admEq_updNode _ _ _) (admEq_updNode _ _ _)))
                · exact rngEq_trans hrng' (rngEq_trans
                    (rngEq_updNode_of _ _ _ (fun n => rfl))
                    (rngEq_trans (rngEq_updNode_of _ _ _ (fun n => rfl))
                      (rngEq_updNode_of _ _ _ (fun n => rfl))))
                · intro q hq
                  have hq2 : q ∉ pre1 ++ ((Lu ++ gg :: (lx ++ p :: Rp)) ++
                      post1) := by
                    simpa [List.append_assoc] using hq
                  rw [hoff' q hq2]
                  exact hs3z q (fun he => hq (by rw [he]; simp))
                    (fun he => hq (by rw [he]; simp [humem]))
                    (fun he => hq (by rw [he]; simp))
                · simpa [List.append_assoc] using hvt'
            · have hcondF : (get_uncle s x != none &&
                  is_red s (get_uncle s x)) = false := by
                revert hC
                cases (get_uncle s x != none && is_red s (get_uncle s x)) <;>
                  simp
              have hcruB : clu = BLACK := by
                rcases hU : (getNode s gg).left with _ | u
                · have hu0 : VT s none (some gg) clu bhx Lu := by
                    rw [← hU]
                    exact hu
                  exact (VT_nil_inv hu0).1
                · have huncB : get_uncle s x = some u := by
                    simp [get_uncle, hpp, hgp, hsib, hU]
                  have hured : ¬ (getNode s u).color = RED := by
                    intro hred2
                    exact hC (by simp [huncB, is_red, hred2])
                  have hu4 := hu
                  rw [hU] at hu4
                  rw [(VT_some_inv hu4).1]
                  exact color_black_of_not_red hured
              obtain ⟨clx, crx, bh0, Lx, Rx, hlxeq, hbh0, hcx2, hxpar2, hxlen2,
                hredx, hLx, hRx⟩ := VT_node_inv hsub
              have hbh0x : bhx = bh0 := by
                rw [hxred] at hbh0
                simp [RED, BLACK] at hbh0
                omega
              subst hbh0x
              subst hlxeq
              have hndG0 : (pre1 ++ (Lu ++ (gg :: (Lx ++ (x :: (Rx ++ (p ::
                  (Rp ++ post1)))))))).Nodup := by
                simpa [List.append_assoc] using hnd
              have hndG1 : ((pre1 ++ Lu) ++
                  (gg :: (Lx ++ (x :: (Rx ++ (p :: (Rp ++ post1))))))).Nodup := by
                simpa [List.append_assoc] using hnd
              have hndG2 : ((pre1 ++ (Lu ++ (gg :: Lx))) ++
                  (x :: (Rx ++ (p :: (Rp ++ post1))))).Nodup := by
                simpa [List.append_assoc] using hnd
              have hndG3 : ((pre1 ++ (Lu ++ (gg :: (Lx ++ (x :: Rx))))) ++
                  (p :: (Rp ++ post1))).Nodup := by
                simpa [List.append_assoc] using hnd
              have hndG4 : ((pre1 ++ (Lu ++ (gg :: (Lx ++ (x :: (Rx ++
                  (p :: Rp))))))) ++ post1).Nodup := by
                simpa [List.append_assoc] using hnd
              have hggnot2 : gg ∉ Lx ++ (x :: (Rx ++ (p :: (Rp ++ post1)))) :=
                (List.nodup_cons.mp (List.nodup_append.mp hndG1).2.1).1
              have hxnot : x ∉ Rx ++ (p :: (Rp ++ post1)) :=
                (List.nodup_cons.mp (List.nodup_append.mp hndG2).2.1).1
              have hpnot2 : p ∉ Rp ++ post1 :=
                (List.nodup_cons.mp (List.nodup_append.mp hndG3).2.1).1
              have hxp2 : x ≠ p := fun he => hxnot (by rw [he]; simp)
              have hxgg : x ≠ gg := fun he => hggnot2 (by rw [← he]; simp)
              have hpgg2 : p ≠ gg := fun he => hggnot2 (by rw [← he]; simp)
              have hLxq : ∀ q ∈ Lx, q ≠ p ∧ q ≠ x ∧ q ≠ gg ∧ (∀ t ∈ Rx, q ≠ t) := by
                intro q hq
                refine ⟨nd_ne hndG2 (by simp [hq]) (by simp),
                  nd_ne hndG2 (by simp [hq]) (by simp),
                  fun he => hggnot2 (by rw [← he]; simp [hq]), ?_⟩
                intro t ht
                exact nd_ne hndG2 (by simp [hq]) (by simp [ht])
              have hRxq : ∀ q ∈ Rx, q ≠ p ∧ q ≠ x ∧ q ≠ gg := by
                intro q hq
                refine ⟨nd_ne hndG3 (by simp [hq]) (by simp),
                  fun he => hxnot (by rw [← he]; simp [hq]),
                  fun he => hggnot2 (by rw [← he]; simp [hq])⟩
              have hRpq2 : ∀ q ∈ Rp, q ≠ p ∧ q ≠ x ∧ q ≠ gg ∧ (∀ t ∈ Rx, q ≠ t) := by
                intro q hq
                refine ⟨fun he => hpnot2 (by rw [← he]; simp [hq]),
                  fun he => hxnot (by rw [← he]; simp [hq]),
                  fun he => hggnot2 (by rw [← he]; simp [hq]), ?_⟩
                intro t ht
                exact (nd_ne hndG3 (by simp [ht]) (by simp [hq])).symm
              have hLuq2 : ∀ q ∈ Lu, q ≠ p ∧ q ≠ x ∧ q ≠ gg ∧ (∀ t ∈ Rx, q ≠ t) := by
                intro q hq
                refine ⟨nd_ne hndG1 (by simp [hq]) (by simp),
                  nd_ne hndG1 (by simp [hq]) (by simp),
                  nd_ne hndG1 (by simp [hq]) (by simp), ?_⟩
                intro t ht
                exact nd_ne hndG1 (by simp [hq]) (by simp [ht])
              have hfrq : ∀ q ∈ pre1 ++ post1, q ≠ p ∧ q ≠ x ∧ q ≠ gg ∧
                  (∀ t ∈ Rx, q ≠ t) := by
                intro q hq
                rcases List.mem_append.mp hq with h1 | h1
                · refine ⟨nd_ne hndG0 h1 (by simp), nd_ne hndG0 h1 (by simp),
                    nd_ne hndG0 h1 (by simp), ?_⟩
                  intro t ht
                  exact nd_ne hndG0 h1 (by simp [ht])
                · refine ⟨(nd_ne hndG4 (by simp) h1).symm,
                    (nd_ne hndG4 (by simp) h1).symm,
                    (nd_ne hndG4 (by simp) h1).symm, ?_⟩
                  intro t ht
                  exact (nd_ne hndG4 (by simp [ht]) h1).symm
              have hndRx : Rx.Nodup := by
                have h5 := (List.nodup_cons.mp (List.nodup_append.mp hndG2).2.1).2
                exact (List.nodup_append.mp h5).1
              have hbfx : ∀ b, (getNode s x).right = some b →
                  b ≠ p ∧ b ≠ x ∧ b < s.nodes.length := by
                intro b hb
                obtain ⟨-, -, hblen, hbmem⟩ := VT_some_inv (hb ▸ hRx)
                exact ⟨(hRxq b hbmem).1, (hRxq b hbmem).2.1, hblen⟩
              have hqqx : ∀ qq, (some gg : Option Nat) = some qq → qq ≠ p ∧ qq ≠ x ∧
                  (∀ b, (getNode s x).right = some b → qq ≠ b) ∧
                  qq < s.nodes.length := by
                intro qq hqq
                have hqg : qq = gg := by injection hqq with h3; exact h3.symm
                subst hqg
                refine ⟨Ne.symm hpgg2, Ne.symm hxgg, ?_, hgglen⟩
                intro b hb
                obtain ⟨-, -, -, hbmem⟩ := VT_some_inv (hb ▸ hRx)
                exact Ne.symm ((hRxq b hbmem).2.2)
              obtain ⟨T1, hT1run, hT1adm, hT1rng, hT1root, hT1p, hT1x, hT1b,
                hT1q, hT1z⟩ :=
                rotate_right_ptr s p x (getNode s x).right (some gg)
                  hplen hxlen hxp2 hpl rfl hbfx hpgg hqqx
              have hT1len : T1.nodes.length = s.nodes.length := hT1adm.2.2.2.2.2
              have hT1gg : getNode T1 gg = { getNode s gg with right := some x } := by
                have h6 := hT1q gg rfl
                rw [if_neg hgglp] at h6
                exact h6
              have hT1ggl : (getNode T1 gg).left = (getNode s gg).left := by rw [hT1gg]
              have hT1ggr : (getNode T1 gg).right = some x := by rw [hT1gg]
              have hT1ggpar : (getNode T1 gg).parent = (getNode s gg).parent := by
                rw [hT1gg]
              have hT1ggcol : (getNode T1 gg).color = (getNode s gg).color := by
                rw [hT1gg]
              have hT1pl : (getNode T1 p).left = (getNode s x).right := by rw [hT1p]
              have hT1pr : (getNode T1 p).right = (getNode s p).right := by rw [hT1p]
              have hT1ppar : (getNode T1 p).parent = some x := by rw [hT1p]
              have hT1pcol : (getNode T1 p).color = (getNode s p).color := by rw [hT1p]
              have hT1xl : (getNode T1 x).left = (getNode s x).left := by rw [hT1x]
              have hT1xr : (getNode T1 x).right = some p := by rw [hT1x]
              have hT1xpar : (getNode T1 x).parent = some gg := by rw [hT1x]
              have hT1xcol : (getNode T1 x).color = (getNode s x).color := by rw [hT1x]
              have hT1zb : ∀ z, z ≠ p → z ≠ x → z ≠ gg →
                  ((getNode s x).right ≠ some z) → getNode T1 z = getNode s z := by
                intro z h1 h2b h3 h4
                exact hT1z z h1 h2b h4
                  (fun hc => h3 (by injection hc with h5; exact h5.symm))
              have hRxB : VT T1 (getNode s x).right (some p) crx bhx Rx := by
                refine VT_ptr_transfer hRx hndRx hT1len ?_ ?_
                · intro q hq hqb
                  exact sEq_of_eq (hT1zb q (hRxq q hq).1 (hRxq q hq).2.1
                    (hRxq q hq).2.2 (fun hc => hqb q hc rfl))
                · intro b hb
                  have h7 := hT1b b hb
                  rw [h7]
                  exact ⟨rfl, rfl, rfl, rfl⟩
              have hRpT1 : VT T1 (getNode s p).right (some p) cr bhx Rp :=
                VT_congr hT1len hRp (fun q hq => sEq_of_eq
                  (hT1zb q (hRpq2 q hq).1 (hRpq2 q hq).2.1 (hRpq2 q hq).2.2.1
                    (fun hc => by
                      obtain ⟨-, -, -, hbm⟩ := VT_some_inv (hc ▸ hRx)
                      exact (hRpq2 q hq).2.2.2 q hbm rfl)))
              have hLxT1 : VT T1 (getNode s x).left (some x) clx bhx Lx :=
                VT_congr hT1len hLx (fun q hq => sEq_of_eq
                  (hT1zb q (hLxq q hq).1 (hLxq q hq).2.1 (hLxq q hq).2.2.1
                    (fun hc => by
                      obtain ⟨-, -, -, hbm⟩ := VT_some_inv (hc ▸ hRx)
                      exact (hLxq q hq).2.2.2 q hbm rfl)))
              have huT1 : VT T1 (getNode s gg).left (some gg) clu bhx Lu :=
                VT_congr hT1len hu (fun q hq => sEq_of_eq
                  (hT1zb q (hLuq2 q hq).1 (hLuq2 q hq).2.1 (hLuq2 q hq).2.2.1
                    (fun hc => by
                      obtain ⟨-, -, -, hbm⟩ := VT_some_inv (hc ▸ hRx)
                      exact (hLuq2 q hq).2.2.2 q hbm rfl)))
              have hsubp : VT T1 (some p) (some x) (getNode T1 p).color bhx
                  (Rx ++ p :: Rp) := by
                rw [hT1pcol, hpred]
                exact VT_node_red (s := T1) (i := p) (o := some x)
                  (by rw [hT1len]; exact hplen) hT1ppar
                  (by rw [hT1pcol]; exact hpred)
                  (hredx hxred).2 (hredRp hpred)
                  (by rw [hT1pl]; exact hRxB)
                  (by rw [hT1pr]; exact hRpT1)
              have hrootT1 : T1.root = s.root := by simpa using hT1root
              have hfrz : ∀ j si, h2 = Hole.slot j si →
                  getNode T1 j = getNode s j := by
                intro j si hjh
                have hjm : j ∈ pre1 ++ post1 := PT_frame_mem (hjh ▸ hup2)
                exact hT1zb j (hfrq j hjm).1 (hfrq j hjm).2.1 (hfrq j hjm).2.2.1
                  (fun hc => by
                    obtain ⟨-, -, -, hbm⟩ := VT_some_inv (hc ▸ hRx)
                    exact (hfrq j hjm).2.2.2 j hbm rfl)
              have hctxT1 : PT T1 h2 (bhx + 1) pre1 post1 d1 :=
                PT_congr hT1len hrootT1 hup2 (fun q hq => sEq_of_eq
                  (hT1zb q (hfrq q hq).1 (hfrq q hq).2.1 (hfrq q hq).2.2.1
                    (fun hc => by
                      obtain ⟨-, -, -, hbm⟩ := VT_some_inv (hc ▸ hRx)
                      exact (hfrq q hq).2.2.2 q hbm rfl)))
              have hholdT1 : holeVal T1 h2 = some gg :=
                (holeVal_congr (s := s) (t := T1) hrootT1 hfrz).trans hhold3
              have hpar4T1 : (getNode T1 gg).parent = holePar h2 := by
                rw [hT1ggpar]
                exact hpar4
              have hrbT1 : is_black T1 T1.root = true := by
                rw [hrootT1]
                rcases Nat.eq_zero_or_pos d1 with h0 | hpos
                · obtain ⟨hh, -, -⟩ := PT_d0 (by rw [h0] at hup2; exact hup2)
                  have hrgg : s.root = some gg := by rw [hh] at hhold3; exact hhold3
                  rw [hrgg]
                  simp [is_black, hT1ggcol, hggbc]
                · obtain ⟨r2, hr2, hr2mem⟩ := PT_root_mem hup2 hpos
                  rw [hr2]
                  rw [hr2] at hrootb
                  have hbb := black_of_is_black hrootb
                  have hz := hT1zb r2 (hfrq r2 hr2mem).1 (hfrq r2 hr2mem).2.1
                    (hfrq r2 hr2mem).2.2.1
                    (fun hc => by
                      obtain ⟨-, -, -, hbm⟩ := VT_some_inv (hc ▸ hRx)
                      exact (hfrq r2 hr2mem).2.2.2 r2 hbm rfl)
                  simp [is_black, hz, hbb]
              have hndL : (((pre1 ++ (Lu ++ [gg])) ++ (Lx ++ [x])) ++
                  ((Rx ++ p :: Rp) ++ post1)).Nodup := by
                simpa [List.append_assoc] using hnd
              obtain ⟨s5, hTail, hAdm, hRng, hUnt, hRne, hRblk, c2, bh2, hvt5⟩ :=
                TIRtail_right_spec (s := T1) (x := p) (p := x)
                  (by rw [hT1len]; exact hxlen) (by rw [hT1len]; exact hgglen)
                  hT1ppar hT1xr (by rw [hT1xcol]; exact hxred) hT1xpar hT1ggr
                  hsubp (by rw [hT1xl]; exact hLxT1)
                  (fun h8 => (hredx hxred).1)
                  (by rw [hT1ggl]; exact huT1) hcruB hctxT1 hholdT1 hpar4T1
                  hndL hrbT1
              have hpbf : is_black s (some p) = false := by
                revert hpb
                cases (is_black s (some p)) <;> simp
              have hrun : try_insert_rebalance (fuel + 1) s x = .ok s5 := by
                rw [try_insert_rebalance, hpp]
                simp only [hpbf, hcondF]
                rw [hgp]
                have ht1 : toIdx (some gg) = Except.ok gg := rfl
                rw [ht1, bind_ok]
                have hic1 : ¬ ((((getNode s gg).left == some p) &&
                    ((getNode s p).right == some x)) = true) := by
                  simp [hgglp]
                have hic2 : ((((getNode s gg).right == some p) &&
                    ((getNode s p).left == some x)) = true) := by
                  simp [hggr, hpl]
                rw [if_neg hic1, if_pos hic2]
                rw [hT1run, bind_ok, hT1xr]
                have ht4 : toIdx (some p) = Except.ok p := rfl
                rw [ht4, bind_ok]
                have ht2 : (pure (T1, p) : Except Err (RBTreeState × Nat)) =
                    Except.ok (T1, p) := rfl
                rw [ht2, bind_ok]
                exact hTail
              have hLL : (((pre1 ++ (Lu ++ [gg])) ++ (Lx ++ [x])) ++
                  ((Rx ++ p :: Rp) ++ post1))
                  = (pre1 ++ (Lu ++ [gg])) ++ ((Lx ++ x :: Rx) ++
                    (p :: (Rp ++ post1))) := by
                simp [List.append_assoc]
              refine ⟨s5, hrun, admEq_trans hAdm hT1adm, rngEq_trans hRng hT1rng,
                ?_, hRne, hRblk, c2, bh2, ?_⟩
              · intro q hq
                have hq2 : q ∉ (((pre1 ++ (Lu ++ [gg])) ++ (Lx ++ [x])) ++
                    ((Rx ++ p :: Rp) ++ post1)) := by
                  rw [hLL]
                  exact hq
                rw [hUnt q hq2]
                refine hT1zb q (fun he => hq (by rw [he]; simp))
                  (fun he => hq (by rw [he]; simp))
                  (fun he => hq (by rw [he]; simp)) ?_
                intro hc
                obtain ⟨-, -, -, hbm⟩ := VT_some_inv (hc ▸ hRx)
                exact hq (by simp [hbm])
              · rw [← hLL]
                exact hvt5
        | goright h i cl bh0 pre2 post1 Lp d0 hup hhold2 hplen hpar3 hLp
            hredLp hredParp =>
          have hpr : (getNode s p).right = some x := hhold
          have hite0 : (bhx + if (getNode s p).color = BLACK then 1 else 0)
              = bhx := by
            rw [hpred]
            simp [RED, BLACK]
          rw [hite0] at hup
          cases h with
          | root =>
            exfalso
            have hrp : s.root = some p := hhold2
            rw [hrp] at hrootb
            exact (not_red_of_is_black hrootb) hpred
          | slot gg sideP =>
          have hggb : is_black s (some gg) = true := hredParp hpred
          have hggbc : (getNode s gg).color = BLACK := black_of_is_black hggb
          have hpgg : (getNode s p).parent = some gg := hpar3
          cases hup with
          | goleft h2 i2 cru bh1 pre1 post2 Ru d1 hup2 hhold3 hgglen hpar4 hu
              hredRu hredParg =>
            have hggl : (getNode s gg).left = some p := hhold2
            have hite1 : (bhx + if (getNode s gg).color = BLACK then 1 else 0)
                = bhx + 1 := by
              rw [hggbc]
              simp [BLACK]
            rw [hite1] at hup2
            have hgp : get_grandparent s x = some gg := by
              simp [get_grandparent, hpp, hpgg]
            have hilc : is_left_child s p = true := by
              simp [is_left_child, is_root, hpgg, hggl]
            have hsib : get_sibling s p = (getNode s gg).right := by
              simp [get_sibling, hpgg, hilc]
            by_cases hC : (get_uncle s x != none &&
                is_red s (get_uncle s x)) = true
            · have hC2 := hC
              rw [Bool.and_eq_true] at hC2
              rcases hU : (getNode s gg).right with _ | u
              · exfalso
                have huncN : get_uncle s x = none := by
                  simp [get_uncle, hpp, hgp, hsib, hU]
                rw [huncN] at hC2
                simp at hC2
              · have hunc0 : get_uncle s x = some u := by
                  simp [get_uncle, hpp, hgp, hsib, hU]
                have hured : (getNode s u).color = RED := by
                  have h9 := hC2.2
                  rw [hunc0] at h9
                  simpa [is_red] using h9
                rw [hU] at hu
                obtain ⟨hcru, hupar, hulen, humem⟩ := VT_some_inv hu
                have hndS0 : (pre2 ++ (Lp ++ (p :: (lx ++ (gg ::
                    (Ru ++ post2)))))).Nodup := by
                  simpa [List.append_assoc] using hnd
                have hndS1 : ((pre2 ++ Lp) ++
                    (p :: (lx ++ (gg :: (Ru ++ post2))))).Nodup := by
                  simpa [List.append_assoc] using hnd
                have hndS2 : ((pre2 ++ (Lp ++ (p :: lx))) ++
                    (gg :: (Ru ++ post2))).Nodup := by
                  simpa [List.append_assoc] using hnd
                have hndS3 : ((pre2 ++ (Lp ++ (p :: (lx ++ (gg :: Ru))))) ++
                    post2).Nodup := by
                  simpa [List.append_assoc] using hnd
                have hpnot4 : p ∉ lx ++ (gg :: (Ru ++ post2)) :=
                  (List.nodup_cons.mp (List.nodup_append.mp hndS1).2.1).1
                have hggnot4 : gg ∉ Ru ++ post2 :=
                  (List.nodup_cons.mp (List.nodup_append.mp hndS2).2.1).1
                have hxp2 : x ≠ p := fun he => hpnot4 (by rw [← he]; simp [hxmem])
                have hxgg : x ≠ gg := nd_ne hndS2 (by simp [hxmem]) (by simp)
                have hxu : x ≠ u := nd_ne hndS2 (by simp [hxmem]) (by simp [humem])
                have hpgg2 : p ≠ gg := nd_ne hndS2 (by simp) (by simp)
                have hpu : p ≠ u := nd_ne hndS2 (by simp) (by simp [humem])
                have hggu : gg ≠ u := fun he => hggnot4 (by rw [he]; simp [humem])
                have hlxq : ∀ q ∈ lx, q ≠ p ∧ q ≠ u ∧ q ≠ gg := by
                  intro q hq
                  exact ⟨fun he => hpnot4 (by rw [← he]; simp [hq]),
                    nd_ne hndS2 (by simp [hq]) (by simp [humem]),
                    nd_ne hndS2 (by simp [hq]) (by simp)⟩
                have hLpq : ∀ q ∈ Lp, q ≠ p ∧ q ≠ u ∧ q ≠ gg := by
                  intro q hq
                  exact ⟨nd_ne hndS1 (by simp [hq]) (by simp),
                    nd_ne hndS2 (by simp [hq]) (by simp [humem]),
                    nd_ne hndS2 (by simp [hq]) (by simp)⟩
                have hRuqC : ∀ q ∈ Ru, q ≠ p ∧ q ≠ gg := by
                  intro q hq
                  exact ⟨fun he => hpnot4 (by rw [← he]; simp [hq]),
                    fun he => hggnot4 (by rw [← he]; simp [hq])⟩
                have hpreq : ∀ q ∈ pre2, q ≠ p ∧ q ≠ u ∧ q ≠ gg := by
                  intro q hq
                  exact ⟨nd_ne hndS0 hq (by simp), nd_ne hndS0 hq (by simp [humem]),
                    nd_ne hndS0 hq (by simp)⟩
                have hpost2q : ∀ q ∈ post2, q ≠ p ∧ q ≠ u ∧ q ≠ gg := by
                  intro q hq
                  exact ⟨(nd_ne hndS3 (by simp) hq).symm,
                    (nd_ne hndS3 (by simp [humem]) hq).symm,
                    (nd_ne hndS3 (by simp) hq).symm⟩
                have hndRu : Ru.Nodup :=
                  (List.nodup_append.mp ((List.nodup_cons.mp
                    (List.nodup_append.mp hndS2).2.1).2)).1
                set s3 := set_red (set_black (set_black s p) u) gg with hs3def
                have hlen3 : s3.nodes.length = s.nodes.length := by
                  rw [hs3def]
                  unfold set_red set_black
                  rw [nodes_length_updNode, nodes_length_updNode,
                    nodes_length_updNode]
                have hs3z : ∀ z, z ≠ p → z ≠ u → z ≠ gg →
                    getNode s3 z = getNode s z := by
                  intro z hzp hzu hzgg
                  rw [hs3def, getNode_set_red_ne _ _ _ hzgg,
                    getNode_set_black_ne _ _ _ hzu, getNode_set_black_ne _ _ _ hzp]
                have hs3p : getNode s3 p = { getNode s p with color := BLACK } := by
                  rw [hs3def, getNode_set_red_ne _ _ _ hpgg2,
                    getNode_set_black_ne _ _ _ hpu, getNode_set_black_self _ _ hplen]
                have hs3u : getNode s3 u = { getNode s u with color := BLACK } := by
                  rw [hs3def, getNode_set_red_ne _ _ _ (Ne.symm hggu),
                    getNode_set_black_self _ _ (by
                      unfold set_black
                      rw [nodes_length_updNode]
                      exact hulen),
                    getNode_set_black_ne _ _ _ (Ne.symm hpu)]
                have hs3gg : getNode s3 gg = { getNode s gg with color := RED } := by
                  rw [hs3def, getNode_set_red_self _ _ (by
                      unfold set_black
                      rw [nodes_length_updNode, nodes_length_updNode]
                      exact hgglen),
                    getNode_set_black_ne _ _ _ hggu,
                    getNode_set_black_ne _ _ _ (Ne.symm hpgg2)]
                have hs3pr : (getNode s3 p).right = some x := by rw [hs3p]; exact hpr
                have hs3plK : (getNode s3 p).left = (getNode s p).left := by
                  rw [hs3p]
                have hs3ppar : (getNode s3 p).parent = some gg := by
                  rw [hs3p]; exact hpgg
                have hs3pcol : (getNode s3 p).color = BLACK := by rw [hs3p]
                have hs3ggl : (getNode s3 gg).left = some p := by
                  rw [hs3gg]; exact hggl
                have hs3ggr : (getNode s3 gg).right = some u := by
                  rw [hs3gg]; exact hU
                have hs3ggpar : (getNode s3 gg).parent = holePar h2 := by
                  rw [hs3gg]; exact hpar4
                have hs3ggcol : (getNode s3 gg).color = RED := by rw [hs3gg]
                have hsub3 : VT s3 (some x) (some p) (getNode s x).color bhx lx :=
                  VT_congr hlen3 hsub (fun q hq => sEq_of_eq
                    (hs3z q (hlxq q hq).1 (hlxq q hq).2.1 (hlxq q hq).2.2))
                have hLp3 : VT s3 (getNode s p).left (some p) cl bhx Lp :=
                  VT_congr hlen3 hLp (fun q hq => sEq_of_eq
                    (hs3z q (hLpq q hq).1 (hLpq q hq).2.1 (hLpq q hq).2.2))
                have hpn3 := VT_node_black (s := s3) (i := p) (o := some gg)
                  (by rw [hlen3]; exact hplen) hs3ppar hs3pcol
                  (by rw [hs3plK]; exact hLp3)
                  (by rw [hs3pr]; exact hsub3)
                have hu1 : VT (set_black s p) (some u) (some gg) cru bhx Ru :=
                  VT_congr (by unfold set_black; rw [nodes_length_updNode]) hu
                    (fun q hq => sEq_of_eq
                      (getNode_set_black_ne _ _ _ (hRuqC q hq).1))
                have hu2 := VT_blacken_root hu1 hndRu
                have hcolu1 : (getNode (set_black s p) u).color = RED := by
                  rw [getNode_set_black_ne _ _ _ (Ne.symm hpu)]
                  exact hured
                have hif2 : (if (getNode (set_black s p) u).color = BLACK
                    then bhx else bhx + 1) = bhx + 1 := by
                  rw [hcolu1]
                  simp [RED, BLACK]
                rw [hif2] at hu2
                have hu3 : VT s3 (some u) (some gg) BLACK (bhx + 1) Ru :=
                  VT_congr (by
                      rw [hlen3]
                      unfold set_black
                      rw [nodes_length_updNode, nodes_length_updNode])
                    hu2 (fun q hq => sEq_of_eq (by
                      rw [hs3def]
                      exact getNode_set_red_ne _ _ _ (hRuqC q hq).2))
                have hggn3 := VT_node_red (s := s3) (i := gg) (o := holePar h2)
                  (by rw [hlen3]; exact hgglen) hs3ggpar hs3ggcol rfl rfl
                  (by rw [hs3ggl]; exact hpn3)
                  (by rw [hs3ggr]; exact hu3)
                have hctx3 : PT s3 h2 (bhx + 1) pre2 post2 d1 :=
                  PT_congr hlen3 rfl hup2 (fun q hq => sEq_of_eq (by
                    rcases List.mem_append.mp hq with hq2 | hq2
                    · exact hs3z q (hpreq q hq2).1 (hpreq q hq2).2.1
                        (hpreq q hq2).2.2
                    · exact hs3z q (hpost2q q hq2).1 (hpost2q q hq2).2.1
                        (hpost2q q hq2).2.2))
                have hslots : ∀ j si, h2 = Hole.slot j si →
                    getNode s3 j = getNode s j := by
                  intro j si hjh
                  have hjm : j ∈ pre2 ++ post2 := PT_frame_mem (hjh ▸ hup2)
                  rcases List.mem_append.mp hjm with hq2 | hq2
                  · exact hs3z j (hpreq j hq2).1 (hpreq j hq2).2.1 (hpreq j hq2).2.2
                  · exact hs3z j (hpost2q j hq2).1 (hpost2q j hq2).2.1
                      (hpost2q j hq2).2.2
                have hhold4 : holeVal s3 h2 = some gg :=
                  (holeVal_congr (s := s) (t := s3) rfl hslots).trans hhold3
                have hnd3 : (pre2 ++ (((Lp ++ p :: lx) ++ gg :: Ru) ++
                    post2)).Nodup := by
                  simpa [List.append_assoc] using hnd
                have hroot3 : d1 = 0 ∨ is_black s3 s3.root = true := by
                  rcases Nat.eq_zero_or_pos d1 with h0 | hpos
                  · exact Or.inl h0
                  · right
                    obtain ⟨r2, hr2, hr2mem⟩ := PT_root_mem hup2 hpos
                    have hr3 : s3.root = s.root := rfl
                    rw [hr3, hr2]
                    rw [hr2] at hrootb
                    have hbb := black_of_is_black hrootb
                    rcases List.mem_append.mp hr2mem with hq2 | hq2
                    · have hz := hs3z r2 (hpreq r2 hq2).1 (hpreq r2 hq2).2.1
                        (hpreq r2 hq2).2.2
                      simp [is_black, hz, hbb]
                    · have hz := hs3z r2 (hpost2q r2 hq2).1 (hpost2q r2 hq2).2.1
                        (hpost2q r2 hq2).2.2
                      simp [is_black, hz, hbb]
                have hsubgg : VT s3 (some gg) (holePar h2) (getNode s3 gg).color
                    (bhx + 1) ((Lp ++ p :: lx) ++ gg :: Ru) := by
                  rw [hs3ggcol]
                  exact hggn3
                obtain ⟨s', hrun2, hadm', hrng', hoff', hrne', hrb', c2, bh2, hvt'⟩ :=
                  ih (by omega) hhold4 hctx3 hsubgg hs3ggcol hnd3 hroot3
                have hpbf : is_black s (some p) = false := by
                  revert hpb
                  cases (is_black s (some p)) <;> simp
                have hunc : get_uncle s x = some u := by
                  simp [get_uncle, hpp, hgp, hsib, hU]
                have hx2p : (getNode (set_black (set_black s p) u) x).parent
                    = some p := by
                  rw [getNode_set_black_ne _ _ _ hxu,
                    getNode_set_black_ne _ _ _ hxp2]
                  exact hpp
                have hp2g : (getNode (set_black (set_black s p) u) p).parent
                    = some gg := by
                  rw [getNode_set_black_ne _ _ _ hpu,
                    getNode_set_black_self _ _ hplen]
                  exact hpgg
                have hgp2 : get_grandparent (set_black (set_black s p) u) x
                    = some gg := by
                  simp [get_grandparent, hx2p, hp2g]
                have hrun : try_insert_rebalance (fuel + 1) s x =
                    try_insert_rebalance fuel s3 gg := by
                  rw [try_insert_rebalance, hpp]
                  simp only [hpbf, hC, hunc, Option.getD_some]
                  rw [hgp2]
                  have ht : toIdx (some gg) = Except.ok gg := rfl
                  rw [ht, bind_ok]
                  have hcond2 : (some u != none && is_red s (some u)) = true := by
                    simp [is_red, hured]
                  rw [hcond2, hs3def]
                  simp
                refine ⟨s', by rw [hrun]; exact hrun2, ?_, ?_, ?_, hrne', hrb',
                  c2, bh2, ?_⟩
                · exact admEq_trans hadm' (admEq_trans (admEq_updNode _ _ _)
                    (admEq_trans (admEq_updNode _ _ _) (admEq_updNode _ _ _)))
                · exact rngEq_trans hrng' (rngEq_trans
                    (rngEq_updNode_of _ _ _ (fun n => rfl))
                    (rngEq_trans (rngEq_updNode_of _ _ _ (fun n => rfl))
                      (rngEq_updNode_of _ _ _ (fun n => rfl))))
                · intro q hq
                  have hq2 : q ∉ pre2 ++ (((Lp ++ p :: lx) ++ gg :: Ru) ++
                      post2) := by
                    simpa [List.append_assoc] using hq
                  rw [hoff' q hq2]
                  exact hs3z q (fun he => hq (by rw [he]; simp))
                    (fun he => hq (by rw [he]; simp [humem]))
                    (fun he => hq (by rw [he]; simp))
                · simpa [List.append_assoc] using hvt'
            · have hcondF : (get_uncle s x != none &&
                  is_red s (get_uncle s x)) = false := by
                revert hC
                cases (get_uncle s x != none && is_red s (get_uncle s x)) <;>
                  simp
              have hcruB : cru = BLACK := by
                rcases hU : (getNode s gg).right with _ | u
                · have hu0 : VT s none (some gg) cru bhx Ru := by
                    rw [← hU]
                    exact hu
                  exact (VT_nil_inv hu0).1
                · have huncB : get_uncle s x = some u := by
                    simp [get_uncle, hpp, hgp, hsib, hU]
                  have hured : ¬ (getNode s u).color = RED := by
                    intro hred2
                    exact hC (by simp [huncB, is_red, hred2])
                  have hu4 := hu
                  rw [hU] at hu4
                  rw [(VT_some_inv hu4).1]
                  exact color_black_of_not_red hured
              obtain ⟨clx, crx, bh0, Lx, Rx, hlxeq, hbh0, hcx2, hxpar2, hxlen2,
                hredx, hLx, hRx⟩ := VT_node_inv hsub
              have hbh0x : bhx = bh0 := by
                rw [hxred] at hbh0
                simp [RED, BLACK] at hbh0
                omega
              subst hbh0x
              subst hlxeq
              have hndG0 : (pre2 ++ (Lp ++ (p :: (Lx ++ (x :: (Rx ++ (gg ::
                  (Ru ++ post2)))))))).Nodup := by
                simpa [List.append_assoc] using hnd
              have hndG1 : ((pre2 ++ Lp) ++
                  (p :: (Lx ++ (x :: (Rx ++ (gg :: (Ru ++ post2))))))).Nodup := by
                simpa [List.append_assoc] using hnd
              have hndG2 : ((pre2 ++ (Lp ++ (p :: Lx))) ++
                  (x :: (Rx ++ (gg :: (Ru ++ post2))))).Nodup := by
                simpa [List.append_assoc] using hnd
              have hndG3 : ((pre2 ++ (Lp ++ (p :: (Lx ++ (x :: Rx))))) ++
                  (gg :: (Ru ++ post2))).Nodup := by
                simpa [List.append_assoc] using hnd
              have hndG4 : ((pre2 ++ (Lp ++ (p :: (Lx ++ (x :: (Rx ++
                  (gg :: Ru))))))) ++ post2).Nodup := by
                simpa [List.append_assoc] using hnd
              have hpnotD : p ∉ Lx ++ (x :: (Rx ++ (gg :: (Ru ++ post2)))) :=
                (List.nodup_cons.mp (List.nodup_append.mp hndG1).2.1).1
              have hxnotD : x ∉ Rx ++ (gg :: (Ru ++ post2)) :=
                (List.nodup_cons.mp (List.nodup_append.mp hndG2).2.1).1
              have hggnotD : gg ∉ Ru ++ post2 :=
                (List.nodup_cons.mp (List.nodup_append.mp hndG3).2.1).1
              have hxp2 : x ≠ p := fun he => hpnotD (by rw [← he]; simp)
              have hxgg : x ≠ gg := nd_ne hndG3 (by simp) (by simp)
              have hpgg2 : p ≠ gg := nd_ne hndG3 (by simp) (by simp)
              have hLxq : ∀ q ∈ Lx, q ≠ p ∧ q ≠ x ∧ q ≠ gg ∧ (∀ t ∈ Rx, q ≠ t) := by
                intro q hq
                refine ⟨fun he => hpnotD (by rw [← he]; simp [hq]),
                  nd_ne hndG2 (by simp [hq]) (by simp),
                  nd_ne hndG3 (by simp [hq]) (by simp), ?_⟩
                intro t ht
                exact nd_ne hndG2 (by simp [hq]) (by simp [ht])
              have hRxq : ∀ q ∈ Rx, q ≠ p ∧ q ≠ x ∧ q ≠ gg := by
                intro q hq
                refine ⟨fun he => hpnotD (by rw [← he]; simp [hq]),
                  fun he => hxnotD (by rw [← he]; simp [hq]),
                  nd_ne hndG3 (by simp [hq]) (by simp)⟩
              have hLpq2 : ∀ q ∈ Lp, q ≠ p ∧ q ≠ x ∧ q ≠ gg ∧
                  (∀ t ∈ Lx, q ≠ t) := by
                intro q hq
                refine ⟨nd_ne hndG1 (by simp [hq]) (by simp),
                  nd_ne hndG2 (by simp [hq]) (by simp),
                  nd_ne hndG3 (by simp [hq]) (by simp), ?_⟩
                intro t ht
                exact nd_ne hndG1 (by simp [hq]) (by simp [ht])
              have hRuq2 : ∀ q ∈ Ru, q ≠ p ∧ q ≠ x ∧ q ≠ gg ∧
                  (∀ t ∈ Lx, q ≠ t) := by
                intro q hq
                refine ⟨fun he => hpnotD (by rw [← he]; simp [hq]),
                  fun he => hxnotD (by rw [← he]; simp [hq]),
                  fun he => hggnotD (by rw [← he]; simp [hq]), ?_⟩
                intro t ht
                exact (nd_ne hndG2 (by simp [ht]) (by simp [hq])).symm
              have hfrq : ∀ q ∈ pre2 ++ post2, q ≠ p ∧ q ≠ x ∧ q ≠ gg ∧
                  (∀ t ∈ Lx, q ≠ t) := by
                intro q hq
                rcases List.mem_append.mp hq with h1 | h1
                · refine ⟨nd_ne hndG0 h1 (by simp), nd_ne hndG0 h1 (by simp),
                    nd_ne hndG0 h1 (by simp), ?_⟩
                  intro t ht
                  exact nd_ne hndG0 h1 (by simp [ht])
                · refine ⟨(nd_ne hndG4 (by simp) h1).symm,
                    (nd_ne hndG4 (by simp) h1).symm,
                    (nd_ne hndG4 (by simp) h1).symm, ?_⟩
                  intro t ht
                  exact (nd_ne hndG4 (by simp [ht]) h1).symm
              have hndLx : Lx.Nodup := by
                have h5 : (Lp ++ (p :: Lx)).Nodup :=
                  (List.nodup_append.mp (List.nodup_append.mp hndG2).1).2.1
                exact (List.nodup_cons.mp (List.nodup_append.mp h5).2.1).2
              have hbfx : ∀ b, (getNode s x).left = some b →
                  b ≠ p ∧ b ≠ x ∧ b < s.nodes.length := by
                intro b hb
                obtain ⟨-, -, hblen, hbmem⟩ := VT_some_inv (hb ▸ hLx)
                exact ⟨(hLxq b hbmem).1, (hLxq b hbmem).2.1, hblen⟩
              have hqqx : ∀ qq, (some gg : Option Nat) = some qq → qq ≠ p ∧ qq ≠ x ∧
                  (∀ b, (getNode s x).left = some b → qq ≠ b) ∧
                  qq < s.nodes.length := by
                intro qq hqq
                have hqg : qq = gg := by injection hqq with h3; exact h3.symm
                subst hqg
                refine ⟨Ne.symm hpgg2, Ne.symm hxgg, ?_, hgglen⟩
                intro b hb
                obtain ⟨-, -, -, hbmem⟩ := VT_some_inv (hb ▸ hLx)
                exact Ne.symm ((hLxq b hbmem).2.2.1)
              obtain ⟨T1, hT1run, hT1adm, hT1rng, hT1root, hT1p, hT1x, hT1b,
                hT1q, hT1z⟩ :=
                rotate_left_ptr s p x (getNode s x).left (some gg)
                  hplen hxlen hxp2 hpr rfl hbfx hpgg hqqx
              have hT1len : T1.nodes.length = s.nodes.length := hT1adm.2.2.2.2.2
              have hT1gg : getNode T1 gg = { getNode s gg with left := some x } := by
                have h6 := hT1q gg rfl
                rw [if_pos hggl] at h6
                exact h6
              have hT1ggl : (getNode T1 gg).left = some x := by rw [hT1gg]
              have hT1ggr : (getNode T1 gg).right = (getNode s gg).right := by
                rw [hT1gg]
              have hT1ggpar : (getNode T1 gg).parent = (getNode s gg).parent := by
                rw [hT1gg]
              have hT1ggcol : (getNode T1 gg).color = (getNode s gg).color := by
                rw [hT1gg]
              have hT1pr2 : (getNode T1 p).right = (getNode s x).left := by
                rw [hT1p]
              have hT1plK : (getNode T1 p).left = (getNode s p).left := by
                rw [hT1p]
              have hT1ppar : (getNode T1 p).parent = some x := by rw [hT1p]
              have hT1pcol : (getNode T1 p).color = (getNode s p).color := by
                rw [hT1p]
              have hT1xl : (getNode T1 x).left = some p := by rw [hT1x]
              have hT1xrK : (getNode T1 x).right = (getNode s x).right := by
                rw [hT1x]
              have hT1xpar : (getNode T1 x).parent = some gg := by rw [hT1x]
              have hT1xcol : (getNode T1 x).color = (getNode s x).color := by
                rw [hT1x]
              have hT1zb : ∀ z, z ≠ p → z ≠ x → z ≠ gg →
                  ((getNode s x).left ≠ some z) → getNode T1 z = getNode s z := by
                intro z h1 h2b h3 h4
                exact hT1z z h1 h2b h4
                  (fun hc => h3 (by injection hc with h5; exact h5.symm))
              have hLxB : VT T1 (getNode s x).left (some p) clx bhx Lx := by
                refine VT_ptr_transfer hLx hndLx hT1len ?_ ?_
                · intro q hq hqb
                  exact sEq_of_eq (hT1zb q (hLxq q hq).1 (hLxq q hq).2.1
                    (hLxq q hq).2.2.1 (fun hc => hqb q hc rfl))
                · intro b hb
                  have h7 := hT1b b hb
                  rw [h7]
                  exact ⟨rfl, rfl, rfl, rfl⟩
              have hLpT1 : VT T1 (getNode s p).left (some p) cl bhx Lp :=
                VT_congr hT1len hLp (fun q hq => sEq_of_eq
                  (hT1zb q (hLpq2 q hq).1 (hLpq2 q hq).2.1 (hLpq2 q hq).2.2.1
                    (fun hc => by
                      obtain ⟨-, -, -, hbm⟩ := VT_some_inv (hc ▸ hLx)
                      exact (hLpq2 q hq).2.2.2 q hbm rfl)))
              have hRxT1 : VT T1 (getNode s x).right (some x) crx bhx Rx :=
                VT_congr hT1len hRx (fun q hq => sEq_of_eq
                  (hT1zb q (hRxq q hq).1 (hRxq q hq).2.1 (hRxq q hq).2.2
                    (fun hc => by
                      obtain ⟨-, -, -, hbm⟩ := VT_some_inv (hc ▸ hLx)
                      exact (hLxq q hbm).2.2.2 q hq rfl)))
              have huT1 : VT T1 (getNode s gg).right (some gg) cru bhx Ru :=
                VT_congr hT1len hu (fun q hq => sEq_of_eq
                  (hT1zb q (hRuq2 q hq).1 (hRuq2 q hq).2.1 (hRuq2 q hq).2.2.1
                    (fun hc => by
                      obtain ⟨-, -, -, hbm⟩ := VT_some_inv (hc ▸ hLx)
                      exact (hRuq2 q hq).2.2.2 q hbm rfl)))
              have hsubp : VT T1 (some p) (some x) (getNode T1 p).color bhx
                  (Lp ++ p :: Lx) := by
                rw [hT1pcol, hpred]
                exact VT_node_red (s := T1) (i := p) (o := some x)
                  (by rw [hT1len]; exact hplen) hT1ppar
                  (by rw [hT1pcol]; exact hpred)
                  (hredLp hpred) (hredx hxred).1
                  (by rw [hT1plK]; exact hLpT1)
                  (by rw [hT1pr2]; exact hLxB)
              have hrootT1 : T1.root = s.root := by simpa using hT1root
              have hfrz : ∀ j si, h2 = Hole.slot j si →
                  getNode T1 j = getNode s j := by
                intro j si hjh
                have hjm : j ∈ pre2 ++ post2 := PT_frame_mem (hjh ▸ hup2)
                exact hT1zb j (hfrq j hjm).1 (hfrq j hjm).2.1 (hfrq j hjm).2.2.1
                  (fun hc => by
                    obtain ⟨-, -, -, hbm⟩ := VT_some_inv (hc ▸ hLx)
                    exact (hfrq j hjm).2.2.2 j hbm rfl)
              have hctxT1 : PT T1 h2 (bhx + 1) pre2 post2 d1 :=
                PT_congr hT1len hrootT1 hup2 (fun q hq => sEq_of_eq
                  (hT1zb q (hfrq q hq).1 (hfrq q hq).2.1 (hfrq q hq).2.2.1
                    (fun hc => by
                      obtain ⟨-, -, -, hbm⟩ := VT_some_inv (hc ▸ hLx)
                      exact (hfrq q hq).2.2.2 q hbm rfl)))
              have hholdT1 : holeVal T1 h2 = some gg :=
                (holeVal_congr (s := s) (t := T1) hrootT1 hfrz).trans hhold3
              have hpar4T1 : (getNode T1 gg).parent = holePar h2 := by
                rw [hT1ggpar]
                exact hpar4
              have hrbT1 : is_black T1 T1.root = true := by
                rw [hrootT1]
                rcases Nat.eq_zero_or_pos d1 with h0 | hpos
                · obtain ⟨hh, -, -⟩ := PT_d0 (by rw [h0] at hup2; exact hup2)
                  have hrgg : s.root = some gg := by rw [hh] at hhold3; exact hhold3
                  rw [hrgg]
                  simp [is_black, hT1ggcol, hggbc]
                · obtain ⟨r2, hr2, hr2mem⟩ := PT_root_mem hup2 hpos
                  rw [hr2]
                  rw [hr2] at hrootb
                  have hbb := black_of_is_black hrootb
                  have hz := hT1zb r2 (hfrq r2 hr2mem).1 (hfrq r2 hr2mem).2.1
                    (hfrq r2 hr2mem).2.2.1
                    (fun hc => by
                      obtain ⟨-, -, -, hbm⟩ := VT_some_inv (hc ▸ hLx)
                      exact (hfrq r2 hr2mem).2.2.2 r2 hbm rfl)
                  simp [is_black, hz, hbb]
              have hndL : (pre2 ++ ((Lp ++ p :: Lx) ++ x :: (Rx ++ gg ::
                  (Ru ++ post2)))).Nodup := by
                simpa [List.append_assoc] using hnd
              obtain ⟨s5, hTail, hAdm, hRng, hUnt, hRne, hRblk, c2, bh2, hvt5⟩ :=
                TIRtail_left_spec (s := T1) (x := p) (p := x)
                  (by rw [hT1len]; exact hxlen) (by rw [hT1len]; exact hgglen)
                  hT1ppar hT1xl (by rw [hT1xcol]; exact hxred) hT1xpar hT1ggl
                  hsubp (by rw [hT1xrK]; exact hRxT1)
                  (fun h8 => (hredx hxred).2)
                  (by rw [hT1ggr]; exact huT1) hcruB hctxT1 hholdT1 hpar4T1
                  hndL hrbT1
              have hpbf : is_black s (some p) = false := by
                revert hpb
                cases (is_black s (some p)) <;> simp
              have hrun : try_insert_rebalance (fuel + 1) s x = .ok s5 := by
                rw [try_insert_rebalance, hpp]
                simp only [hpbf, hcondF]
                rw [hgp]
                have ht1 : toIdx (some gg) = Except.ok gg := rfl
                rw [ht1, bind_ok]
                have hic1 : ((((getNode s gg).left == some p) &&
                    ((getNode s p).right == some x)) = true) := by
                  simp [hggl, hpr]
                rw [if_pos hic1]
                rw [hT1run, bind_ok, hT1xl]
                have ht4 : toIdx (some p) = Except.ok p := rfl
                rw [ht4, bind_ok]
                have ht2 : (pure (T1, p) : Except Err (RBTreeState × Nat)) =
                    Except.ok (T1, p) := rfl
                rw [ht2, bind_ok]
                exact hTail
              have hLL : (pre2 ++ ((Lp ++ p :: Lx) ++ x :: (Rx ++ gg ::
                  (Ru ++ post2))))
                  = (pre2 ++ (Lp ++ [p])) ++ ((Lx ++ x :: Rx) ++
                    (gg :: (Ru ++ post2))) := by
                simp [List.append_assoc]
              refine ⟨s5, hrun, admEq_trans hAdm hT1adm, rngEq_trans hRng hT1rng,
                ?_, hRne, hRblk, c2, bh2, ?_⟩
              · intro q hq
                have hq2 : q ∉ (pre2 ++ ((Lp ++ p :: Lx) ++ x :: (Rx ++ gg ::
                    (Ru ++ post2)))) := by
                  rw [hLL]
                  exact hq
                rw [hUnt q hq2]
                refine hT1zb q (fun he => hq (by rw [he]; simp))
                  (fun he => hq (by rw [he]; simp))
                  (fun he => hq (by rw [he]; simp)) ?_
                intro hc
                obtain ⟨-, -, -, hbm⟩ := VT_some_inv (hc ▸ hLx)
                exact hq (by simp [hbm])
              · rw [← hLL]
                exact hvt5
          | goright h2 i2 clu bh1 pre1 postX Lu d1 hup2 hhold3 hgglen hpar4 hu
              hredLu hredParg =>
            have hggr : (getNode s gg).right = some p := hhold2
            have hite1 : (bhx + if (getNode s gg).color = BLACK then 1 else 0)
                = bhx + 1 := by
              rw [hggbc]
              simp [BLACK]
            rw [hite1] at hup2
            have hgp : get_grandparent s x = some gg := by
              simp [get_grandparent, hpp, hpgg]
            have hndS : ((pre1 ++ Lu) ++
                (gg :: (Lp ++ (p :: (lx ++ post))))).Nodup := by
              simpa [List.append_assoc] using hnd
            have hgglp : (getNode s gg).left ≠ some p := by
              intro hc
              obtain ⟨-, -, -, hmem2⟩ := VT_some_inv (hc ▸ hu)
              have hpA : p ∈ pre1 ++ Lu := List.mem_append.mpr (Or.inr hmem2)
              exact (nd_ne hndS hpA (by simp)) rfl
            have hilcF : is_left_child s p = false := by
              simp [is_left_child, is_root, hpgg, hgglp]
            have hsib : get_sibling s p = (getNode s gg).left := by
              simp [get_sibling, hpgg, hilcF]
            by_cases hC : (get_uncle s x != none &&
                is_red s (get_uncle s x)) = true
            · have hC2 := hC
              rw [Bool.and_eq_true] at hC2
              rcases hU : (getNode s gg).left with _ | u
              · exfalso
                have huncN : get_uncle s x = none := by
                  simp [get_uncle, hpp, hgp, hsib, hU]
                rw [huncN] at hC2
                simp at hC2
              · have hunc0 : get_uncle s x = some u := by
                  simp [get_uncle, hpp, hgp, hsib, hU]
                have hured : (getNode s u).color = RED := by
                  have h9 := hC2.2
                  rw [hunc0] at h9
                  simpa [is_red] using h9
                rw [hU] at hu
                obtain ⟨hcru, hupar, hulen, humem⟩ := VT_some_inv hu
                have hndS0 : (pre1 ++ (Lu ++ (gg :: (Lp ++ (p ::
                    (lx ++ post)))))).Nodup := by
                  simpa [List.append_assoc] using hnd
                have hndS1 : ((pre1 ++ Lu) ++
                    (gg :: (Lp ++ (p :: (lx ++ post))))).Nodup := by
                  simpa [List.append_assoc] using hnd
                have hndS2 : ((pre1 ++ (Lu ++ (gg :: Lp))) ++
                    (p :: (lx ++ post))).Nodup := by
                  simpa [List.append_assoc] using hnd
                have hndS3 : ((pre1 ++ (Lu ++ (gg :: (Lp ++ (p :: lx))))) ++
                    post).Nodup := by
                  simpa [List.append_assoc] using hnd
                have hggnot5 : gg ∉ Lp ++ (p :: (lx ++ post)) :=
                  (List.nodup_cons.mp (List.nodup_append.mp hndS1).2.1).1
                have hpnot5 : p ∉ lx ++ post :=
                  (List.nodup_cons.mp (List.nodup_append.mp hndS2).2.1).1
                have hxp2 : x ≠ p := fun he => hpnot5 (by rw [← he]; simp [hxmem])
                have hxgg : x ≠ gg := fun he => hggnot5 (by rw [← he]; simp [hxmem])
                have hxu : x ≠ u :=
                  (nd_ne hndS1 (by simp [humem]) (by simp [hxmem])).symm
                have hpgg2 : p ≠ gg := fun he => hggnot5 (by rw [← he]; simp)
                have hpu : p ≠ u := (nd_ne hndS1 (by simp [humem]) (by simp)).symm
                have hggu : gg ≠ u := (nd_ne hndS1 (by simp [humem]) (by simp)).symm
                have hlxq : ∀ q ∈ lx, q ≠ p ∧ q ≠ u ∧ q ≠ gg := by
                  intro q hq
                  exact ⟨fun he => hpnot5 (by rw [← he]; simp [hq]),
                    (nd_ne hndS1 (by simp [humem]) (by simp [hq])).symm,
                    fun he => hggnot5 (by rw [← he]; simp [hq])⟩
                have hLpq : ∀ q ∈ Lp, q ≠ p ∧ q ≠ u ∧ q ≠ gg := by
                  intro q hq
                  exact ⟨nd_ne hndS2 (by simp [hq]) (by simp),
                    (nd_ne hndS1 (by simp [humem]) (by simp [hq])).symm,
                    fun he => hggnot5 (by rw [← he]; simp [hq])⟩
                have hLuq3 : ∀ q ∈ Lu, q ≠ p ∧ q ≠ gg := by
                  intro q hq
                  exact ⟨nd_ne hndS1 (by simp [hq]) (by simp),
                    nd_ne hndS1 (by simp [hq]) (by simp)⟩
                have hpreq : ∀ q ∈ pre1, q ≠ p ∧ q ≠ u ∧ q ≠ gg := by
                  intro q hq
                  exact ⟨nd_ne hndS0 hq (by simp), nd_ne hndS0 hq (by simp [humem]),
                    nd_ne hndS0 hq (by simp)⟩
                have hpost2q : ∀ q ∈ post, q ≠ p ∧ q ≠ u ∧ q ≠ gg := by
                  intro q hq
                  exact ⟨(nd_ne hndS3 (by simp) hq).symm,
                    (nd_ne hndS3 (by simp [humem]) hq).symm,
                    (nd_ne hndS3 (by simp) hq).symm⟩
                have hndLu : Lu.Nodup :=
                  (List.nodup_append.mp (List.nodup_append.mp hndS1).1).2.1
                set s3 := set_red (set_black (set_black s p) u) gg with hs3def
                have hlen3 : s3.nodes.length = s.nodes.length := by
                  rw [hs3def]
                  unfold set_red set_black
                  rw [nodes_length_updNode, nodes_length_updNode,
                    nodes_length_updNode]
                have hs3z : ∀ z, z ≠ p → z ≠ u → z ≠ gg →
                    getNode s3 z = getNode s z := by
                  intro z hzp hzu hzgg
                  rw [hs3def, getNode_set_red_ne _ _ _ hzgg,
                    getNode_set_black_ne _ _ _ hzu, getNode_set_black_ne _ _ _ hzp]
                have hs3p : getNode s3 p = { getNode s p with color := BLACK } := by
                  rw [hs3def, getNode_set_red_ne _ _ _ hpgg2,
                    getNode_set_black_ne _ _ _ hpu, getNode_set_black_self _ _ hplen]
                have hs3u : getNode s3 u = { getNode s u with color := BLACK } := by
                  rw [hs3def, getNode_set_red_ne _ _ _ (Ne.symm hggu),
                    getNode_set_black_self _ _ (by
                      unfold set_black
                      rw [nodes_length_updNode]
                      exact hulen),
                    getNode_set_black_ne _ _ _ (Ne.symm hpu)]
                have hs3gg : getNode s3 gg = { getNode s gg with color := RED } := by
                  rw [hs3def, getNode_set_red_self _ _ (by
                      unfold set_black
                      rw [nodes_length_updNode, nodes_length_updNode]
                      exact hgglen),
                    getNode_set_black_ne _ _ _ hggu,
                    getNode_set_black_ne _ _ _ (Ne.symm hpgg2)]
                have hs3pr : (getNode s3 p).right = some x := by rw [hs3p]; exact hpr
                have hs3plK : (getNode s3 p).left = (getNode s p).left := by
                  rw [hs3p]
                have hs3ppar : (getNode s3 p).parent = some gg := by
                  rw [hs3p]; exact hpgg
                have hs3pcol : (getNode s3 p).color = BLACK := by rw [hs3p]
                have hs3ggl : (getNode s3 gg).left = some u := by
                  rw [hs3gg]; exact hU
                have hs3ggr : (getNode s3 gg).right = some p := by
                  rw [hs3gg]; exact hggr
                have hs3ggpar : (getNode s3 gg).parent = holePar h2 := by
                  rw [hs3gg]; exact hpar4
                have hs3ggcol : (getNode s3 gg).color = RED := by rw [hs3gg]
                have hsub3 : VT s3 (some x) (some p) (getNode s x).color bhx lx :=
                  VT_congr hlen3 hsub (fun q hq => sEq_of_eq
                    (hs3z q (hlxq q hq).1 (hlxq q hq).2.1 (hlxq q hq).2.2))
                have hLp3 : VT s3 (getNode s p).left (some p) cl bhx Lp :=
                  VT_congr hlen3 hLp (fun q hq => sEq_of_eq
                    (hs3z q (hLpq q hq).1 (hLpq q hq).2.1 (hLpq q hq).2.2))
                have hpn3 := VT_node_black (s := s3) (i := p) (o := some gg)
                  (by rw [hlen3]; exact hplen) hs3ppar hs3pcol
                  (by rw [hs3plK]; exact hLp3)
                  (by rw [hs3pr]; exact hsub3)
                have hu1 : VT (set_black s p) (some u) (some gg) clu bhx Lu :=
                  VT_congr (by unfold set_black; rw [nodes_length_updNode]) hu
                    (fun q hq => sEq_of_eq
                      (getNode_set_black_ne _ _ _ (hLuq3 q hq).1))
                have hu2 := VT_blacken_root hu1 hndLu
                have hcolu1 : (getNode (set_black s p) u).color = RED := by
                  rw [getNode_set_black_ne _ _ _ (Ne.symm hpu)]
                  exact hured
                have hif2 : (if (getNode (set_black s p) u).color = BLACK
                    then bhx else bhx + 1) = bhx + 1 := by
                  rw [hcolu1]
                  simp [RED, BLACK]
                rw [hif2] at hu2
                have hu3 : VT s3 (some u) (some gg) BLACK (bhx + 1) Lu :=
                  VT_congr (by
                      rw [hlen3]
                      unfold set_black
                      rw [nodes_length_updNode, nodes_length_updNode])
                    hu2 (fun q hq => sEq_of_eq (by
                      rw [hs3def]
                      exact getNode_set_red_ne _ _ _ (hLuq3 q hq).2))
                have hggn3 := VT_node_red (s := s3) (i := gg) (o := holePar h2)
                  (by rw [hlen3]; exact hgglen) hs3ggpar hs3ggcol rfl rfl
                  (by rw [hs3ggl]; exact hu3)
                  (by rw [hs3ggr]; exact hpn3)
                have hctx3 : PT s3 h2 (bhx + 1) pre1 post d1 :=
                  PT_congr hlen3 rfl hup2 (fun q hq => sEq_of_eq (by
                    rcases List.mem_append.mp hq with hq2 | hq2
                    · exact hs3z q (hpreq q hq2).1 (hpreq q hq2).2.1
                        (hpreq q hq2).2.2
                    · exact hs3z q (hpost2q q hq2).1 (hpost2q q hq2).2.1
                        (hpost2q q hq2).2.2))
                have hslots : ∀ j si, h2 = Hole.slot j si →
                    getNode s3 j = getNode s j := by
                  intro j si hjh
                  have hjm : j ∈ pre1 ++ post := PT_frame_mem (hjh ▸ hup2)
                  rcases List.mem_append.mp hjm with hq2 | hq2
                  · exact hs3z j (hpreq j hq2).1 (hpreq j hq2).2.1 (hpreq j hq2).2.2
                  · exact hs3z j (hpost2q j hq2).1 (hpost2q j hq2).2.1
                      (hpost2q j hq2).2.2
                have hhold4 : holeVal s3 h2 = some gg :=
                  (holeVal_congr (s := s) (t := s3) rfl hslots).trans hhold3
                have hnd3 : (pre1 ++ ((Lu ++ gg :: (Lp ++ p :: lx)) ++
                    post)).Nodup := by
                  simpa [List.append_assoc] using hnd
                have hroot3 : d1 = 0 ∨ is_black s3 s3.root = true := by
                  rcases Nat.eq_zero_or_pos d1 with h0 | hpos
                  · exact Or.inl h0
                  · right
                    obtain ⟨r2, hr2, hr2mem⟩ := PT_root_mem hup2 hpos
                    have hr3 : s3.root = s.root := rfl
                    rw [hr3, hr2]
                    rw [hr2] at hrootb
                    have hbb := black_of_is_black hrootb
                    rcases List.mem_append.mp hr2mem with hq2 | hq2
                    · have hz := hs3z r2 (hpreq r2 hq2).1 (hpreq r2 hq2).2.1
                        (hpreq r2 hq2).2.2
                      simp [is_black, hz, hbb]
                    · have hz := hs3z r2 (hpost2q r2 hq2).1 (hpost2q r2 hq2).2.1
                        (hpost2q r2 hq2).2.2
                      simp [is_black, hz, hbb]
                have hsubgg : VT s3 (some gg) (holePar h2) (getNode s3 gg).color
                    (bhx + 1) (Lu ++ gg :: (Lp ++ p :: lx)) := by
                  rw [hs3ggcol]
                  exact hggn3
                obtain ⟨s', hrun2, hadm', hrng', hoff', hrne', hrb', c2, bh2, hvt'⟩ :=
                  ih (by omega) hhold4 hctx3 hsubgg hs3ggcol hnd3 hroot3
                have hpbf : is_black s (some p) = false := by
                  revert hpb
                  cases (is_black s (some p)) <;> simp
                have hunc : get_uncle s x = some u := by
                  simp [get_uncle, hpp, hgp, hsib, hU]
                have hx2p : (getNode (set_black (set_black s p) u) x).parent
                    = some p := by
                  rw [getNode_set_black_ne _ _ _ hxu,
                    getNode_set_black_ne _ _ _ hxp2]
                  exact hpp
                have hp2g : (getNode (set_black (set_black s p) u) p).parent
                    = some gg := by
                  rw [getNode_set_black_ne _ _ _ hpu,
                    getNode_set_black_self _ _ hplen]
                  exact hpgg
                have hgp2 : get_grandparent (set_black (set_black s p) u) x
                    = some gg := by
                  simp [get_grandparent, hx2p, hp2g]
                have hrun : try_insert_rebalance (fuel + 1) s x =
                    try_insert_rebalance fuel s3 gg := by
                  rw [try_insert_rebalance, hpp]
                  simp only [hpbf, hC, hunc, Option.getD_some]
                  rw [hgp2]
                  have ht : toIdx (some gg) = Except.ok gg := rfl
                  rw [ht, bind_ok]
                  have hcond2 : (some u != none && is_red s (some u)) = true := by
                    simp [is_red, hured]
                  rw [hcond2, hs3def]
                  simp
                refine ⟨s', by rw [hrun]; exact hrun2, ?_, ?_, ?_, hrne', hrb',
                  c2, bh2, ?_⟩
                · exact admEq_trans hadm' (admEq_trans (admEq_updNode _ _ _)
                    (admEq_trans (admEq_updNode _ _ _) (admEq_updNode _ _ _)))
                · exact rngEq_trans hrng' (rngEq_trans
                    (rngEq_updNode_of _ _ _ (fun n => rfl))
                    (rngEq_trans (rngEq_updNode_of _ _ _ (fun n => rfl))
                      (rngEq_updNode_of _ _ _ (fun n => rfl))))
                · intro q hq
                  have hq2 : q ∉ pre1 ++ ((Lu ++ gg :: (Lp ++ p :: lx)) ++
                      post) := by
                    simpa [List.append_assoc] using hq
                  rw [hoff' q hq2]
                  exact hs3z q (fun he => hq (by rw [he]; simp))
                    (fun he => hq (by rw [he]; simp [humem]))
                    (fun he => hq (by rw [he]; simp))
                · simpa [List.append_assoc] using hvt'
            · have hcondF : (get_uncle s x != none &&
                  is_red s (get_uncle s x)) = false := by
                revert hC
                cases (get_uncle s x != none && is_red s (get_uncle s x)) <;>
                  simp
              have hcruB : clu = BLACK := by
                rcases hU : (getNode s gg).left with _ | u
                · have hu0 : VT s none (some gg) clu bhx Lu := by
                    rw [← hU]
                    exact hu
                  exact (VT_nil_inv hu0).1
                · have huncB : get_uncle s x = some u := by
                    simp [get_uncle, hpp, hgp, hsib, hU]
                  have hured : ¬ (getNode s u).color = RED := by
                    intro hred2
                    exact hC (by simp [huncB, is_red, hred2])
                  have hu4 := hu
                  rw [hU] at hu4
                  rw [(VT_some_inv hu4).1]
                  exact color_black_of_not_red hured
              have hndT : ((pre1 ++ (Lu ++ (gg :: Lp))) ++
                  (p :: (lx ++ post))).Nodup := by
                simpa [List.append_assoc] using hnd
              have hplx : (getNode s p).left ≠ some x := by
                intro hc
                obtain ⟨-, -, -, hmem2⟩ := VT_some_inv (hc ▸ hLp)
                have hxB : x ∈ p :: (lx ++ post) := by simp [hxmem]
                exact (nd_ne hndT (by simp [hmem2]) hxB) rfl
              obtain ⟨s5, hTail, hAdm, hRng, hUnt, hRne, hRblk, c2, bh2, hvt5⟩ :=
                TIRtail_right_spec hplen hgglen hpp hpr hpred hpgg hggr hsub hLp
                  hredLp hu hcruB hup2 hhold3 hpar4 hnd hrootb
              have hpbf : is_black s (some p) = false := by
                revert hpb
                cases (is_black s (some p)) <;> simp
              have hrun : try_insert_rebalance (fuel + 1) s x = .ok s5 := by
                rw [try_insert_rebalance, hpp]
                simp only [hpbf, hcondF]
                rw [hgp]
                have ht1 : toIdx (some gg) = Except.ok gg := rfl
                rw [ht1, bind_ok]
                have hic1 : ¬ ((((getNode s gg).left == some p) &&
                    ((getNode s p).right == some x)) = true) := by
                  simp [hgglp]
                have hic2 : ¬ ((((getNode s gg).right == some p) &&
                    ((getNode s p).left == some x)) = true) := by
                  simp [hplx]
                rw [if_neg hic1, if_neg hic2]
                have ht2 : (pure (s, x) : Except Err (RBTreeState × Nat)) =
                    Except.ok (s, x) := rfl
                rw [ht2, bind_ok]
                exact hTail
              exact ⟨s5, hrun, hAdm, hRng, hUnt, hRne, hRblk, c2, bh2, hvt5⟩

/-! ### Claim theorems -/

/-- Claim C1 (code bug): the spec demands the red-black structural
invariants after every successful public mutating call, in particular
after a mid-range split delete.  On the concrete §8 scenario the twelve
inserts succeed and leave a tree satisfying I1-I3, `delete 6` splits
the range `(5,4)` and returns `Success`, yet afterwards invariant I2
fails (the split inserts the red upper node `(7,2)` under the red node
`(13,1)` and, unlike `rb_tree_insert`, never calls
`try_insert_rebalance`). -/
theorem c1_split_delete_breaks_invariants :
    c1_run = .ok ([RB_SUCCESS, RB_SUCCESS, RB_SUCCESS, RB_SUCCESS,
      RB_SUCCESS, RB_SUCCESS, RB_SUCCESS, RB_SUCCESS, RB_SUCCESS,
      RB_SUCCESS, RB_SUCCESS, RB_SUCCESS],
      some true, RB_SUCCESS, some false, some false) := by
  rfl

/-- Claim C2 (code bug): after `clear()` returns `Success` the tree
must be empty with all arena nodes on the free-list.  On a height-3
tree of five singleton nodes the clear loop of the source frees a node
immediately after descending one step, so the two grandchildren of the
root are never recycled: `clear` returns `Success` but `size` is 2,
`is_empty` is false, and the free-list holds only 3 of the 5 nodes. -/
theorem c2_clear_leaves_nodes_behind :
    c2_run = .ok ([RB_SUCCESS, RB_SUCCESS, RB_SUCCESS, RB_SUCCESS,
      RB_SUCCESS], RB_SUCCESS, some 2, false, some 3) := by
  rfl

/-- Claim C7 (code bug): inserting a value already covered by a stored
range must report `FailInsertDuplicate` and leave the tree unchanged.
After `insert 5; insert 6` the tree holds the single range `(5,1)`;
the duplicate test of `try_binary_insert_or_merge` compares only
`value == node->range.value`, so the third `insert 6` returns
`Success` and adds an overlapping node `(6,0)`.  The corruption is
observable: `delete 6` then shrinks only `(5,1)` to `(5,0)` and a
search still finds 6 in the tree. -/
theorem c7_covered_insert_not_reported_duplicate :
    c7_run = .ok ([RB_SUCCESS, RB_SUCCESS, RB_SUCCESS],
      some [(5, 1), (6, 0)], some 2, RB_SUCCESS,
      some [(5, 0), (6, 0)], some 1) := by
  rfl

/-- Claim C3, counterexample: the claim says every listed operation,
`iterator_next` included, returns `NullTree` on a NULL tree handle.
`rb_tree_get_next_rb_node` never inspects the tree handle: called with
a NULL tree it reports `NullNode` (from the NULL iterator), not
`NullTree`. -/
theorem c3_get_next_null_tree_not_nulltree :
    rb_tree_get_next_rb_node 1 none none false false false =
      .ok (RB_FAIL_NULL_NODE, none, none, none) ∧
    RB_FAIL_NULL_NODE ≠ RB_FAIL_NULL_TREE := by
  exact ⟨rfl, by decide⟩

/-- Claim C3 as amended: on a NULL tree handle `create`, `destroy`,
`clear`, `insert`, `delete` and `iterator_first` return `NullTree` and
touch no state, while `iterator_next` performs no tree check at all:
independently of the tree handle it returns `NullNode` when the
iterator handle is NULL, and `NullRange` when the iterator is non-NULL
but the output range pointer is NULL; the state is not modified in
either case. -/
theorem c3_null_handle_behaviour :
    (∀ m allocOk, rb_tree_create m true allocOk = (RB_FAIL_NULL_TREE, none)) ∧
    rb_tree_destroy none = (RB_FAIL_NULL_TREE, none) ∧
    (∀ fuel, rb_tree_clear fuel none = .ok (RB_FAIL_NULL_TREE, none)) ∧
    (∀ fuel v, rb_tree_insert fuel v none = .ok (RB_FAIL_NULL_TREE, none)) ∧
    (∀ fuel v, rb_tree_delete fuel v none = .ok (RB_FAIL_NULL_TREE, none)) ∧
    (∀ fuel it, rb_tree_get_first_rb_node fuel none it =
      .ok (RB_FAIL_NULL_TREE, it, none)) ∧
    (∀ fuel t rangeNull p r, rb_tree_get_next_rb_node fuel t none rangeNull p r =
      .ok (RB_FAIL_NULL_NODE, none, none, t)) ∧
    (∀ fuel t i p r, rb_tree_get_next_rb_node fuel t (some i) true p r =
      .ok (RB_FAIL_NULL_RANGE, some i, none, t)) := by
  exact ⟨fun _ _ => rfl, rfl, fun _ => rfl, fun _ _ => rfl, fun _ _ => rfl,
    fun _ _ => rfl, fun _ _ _ _ _ => rfl, fun _ _ _ _ _ => rfl⟩

/-- Claim C8, counterexample: the claim allows every capacity up to
`(2^32 / 2) + 1 = 2147483649`, but `MAX_TREE_SIZE` in the source is
`(UINT32_MAX / 2) + 1 = 2147483648`, so `create(2147483649)` is
refused with `ExceededMaxSize` instead of succeeding (or reporting
`MemErr`). -/
theorem c8_create_bound_off_by_one :
    (rb_tree_create 2147483649 false true).1 = RB_FAIL_EXCEEDED_MAX_SIZE ∧
    RB_FAIL_EXCEEDED_MAX_SIZE ≠ RB_SUCCESS ∧
    RB_FAIL_EXCEEDED_MAX_SIZE ≠ RB_FAIL_MEM_ERR := by
  exact ⟨rfl, by decide, by decide⟩

/-- Claim C8 as amended: `create` accepts exactly the capacities
`1 ≤ max_size ≤ (UINT32_MAX / 2) + 1 = 2147483648`: it returns
`SizeZero` for zero, succeeds for every in-bound capacity whenever
allocation succeeds (`MemErr` when it does not), and returns
`ExceededMaxSize` for every larger capacity. -/
theorem c8_create_accepts_exactly_max_tree_size :
    ∀ (m : Nat) (allocOk : Bool),
      (m = 0 → (rb_tree_create m false allocOk).1 = RB_FAIL_SIZE_ZERO) ∧
      (1 ≤ m → m ≤ 2147483648 →
        (rb_tree_create m false allocOk).1 =
          if allocOk then RB_SUCCESS else RB_FAIL_MEM_ERR) ∧
      (2147483648 < m →
        (rb_tree_create m false allocOk).1 = RB_FAIL_EXCEEDED_MAX_SIZE) := by
  intro m allocOk
  have hmax : MAX_TREE_SIZE = 2147483648 := rfl
  refine ⟨fun h0 => ?_, fun h1 h2 => ?_, fun h3 => ?_⟩
  · subst h0; rfl
  · have hne : m ≠ 0 := by omega
    have hgt : ¬ (m > MAX_TREE_SIZE) := by rw [hmax]; omega
    cases allocOk <;> simp [rb_tree_create, hne, hgt]
  · have hne : m ≠ 0 := by omega
    have hgt : m > MAX_TREE_SIZE := by rw [hmax]; omega
    simp [rb_tree_create, hne, hgt]

/-- Witness for the amended claim C8 at the three boundary capacities
0, 2147483648 and 2147483649. -/
theorem c8_create_accepts_exactly_max_tree_size_witness :
    (1 ≤ 2147483648 ∧ (2147483648 : Nat) ≤ 2147483648 ∧
      (rb_tree_create 2147483648 false true).1 = RB_SUCCESS) ∧
    ((0 : Nat) = 0 ∧ (rb_tree_create 0 false true).1 = RB_FAIL_SIZE_ZERO) ∧
    (2147483648 < 2147483649 ∧
      (rb_tree_create 2147483649 false true).1 = RB_FAIL_EXCEEDED_MAX_SIZE) := by
  refine ⟨⟨by decide, by decide, ?_⟩, ⟨rfl, ?_⟩, ⟨by decide, ?_⟩⟩
  · have h := (c8_create_accepts_exactly_max_tree_size 2147483648 true).2.1
      (by decide) (by decide)
    simpa using h
  · exact (c8_create_accepts_exactly_max_tree_size 0 true).1 rfl
  · exact (c8_create_accepts_exactly_max_tree_size 2147483649 true).2.2 (by decide)

/-- Claim C4: over every state whose pointer structure satisfies the
BST-with-gaps well-formedness `WT` (spec invariants I4/I6 plus no
`uint32` overflow), if `delete(v)` finds a node `n` with `v` strictly
inside its stored range, then: with an empty free-list the delete
returns `FailTreeFull` and the whole state is untouched; with free tail
`j` it returns `Success`, `n` is left holding the lower segment
`(n.value, v - n.value - 1)`, the fresh node `j` holds the upper
segment `[v+1, n.value+n.offset]` as `(v+1, hi - (v+1))`, and no other
node's range changes. -/
theorem c4_mid_range_split_delete :
    ∀ (fuel : Nat) (s : RBTreeState) (v n : Nat) (l : List Nat),
      WT s s.root (-2) 4294967298 l →
      n ∈ l →
      rb_tree_binary_search fuel s v = .ok (some n) →
      nodeLo s n < v →
      v < nodeHi s n →
      (∀ j, s.free_node_tail = some j → j < s.nodes.length ∧ j ∉ l) →
      l.length < fuel →
      (s.free_node_tail = none →
        rb_tree_delete fuel v (some s) = .ok (RB_FAIL_TREE_FULL, some s)) ∧
      (∀ j, s.free_node_tail = some j →
        ∃ s4, rb_tree_delete fuel v (some s) = .ok (RB_SUCCESS, some s4) ∧
          j ≠ n ∧
          (getNode s4 n).range =
            { value := nodeLo s n, offset := v - nodeLo s n - 1 } ∧
          (getNode s4 j).range =
            { value := v + 1, offset := nodeHi s n - (v + 1) } ∧
          (∀ q, q ≠ j → q ≠ n →
            (getNode s4 q).range = (getNode s q).range)) := by
  intro fuel s v n l hWT hn hsearch hlt hgt hfree hfuel
  obtain ⟨hnlen, _, _, hnmax⟩ := WT_mem_facts hWT n hn
  have hMM : UINT32_MAX < U32MOD := by decide
  have hLH : nodeLo s n ≤ nodeHi s n := Nat.le_add_right _ _
  -- the root is a node, since l is nonempty
  cases hr : s.root with
  | none =>
    rw [hr] at hWT
    rw [WT_none_eq hWT] at hn
    exact absurd hn (List.not_mem_nil n)
  | some r =>
    -- u32 arithmetic is exact here
    have hlt2 : nodeLo s n < v := hlt
    have hgt2 : v < nodeHi s n := hgt
    have hadd : u32add (getNode s n).range.value (getNode s n).range.offset =
        nodeHi s n := by
      apply u32add_small
      have hm := hnmax
      unfold nodeHi at hm
      omega
    have hk1 : u32add v 1 = v + 1 := by
      apply u32add_small
      omega
    -- reduce rb_tree_delete up to the split-insert call
    have hoff : (((getNode s n).range.offset == 0) : Bool) = false := by
      have h1 := hlt
      have h2 := hgt
      unfold nodeLo at h1
      unfold nodeHi at h2
      simp only [beq_eq_false_iff_ne, ne_eq]
      omega
    have hcond2 : ((v == (getNode s n).range.value) : Bool) = false := by
      have h1 := hlt
      unfold nodeLo at h1
      simp only [beq_eq_false_iff_ne, ne_eq]
      omega
    have hcond3 : ((v == u32add (getNode s n).range.value
        (getNode s n).range.offset) : Bool) = false := by
      rw [hadd]
      simp only [beq_eq_false_iff_ne, ne_eq]
      omega
    simp only [rb_tree_delete, hsearch, bind_ok, hoff, hcond2, hcond3,
      Bool.false_eq_true, if_false, Bool.false_and, hk1,
      try_binary_insert_or_merge, hr]
    have outcome := insert_loop_to_covered s (v + 1) n
      (by omega) s.root (-2) 4294967298 l (hr ▸ hWT) hn (by omega) (by omega)
      fuel hfuel r hr
    constructor
    · intro htail
      rw [outcome.1 htail, bind_ok]
      rfl
    · intro j htail
      obtain ⟨hjlen, hjl⟩ := hfree j htail
      obtain ⟨s2, heq, hlen2, hq2, hj2⟩ := outcome.2 j htail hjlen
      have hjn : j ≠ n := fun h => hjl (h ▸ hn)
      have hnj : n ≠ j := Ne.symm hjn
      have hgn2 : (getNode s2 n).range = (getNode s n).range := hq2 n hnj
      rw [heq, bind_ok]
      refine ⟨_, rfl, hjn, ?_, ?_, ?_⟩
      · -- node n keeps the lower segment
        rw [getNode_updNode_self]
        · rw [getNode_updNode_ne _ _ _ _ hnj, hgn2]
          have hval : (getNode s n).range.value = nodeLo s n := rfl
          rw [hval]
          have hsub1 : u32sub v (nodeLo s n) = v - nodeLo s n := by
            apply u32sub_small _ _ (by omega) (by omega)
          have hsub2 : u32sub (v - nodeLo s n) 1 = v - nodeLo s n - 1 := by
            apply u32sub_small _ _ (by omega) (by omega)
          rw [hsub1, hsub2]
        · rw [nodes_length_updNode, hlen2]
          exact hnlen
      · -- the fresh node j holds the upper segment
        have hjlen2 : j < s2.nodes.length := by rw [hlen2]; exact hjlen
        rw [getNode_updNode_ne _ _ _ _ hjn]
        rw [getNode_updNode_self _ _ _ hjlen2]
        rw [hj2]
        have hv2 : (getNode s2 n).range.value = (getNode s n).range.value :=
          congrArg RBRange.value hgn2
        have ho2 : (getNode s2 n).range.offset = (getNode s n).range.offset :=
          congrArg RBRange.offset hgn2
        rw [hv2, ho2, hadd]
        have hsub : u32sub (nodeHi s n) (v + 1) = nodeHi s n - (v + 1) := by
          apply u32sub_small _ _ (by omega) (by omega)
        rw [hsub]
      · -- every other node's range is unchanged
        intro q hqj hqn
        rw [getNode_updNode_ne _ _ _ _ hqn]
        rw [getNode_updNode_ne _ _ _ _ hqj]
        exact hq2 q hqj
/-- Witness for claim C4: a concrete arena of three slots, the tree
holding ranges `(0,4)` and `(10,0)` with one free slot, deleting the
value 2 from inside `(0,4)`. -/
theorem c4_mid_range_split_delete_witness :
    (let sW : RBTreeState :=
      { root := some 0, size := 2, max_size := 3, free_node_head := some 2,
        free_node_tail := some 2, node_block := true,
        nodes := [
          { range := { value := 0, offset := 4 }, parent := none, left := none,
            right := some 1, color := false, traversal_state := false },
          { range := { value := 10, offset := 0 }, parent := some 0,
            left := none, right := none, color := true,
            traversal_state := false },
          { range := { value := 0, offset := 0 }, parent := none, left := none,
            right := none, color := false, traversal_state := false }] }
     nodeLo sW 0 < 2 ∧ 2 < nodeHi sW 0 ∧
       rb_tree_binary_search 9 sW 2 = .ok (some 0) ∧
       ∃ s4, rb_tree_delete 9 2 (some sW) = .ok (RB_SUCCESS, some s4) ∧
         (getNode s4 0).range = { value := 0, offset := 1 } ∧
         (getNode s4 2).range = { value := 3, offset := 1 }) := by
  intro sW
  refine ⟨by decide, by decide, by rfl, ?_⟩
  have hWT : WT sW sW.root (-2) 4294967298 ([] ++ 0 :: ([] ++ 1 :: [])) :=
    WT.node 0 (-2) 4294967298 [] ([] ++ 1 :: [])
      (by decide) (by decide) (by decide) (by decide)
      (WT.nil _ _)
      (WT.node 1 _ 4294967298 [] [] (by decide) (by decide) (by decide)
        (by decide) (WT.nil _ _) (WT.nil _ _))
  have hfree : ∀ j, sW.free_node_tail = some j →
      j < sW.nodes.length ∧ j ∉ ([] ++ 0 :: ([] ++ 1 :: [])) := by
    intro j h
    injection h with h
    subst h
    exact ⟨by decide, by decide⟩
  obtain ⟨s4, hdel, _, hnr, hjr, _⟩ :=
    (c4_mid_range_split_delete 9 sW 2 0 ([] ++ 0 :: ([] ++ 1 :: []))
      hWT (by decide) (by rfl) (by decide) (by decide) hfree (by decide)).2
      2 rfl
  exact ⟨s4, hdel, hnr.trans (by decide), hjr.trans (by decide)⟩

/-- Claim C9 (first half as a universal fact, second half over every
state whose root node carries the range `(0, 2^32-2)` and has no right
child): `are_consecutive(2^32-1, 0)` is false, so ranges never merge
across the 32-bit wrap; and inserting `2^32-1` into a tree whose only
range is `(0, 2^32-2)` merges at the top of the value space, giving the
single range `(0, 2^32-1)` (the root node's offset is bumped in place,
no node is allocated). -/
theorem c9_no_wrap_merge_but_top_merge_works :
    are_consecutive UINT32_MAX 0 = false ∧
    ∀ (fuel : Nat) (s : RBTreeState) (i : Nat),
      s.root = some i →
      s.node_block = true →
      s.max_size ≠ 0 →
      i < s.nodes.length →
      (getNode s i).range = { value := 0, offset := 4294967294 } →
      (getNode s i).right = none →
      rb_tree_insert (fuel + 1) UINT32_MAX (some s) =
        .ok (RB_SUCCESS, some (updNode s i fun n =>
          { n with range := { n.range with offset := u32add n.range.offset 1 } })) ∧
      (getNode (updNode s i fun n =>
          { n with range := { n.range with offset := u32add n.range.offset 1 } }) i).range =
        { value := 0, offset := UINT32_MAX } := by
  constructor
  · rfl
  · intro fuel s i hroot hblock hmax hlen hrange hright
    constructor
    · have hmaxb : (s.max_size == 0) = false := by simp [hmax]
      have h4 : has_right_child s i = false := by
        simp [has_right_child, hright]
      rw [rb_tree_insert]
      simp only [hblock, hmaxb, Bool.not_true, Bool.or_false, Bool.false_eq_true,
        if_false, try_binary_insert_or_merge, hroot, insert_loop.eq_2, hrange,
        get_right_successor, h4, Bool.not_false, if_true]
      norm_num
      rfl
    · rw [getNode_updNode_self _ _ _ hlen, hrange]
      rfl

/-- Witness for claim C9: a concrete one-node arena holding the range
`(0, 2^32-2)`. -/
theorem c9_no_wrap_merge_but_top_merge_works_witness :
    (let s : RBTreeState :=
      { root := some 0, size := 1, max_size := 1, free_node_head := none,
        free_node_tail := none, node_block := true,
        nodes := [{ range := { value := 0, offset := 4294967294 },
                    parent := none, left := none, right := none,
                    color := false, traversal_state := false }] }
     s.root = some 0 ∧ s.node_block = true ∧ s.max_size ≠ 0 ∧
       0 < s.nodes.length ∧
       (getNode s 0).range = { value := 0, offset := 4294967294 } ∧
       (getNode s 0).right = none ∧
       rb_tree_insert 1 UINT32_MAX (some s) =
         .ok (RB_SUCCESS, some (updNode s 0 fun n =>
           { n with range := { n.range with offset := u32add n.range.offset 1 } })) ∧
       (getNode (updNode s 0 fun n =>
           { n with range := { n.range with offset := u32add n.range.offset 1 } }) 0).range =
         { value := 0, offset := UINT32_MAX }) := by
  refine ⟨rfl, rfl, by decide, by decide, rfl, rfl, ?_⟩
  exact (c9_no_wrap_merge_but_top_merge_works.2 0 _ 0 rfl rfl (by decide)
    (by decide) rfl rfl)

/-- Claim C10: at the NULL edge `is_empty` is false while `is_full` is
true; `create(0)` fails with `SizeZero` leaving a zeroed handle
(`size = 0`, `max_size = 0`), and on every such handle `is_empty` and
`is_full` are both true at once. -/
theorem c10_is_empty_is_full_edge_cases :
    rb_tree_is_empty none = false ∧
    rb_tree_is_full none = true ∧
    (∀ allocOk, rb_tree_create 0 false allocOk =
      (RB_FAIL_SIZE_ZERO,
        some { root := none, size := 0, max_size := 0, free_node_head := none,
               free_node_tail := none, node_block := false, nodes := [] })) ∧
    ∀ s : RBTreeState, s.size = 0 → s.max_size = 0 →
      rb_tree_is_empty (some s) = true ∧ rb_tree_is_full (some s) = true := by
  refine ⟨rfl, rfl, fun _ => rfl, fun s h1 h2 => ?_⟩
  constructor
  · simp [rb_tree_is_empty, h1]
  · simp [rb_tree_is_full, h1, h2]

/-- Witness for claim C10 at the handle left by a failed `create(0)`. -/
theorem c10_is_empty_is_full_edge_cases_witness :
    (let s : RBTreeState :=
      { root := none, size := 0, max_size := 0, free_node_head := none,
        free_node_tail := none, node_block := false, nodes := [] }
     s.size = 0 ∧ s.max_size = 0 ∧
       rb_tree_is_empty (some s) = true ∧ rb_tree_is_full (some s) = true) := by
  refine ⟨rfl, rfl, ?_, ?_⟩
  · exact (c10_is_empty_is_full_edge_cases.2.2.2 _ rfl rfl).1
  · exact (c10_is_empty_is_full_edge_cases.2.2.2 _ rfl rfl).2

end RBT
